import Mathlib

/-! TaskFlow backend: board ordering and status transitions.

A shallow embedding of the Express/Mongoose controllers of the repository
(`src/controllers/task.controller.js`, `src/controllers/project.controller.js`,
`src/controllers/comment.controller.js`, `src/models/Task.js`,
`src/models/Project.js`, `src/models/ActivityLog.js`,
`src/middleware/role.middleware.js`, `src/routes/project.routes.js`,
`src/routes/task.routes.js`, `src/utils/apiResponse.js`,
`src/utils/activityLogger.js`).

Conventions of the embedding
* The document store is an explicit `Store` value; every handler is a pure
  function from the store (and the request) to a `Result` and the next store.
* ObjectIds and dates are natural numbers. `order` is an integer held by a
  JavaScript Number; the one arithmetic operation on it, `x + 1` in
  `createTask`, is rounded as a Number (`toNumber`). A fresh ObjectId and
  the clock reading of `new Date()` are supplied by the `Env` of the call.
* A request field carries a value of its schema type. A field that may be
  `undefined` is an `Option`; where the source also distinguishes `null`
  (assignee, dueDate and status in `updateTask`) it is an `Option (Option _)`.
  The status of a stored task is a string or `null` (`none`).
* An exception that leaves the handler (Mongoose validation error, rejected
  external call) is `Result.thrown`; it is handled by the global error
  middleware, which is outside these sources. Nothing is written then.
  A write to the activity log may fail (`Env.logUp`); `logActivity`
  swallows that failure.
* `populate` calls and the `updatedAt` bookkeeping of `timestamps: true`
  are not represented.
* A collection is a list in insertion order. A write or delete by `_id`
  acts on the first document of that id; ids are unique in a store the
  handlers can reach, and a statement that needs it says so.
-/

namespace TaskFlow

abbrev ObjectId := Nat
abbrev Date := Nat

/-! ## Documents -/

/-- Sub-document of `attachmentSchema` in `models/Task.js`. -/
structure Attachment where
  _id : ObjectId
  url : String
  publicId : String
  name : String
  size : Nat
  type : String
  uploadedBy : ObjectId
  uploadedAt : Date
  deriving DecidableEq, Repr

/-- Document of `taskSchema` in `models/Task.js`. -/
structure Task where
  _id : ObjectId
  title : String
  description : String
  project : ObjectId
  assignee : Option ObjectId
  createdBy : ObjectId
  status : Option String
  priority : String
  dueDate : Option Date
  labels : List String
  attachments : List Attachment
  order : Int
  completedAt : Option Date
  createdAt : Date
  deriving DecidableEq, Repr

/-- Document of `projectSchema` in `models/Project.js`. -/
structure Project where
  _id : ObjectId
  name : String
  description : String
  owner : ObjectId
  members : List ObjectId
  status : String
  color : String
  coverImage : String
  deriving DecidableEq, Repr

/-- Comment document, as used by the controllers (`task`, `author`,
`content`, `isEdited`, creation time). -/
structure Comment where
  _id : ObjectId
  task : ObjectId
  author : ObjectId
  content : String
  isEdited : Bool
  createdAt : Date
  deriving DecidableEq, Repr

/-- Document of `activityLogSchema` in `models/ActivityLog.js`; `meta` is a
list of key/value pairs, a value being a string or `null` (`none`). -/
structure ActivityLog where
  project : ObjectId
  task : Option ObjectId
  user : ObjectId
  action : String
  meta : List (String × Option String)
  createdAt : Date
  deriving DecidableEq, Repr

/-- The authenticated principal `req.user` set by `verifyToken`. -/
structure User where
  _id : ObjectId
  role : String
  deriving DecidableEq, Repr

/-- User document, as used by the controllers (`name`, `email`, `role`). -/
structure UserDoc where
  _id : ObjectId
  name : String
  email : String
  role : String
  deriving DecidableEq, Repr

/-- The collections of the document store. -/
structure Store where
  projects : List Project
  tasks : List Task
  comments : List Comment
  logs : List ActivityLog
  users : List UserDoc := []
  deriving DecidableEq, Repr

/-- Sort documents of `sortMap` in `getTasks`. -/
inductive SortSpec
  | orderAsc
  | createdAtDesc
  | createdAtAsc
  | dueDateAsc
  | priorityDesc
  deriving DecidableEq, Repr

/-- Outcome of `cloudinary.uploader.destroy(publicId)`: the promise resolves
with `{ result: 'ok' }`, it resolves with `{ result: 'not found' }`, or it
is rejected. -/
inductive Destroyed
  | ok
  | notFound
  | rejected
  deriving DecidableEq, Repr

/-- Per-call environment: the reading of `new Date()`, the ObjectId the
driver generates for a created document, the outcome of a `destroy` of a
given public id at the external file store, whether the document store
accepts a write to the activity log, and the query engine of the document
store (`.sort(...)` of a result set, `$regex` matching with option `i`),
whose treatment of equal sort keys is its own. -/
structure Env where
  now : Date
  newId : ObjectId
  destroy : String → Destroyed
  logUp : Bool
  sortTasks : SortSpec → List Task → List Task
  sortComments : List Comment → List Comment
  regexTest : String → String → Bool
  sortLogs : List ActivityLog → List ActivityLog

/-- Statement `await cloudinary.uploader.destroy(publicId)`: the value the
promise resolves with is discarded, so the statement completes whenever the
call resolves (`true`); a rejected call throws (`false`). -/
def Env.destroyOk (env : Env) (publicId : String) : Bool :=
  decide (env.destroy publicId ≠ Destroyed.rejected)

/-! ## Response envelope (`utils/apiResponse.js`) -/

/-- Values that occur in response bodies. -/
inductive JVal
  | bool (b : Bool)
  | str (s : String)
  | num (n : Int)
  | task (t : Task)
  | tasks (ts : List Task)
  | project (p : Project) (taskCount : Nat)
  | comments (cs : List Comment)
  | upload (url publicId name : String) (size : Nat) (type : String) (uploadedBy : ObjectId)
  | pagination (total page limit : Nat) (pages : Option Nat)
  | projectDoc (p : Project)
  | logs (ls : List ActivityLog)
  deriving DecidableEq, Repr

/-- A JavaScript object literal: keys with their values, in insertion order. -/
abbrev JObj := List (String × JVal)

/-- Property assignment `o[k] = v`: overwrite in place, or append a new key. -/
def setKey : JObj → String → JVal → JObj
  | [], k, v => [(k, v)]
  | (k0, v0) :: rest, k, v =>
    if k0 = k then (k0, v) :: rest else (k0, v0) :: setKey rest k v

/-- Object spread `{ ...base, ...data }`. -/
def spread (base data : JObj) : JObj :=
  data.foldl (fun acc kv => setKey acc kv.1 kv.2) base

/-- Property read `o[k]`. -/
def getKey (o : JObj) (k : String) : Option JVal :=
  (o.find? (fun kv => kv.1 = k)).map Prod.snd

/-- `success(message, data)` is `{ success: true, message, ...data }`. -/
def success (message : String) (data : JObj := []) : JObj :=
  spread [("success", JVal.bool true), ("message", JVal.str message)] data

/-- `error(message, data)` is `{ success: false, message, ...data }`. -/
def error (message : String) (data : JObj := []) : JObj :=
  spread [("success", JVal.bool false), ("message", JVal.str message)] data

/-- Outcome of a handler: a response `res.status(code).json(body)`, or an
exception passed on to the global error middleware. -/
inductive Result
  | sent (code : Nat) (body : JObj)
  | thrown (err : String)
  deriving DecidableEq, Repr

/-! ## JavaScript and Mongoose helpers -/

/-- Truthiness of a possibly-undefined string: `undefined` and `''` are falsy. -/
def truthy : Option String → Bool
  | some s => s ≠ ""
  | none => false

/-- The expression `x || d` for a possibly-undefined string. -/
def orDefault (x : Option String) (d : String) : String :=
  match x with
  | some s => if s ≠ "" then s else d
  | none => d

/-- White space as removed by `String.prototype.trim`, by code point. -/
def isSpace (c : Char) : Bool :=
  decide (c.toNat ∈ [9, 10, 11, 12, 13, 32, 160, 5760, 8192, 8193, 8194, 8195, 8196, 8197,
    8198, 8199, 8200, 8201, 8202, 8232, 8233, 8239, 8287, 12288, 65279])

/-- The `trim: true` setter of a String path. -/
def trim (s : String) : String :=
  ⟨((s.data.dropWhile isSpace).reverse.dropWhile isSpace).reverse⟩

/-- Property `s.length` of a JavaScript string: the number of UTF-16 code
units, two for a character outside the Basic Multilingual Plane. -/
def jsLength (s : String) : Nat :=
  (s.data.map (fun c => if c.toNat < 65536 then 1 else 2)).sum

def statusEnum : List String := ["todo", "in_progress", "in_review", "done"]

def priorityEnum : List String := ["low", "medium", "high", "critical"]

/-- Schema validation of a task document (`models/Task.js`): required
title of length 2 to 200, description of at most 2000, enumerated status
and priority, labels of at most 30, attachments with their required
strings. The path `status` is not required, and the `enum` validator
passes `null`. -/
def validTask (t : Task) : Bool :=
  decide (2 ≤ jsLength t.title) && decide (jsLength t.title ≤ 200)
    && decide (jsLength t.description ≤ 2000)
    && (match t.status with
        | some s => decide (s ∈ statusEnum)
        | none => true)
    && decide (t.priority ∈ priorityEnum)
    && t.labels.all (fun l => decide (jsLength l ≤ 30))
    && t.attachments.all (fun a => a.url ≠ "" && a.publicId ≠ "" && a.name ≠ "")

/-- Hook `taskSchema.pre('save')`: when `status` is modified, a done task
without completion date gets one, and a task that is not done loses it. -/
def preSave (now : Date) (statusModified : Bool) (t : Task) : Task :=
  if statusModified then
    if t.status = some "done" ∧ t.completedAt = none then { t with completedAt := some now }
    else if t.status ≠ some "done" then { t with completedAt := none }
    else t
  else t

/-- Method `doc.save()`: schema validation, then the pre-save hook. -/
def saveTask (now : Date) (statusModified : Bool) (t : Task) : Option Task :=
  if validTask t then some (preSave now statusModified t) else none

/-! ## Activity recorder (`utils/activityLogger.js`) -/

def actionEnum : List String :=
  ["created_project", "updated_project", "created_task", "updated_task",
   "deleted_task", "changed_status", "assigned_task", "added_comment",
   "uploaded_file", "added_member", "removed_member"]

/-- `logActivity` over a store that accepts the write: `ActivityLog.create`
inside `try`/`catch`; an entry that fails the schema (action outside the
enumeration) is dropped. -/
def logActivity (now : Date) (st : Store) (projectId : ObjectId)
    (taskId : Option ObjectId) (userId : ObjectId) (action : String)
    (meta : List (String × Option String)) : Store :=
  if action ∈ actionEnum then
    { st with logs := st.logs ++
        [{ project := projectId, task := taskId, user := userId,
           action := action, meta := meta, createdAt := now }] }
  else st

/-- `ActivityLog.create(doc)`: rejected when the store refuses the write
(`storeUp = false`) or when the document fails the schema. -/
def createActivityLog (storeUp : Bool) (st : Store) (entry : ActivityLog) :
    Except String Store :=
  if storeUp = false then Except.error "MongoNetworkError"
  else if entry.action ∈ actionEnum then Except.ok { st with logs := st.logs ++ [entry] }
  else Except.error "ValidationError"

/-- `logActivity` over a store that may refuse the write: the `try` block
awaits `ActivityLog.create`, the `catch` block only logs the message. The
result is what the caller of `logActivity` receives: the next store, or
the exception that leaves the function. -/
def logActivityOn (storeUp : Bool) (now : Date) (st : Store) (projectId : ObjectId)
    (taskId : Option ObjectId) (userId : ObjectId) (action : String)
    (meta : List (String × Option String)) : Except String Store :=
  match createActivityLog storeUp st
      { project := projectId, task := taskId, user := userId,
        action := action, meta := meta, createdAt := now } with
  | Except.ok st' => Except.ok st'
  | Except.error _ => Except.ok st

/-- A statement `await logActivity({ ... })` of a handler: the store that
`logActivity` leaves, with the entry when the write succeeds and as it was
when the failure is swallowed. -/
def logEvent (env : Env) (st : Store) (projectId : ObjectId)
    (taskId : Option ObjectId) (userId : ObjectId) (action : String)
    (meta : List (String × Option String)) : Store :=
  match logActivityOn env.logUp env.now st projectId taskId userId action meta with
  | Except.ok st' => st'
  | Except.error _ => st

/-! ## Authorization guard -/

/-- Result of `checkProjectAccess`: `null`, `false`, or the project. -/
inductive Access
  | missing
  | denied
  | granted (project : Project)
  deriving DecidableEq, Repr

/-- `Project.findById`. -/
def findProject (st : Store) (projectId : ObjectId) : Option Project :=
  st.projects.find? (fun p => p._id = projectId)

/-- Membership test shared by `checkProjectAccess` and `getProject`. -/
def isMember (project : Project) (userId : ObjectId) : Bool :=
  project.owner = userId || project.members.any (fun m => m = userId)

/-- Helper `checkProjectAccess` of `task.controller.js`. -/
def checkProjectAccess (st : Store) (projectId userId : ObjectId) : Access :=
  match findProject st projectId with
  | none => Access.missing
  | some project => if isMember project userId then Access.granted project else Access.denied

/-! ## Task creation -/

/-- Body of `POST /api/projects/:projectId/tasks`. -/
structure CreateTaskBody where
  title : Option String := none
  description : Option String := none
  assignee : Option ObjectId := none
  priority : Option String := none
  dueDate : Option Date := none
  labels : Option (List String) := none
  status : Option String := none
  deriving DecidableEq, Repr

/-- The tasks matched by the filter `{ project, status }`. -/
def column (tasks : List Task) (projectId : ObjectId) (status : String) : List Task :=
  tasks.filter (fun t => t.project = projectId ∧ t.status = some status)

/-- First document of a list under `.sort({ order: -1 })`: one of greatest
`order` (the earliest such in store order). -/
def maxByOrder : List Task → Option Task
  | [] => none
  | t :: rest =>
    match maxByOrder rest with
    | none => some t
    | some m => if t.order < m.order then some m else some t

/-- Query `Task.findOne({ project, status }).sort({ order: -1 })`. -/
def maxOrderTask (st : Store) (projectId : ObjectId) (status : String) : Option Task :=
  maxByOrder (column st.tasks projectId status)

/-- The least number of halvings that brings a magnitude below 2^53; the
first argument bounds the search. -/
def halvings : Nat → Nat → Nat
  | 0, _ => 0
  | fuel + 1, a => if a < 2 ^ 53 then 0 else halvings fuel (a / 2) + 1

/-- The Number (IEEE 754 binary64) nearest to an integer, ties to the even
significand, for magnitudes in the finite range of a Number: an integer of
magnitude at most 2^53 is its own value, a larger one keeps its 53 leading
bits. -/
def toNumber (n : Int) : Int :=
  if n.natAbs ≤ 2 ^ 53 then n
  else
    let e := halvings n.natAbs n.natAbs
    let q := n.natAbs / 2 ^ e
    let r := n.natAbs % 2 ^ e
    let m := if 2 ^ e < 2 * r ∨ (2 * r = 2 ^ e ∧ q % 2 = 1) then q + 1 else q
    if n < 0 then -((m * 2 ^ e : Nat) : Int) else ((m * 2 ^ e : Nat) : Int)

/-- JavaScript `x + 1` on a Number that holds the integer `x`: the exact
sum, rounded to a Number. -/
def addOne (x : Int) : Int := toNumber (x + 1)

/-- Line `const order = maxOrderTask ? maxOrderTask.order + 1 : 0`. -/
def nextOrder (st : Store) (projectId : ObjectId) (status : String) : Int :=
  match maxOrderTask st projectId status with
  | some m => addOne m.order
  | none => 0

/-- The document passed to `Task.create` by `createTask`, after the
schema setters (`trim`) and defaults. -/
def newTask (env : Env) (user : User) (projectId : ObjectId) (body : CreateTaskBody)
    (order : Int) : Task :=
  { _id := env.newId
    title := trim (body.title.getD "")
    description := trim (body.description.getD "")
    project := projectId
    assignee := body.assignee
    createdBy := user._id
    status := some (orDefault body.status "todo")
    priority := orDefault body.priority "medium"
    dueDate := body.dueDate
    labels := (body.labels.getD []).map trim
    attachments := []
    order := order
    completedAt := none
    createdAt := env.now }

/-- Handler `createTask`. -/
def createTask (env : Env) (st : Store) (user : User) (projectId : ObjectId)
    (body : CreateTaskBody) : Result × Store :=
  match checkProjectAccess st projectId user._id with
  | Access.missing => (Result.sent 404 (error "Project not found"), st)
  | Access.denied => (Result.sent 403 (error "Access denied"), st)
  | Access.granted _ =>
    if !truthy body.title then (Result.sent 400 (error "Task title is required"), st)
    else
      let order := nextOrder st projectId (orDefault body.status "todo")
      match saveTask env.now true (newTask env user projectId body order) with
      | none => (Result.thrown "ValidationError", st)
      | some task =>
        let st1 := { st with tasks := st.tasks ++ [task] }
        let st2 := logEvent env st1 projectId (some task._id) user._id
          "created_task" [("taskTitle", some task.title)]
        (Result.sent 201 (success "Task created" [("task", JVal.task task)]), st2)

/-! ## Task update -/

/-- Body of `PATCH /api/projects/:projectId/tasks/:taskId`; `none` is
`undefined`, and for `assignee`, `dueDate` and `status` the value
`some none` is `null`. -/
structure UpdateTaskBody where
  title : Option String := none
  description : Option String := none
  assignee : Option (Option ObjectId) := none
  priority : Option String := none
  dueDate : Option (Option Date) := none
  labels : Option (List String) := none
  status : Option (Option String) := none
  order : Option Int := none
  deriving DecidableEq, Repr

/-- Query `Task.findOne({ _id: taskId, project: projectId })`. -/
def findTask (st : Store) (taskId projectId : ObjectId) : Option Task :=
  st.tasks.find? (fun t => t._id = taskId ∧ t.project = projectId)

/-- Point update of the first document that matches a filter. -/
def updateFirst (p : Task → Bool) (f : Task → Task) : List Task → List Task
  | [] => []
  | t :: rest => if p t then f t :: rest else t :: updateFirst p f rest

/-- Persisting a saved document: the stored document of that `_id` is replaced. -/
def writeTask (st : Store) (task : Task) : Store :=
  { st with tasks := updateFirst (fun t => t._id = task._id) (fun _ => task) st.tasks }

/-- The field assignments `if (x !== undefined) task.x = x` of `updateTask`,
with the `trim` setters of the schema; each touches its own field. -/
def applyUpdate (task : Task) (body : UpdateTaskBody) : Task :=
  { task with
    title := match body.title with
      | some v => trim v
      | none => task.title
    description := match body.description with
      | some v => trim v
      | none => task.description
    assignee := match body.assignee with
      | some v => v
      | none => task.assignee
    priority := match body.priority with
      | some v => v
      | none => task.priority
    dueDate := match body.dueDate with
      | some v => v
      | none => task.dueDate
    labels := match body.labels with
      | some v => v.map trim
      | none => task.labels
    status := match body.status with
      | some v => v
      | none => task.status
    order := match body.order with
      | some v => v
      | none => task.order }

/-- Condition `status && status !== oldStatus` of `updateTask`: the
requested status is truthy (a non-empty string, not `undefined` and not
`null`) and differs from the stored one. -/
def statusChanged (status : Option (Option String)) (oldStatus : Option String) : Bool :=
  truthy status.join && decide (status ≠ some oldStatus)

/-- The logging step of `updateTask`: `changed_status` with the old and the
requested status when `status && status !== oldStatus`, else `updated_task`. -/
def updateLogged (env : Env) (st : Store) (user : User) (projectId : ObjectId)
    (body : UpdateTaskBody) (oldStatus : Option String) (saved : Task) : Store :=
  if statusChanged body.status oldStatus then
    logEvent env st projectId (some saved._id) user._id "changed_status"
      [("taskTitle", some saved.title), ("from", oldStatus), ("to", body.status.join)]
  else
    logEvent env st projectId (some saved._id) user._id "updated_task"
      [("taskTitle", some saved.title)]

/-- Handler `updateTask`. The path `status` is modified when the assigned
value differs from the loaded one. -/
def updateTask (env : Env) (st : Store) (user : User) (projectId taskId : ObjectId)
    (body : UpdateTaskBody) : Result × Store :=
  match checkProjectAccess st projectId user._id with
  | Access.missing => (Result.sent 404 (error "Project not found"), st)
  | Access.denied => (Result.sent 403 (error "Access denied"), st)
  | Access.granted _ =>
    match findTask st taskId projectId with
    | none => (Result.sent 404 (error "Task not found"), st)
    | some task =>
      let oldStatus := task.status
      let edited := applyUpdate task body
      match saveTask env.now (decide (edited.status ≠ oldStatus)) edited with
      | none => (Result.thrown "ValidationError", st)
      | some saved =>
        (Result.sent 200 (success "Task updated" [("task", JVal.task saved)]),
          updateLogged env (writeTask st saved) user projectId body oldStatus saved)

/-! ## Bulk reorder -/

/-- One element `{ _id, status, order }` of the reorder list. -/
structure ReorderItem where
  _id : ObjectId
  status : String
  order : Int
  deriving DecidableEq, Repr

/-- The update document `{ $set: { status, order } }` of a reorder tuple. -/
def setItem (item : ReorderItem) (t : Task) : Task :=
  { t with status := some item.status, order := item.order }

/-- One `updateOne` operation: filter `{ _id, project: projectId }`,
update `{ $set: { status, order } }`. No document middleware runs. -/
def updateOne (projectId : ObjectId) (tasks : List Task) (item : ReorderItem) : List Task :=
  updateFirst (fun t => t._id = item._id ∧ t.project = projectId) (setItem item) tasks

/-- Call `Task.bulkWrite(bulkOps)`: the operations are applied in list
order; an empty list of operations writes nothing. -/
def bulkWrite (projectId : ObjectId) (tasks : List Task) (items : List ReorderItem) : List Task :=
  items.foldl (updateOne projectId) tasks

/-- Handler `reorderTasks`; the body field `tasks` is `none` when it is not
an array. -/
def reorderTasks (st : Store) (user : User) (projectId : ObjectId)
    (tasks : Option (List ReorderItem)) : Result × Store :=
  match checkProjectAccess st projectId user._id with
  | Access.missing => (Result.sent 404 (error "Project not found"), st)
  | Access.denied => (Result.sent 403 (error "Access denied"), st)
  | Access.granted _ =>
    match tasks with
    | none => (Result.sent 400 (error "tasks must be an array"), st)
    | some items =>
      (Result.sent 200 (success "Tasks reordered"),
        { st with tasks := bulkWrite projectId st.tasks items })

/-! ## Reads -/

/-- Virtual `taskCount` of a project: the tasks that reference it. -/
def taskCount (st : Store) (projectId : ObjectId) : Nat :=
  (st.tasks.filter (fun t => t.project = projectId)).length

/-- Handler `getProject` of `project.controller.js`. -/
def getProject (st : Store) (user : User) (id : ObjectId) : Result × Store :=
  match findProject st id with
  | none => (Result.sent 404 (error "Project not found"), st)
  | some project =>
    if !isMember project user._id then (Result.sent 403 (error "Access denied"), st)
    else
      (Result.sent 200
        (success "Project fetched" [("project", JVal.project project (taskCount st project._id))]),
        st)

/-- Query string of `GET /api/projects/:projectId/tasks`, with the defaults
of the destructuring (`page = 1`, `limit = 50`, `sort = 'order'`). -/
structure TaskQuery where
  status : Option String := none
  priority : Option String := none
  assignee : Option ObjectId := none
  search : Option String := none
  page : Nat := 1
  limit : Nat := 50
  sort : String := "order"

/-- Lookup `sortMap[sort] || { order: 1 }`. -/
def sortMap (sort : String) : SortSpec :=
  if sort = "-createdAt" then SortSpec.createdAtDesc
  else if sort = "createdAt" then SortSpec.createdAtAsc
  else if sort = "dueDate" then SortSpec.dueDateAsc
  else if sort = "priority" then SortSpec.priorityDesc
  else SortSpec.orderAsc

/-- The filter document built by `getTasks`. -/
def matchesQuery (env : Env) (projectId : ObjectId) (q : TaskQuery) (t : Task) : Bool :=
  decide (t.project = projectId)
    && (if truthy q.status then decide (t.status = q.status) else true)
    && (if truthy q.priority then decide (some t.priority = q.priority) else true)
    && (match q.assignee with
        | some a => decide (t.assignee = some a)
        | none => true)
    && (if truthy q.search then env.regexTest (q.search.getD "") t.title else true)

/-- Handler `getTasks`. A negative `skip` (page 0 with a positive limit) is
refused by the store; limit 0 means no limit, and then the page count
`Math.ceil(total / limit)` is not a finite number. -/
def getTasks (env : Env) (st : Store) (user : User) (projectId : ObjectId)
    (q : TaskQuery) : Result × Store :=
  match checkProjectAccess st projectId user._id with
  | Access.missing => (Result.sent 404 (error "Project not found"), st)
  | Access.denied => (Result.sent 403 (error "Access denied"), st)
  | Access.granted _ =>
    if q.page = 0 ∧ 0 < q.limit then (Result.thrown "MongoServerError", st)
    else
      let found := st.tasks.filter (matchesQuery env projectId q)
      let sorted := env.sortTasks (sortMap q.sort) found
      let skipped := sorted.drop ((q.page - 1) * q.limit)
      let page := if q.limit = 0 then skipped else skipped.take q.limit
      let total := found.length
      let pages := if q.limit = 0 then none else some ((total + q.limit - 1) / q.limit)
      (Result.sent 200
        (success "Tasks fetched"
          [("tasks", JVal.tasks page),
           ("pagination", JVal.pagination total q.page q.limit pages)]),
        st)

/-- Handler `getTask`. -/
def getTask (env : Env) (st : Store) (user : User) (projectId taskId : ObjectId) :
    Result × Store :=
  match checkProjectAccess st projectId user._id with
  | Access.missing => (Result.sent 404 (error "Project not found"), st)
  | Access.denied => (Result.sent 403 (error "Access denied"), st)
  | Access.granted _ =>
    match findTask st taskId projectId with
    | none => (Result.sent 404 (error "Task not found"), st)
    | some task =>
      let comments := env.sortComments (st.comments.filter (fun c => c.task = taskId))
      (Result.sent 200
        (success "Task fetched" [("task", JVal.task task), ("comments", JVal.comments comments)]),
        st)

/-! ## Attachments -/

/-- The uploaded file `req.file` set by the upload middleware. -/
structure FileInfo where
  path : String
  filename : String
  originalname : String
  size : Nat
  mimetype : String
  deriving DecidableEq, Repr

/-- Handler `uploadTaskFile`. -/
def uploadTaskFile (env : Env) (st : Store) (user : User) (projectId taskId : ObjectId)
    (file : Option FileInfo) : Result × Store :=
  match file with
  | none => (Result.sent 400 (error "No file uploaded"), st)
  | some f =>
    match checkProjectAccess st projectId user._id with
    | Access.missing => (Result.sent 404 (error "Project not found"), st)
    | Access.denied => (Result.sent 403 (error "Access denied"), st)
    | Access.granted _ =>
      match findTask st taskId projectId with
      | none => (Result.sent 404 (error "Task not found"), st)
      | some task =>
        let attachment : Attachment :=
          { _id := env.newId, url := f.path, publicId := f.filename, name := f.originalname,
            size := f.size, type := f.mimetype, uploadedBy := user._id, uploadedAt := env.now }
        let edited := { task with attachments := task.attachments ++ [attachment] }
        match saveTask env.now false edited with
        | none => (Result.thrown "ValidationError", st)
        | some saved =>
          let st1 := writeTask st saved
          let st2 := logEvent env st1 projectId (some saved._id) user._id "uploaded_file"
            [("taskTitle", some saved.title), ("fileName", some f.originalname)]
          (Result.sent 200
            (success "File uploaded"
              [("attachment",
                JVal.upload f.path f.filename f.originalname f.size f.mimetype user._id)]),
            st2)

/-- Handler `deleteTaskFile`. -/
def deleteTaskFile (env : Env) (st : Store) (projectId taskId attachmentId : ObjectId) :
    Result × Store :=
  match findTask st taskId projectId with
  | none => (Result.sent 404 (error "Task not found"), st)
  | some task =>
    match task.attachments.find? (fun a => a._id = attachmentId) with
    | none => (Result.sent 404 (error "Attachment not found"), st)
    | some attachment =>
      if attachment.publicId ≠ "" ∧ env.destroyOk attachment.publicId = false then
        (Result.thrown "CloudinaryError", st)
      else
        let edited :=
          { task with attachments := task.attachments.filter (fun a => a._id ≠ attachmentId) }
        match saveTask env.now false edited with
        | none => (Result.thrown "ValidationError", st)
        | some saved => (Result.sent 200 (success "Attachment deleted"), writeTask st saved)

/-! ## Project mutations (`project.controller.js`) -/

def projectStatusEnum : List String := ["active", "archived"]

def isHexDigit (c : Char) : Bool :=
  decide ((48 ≤ c.toNat ∧ c.toNat ≤ 57) ∨ (97 ≤ c.toNat ∧ c.toNat ≤ 102)
    ∨ (65 ≤ c.toNat ∧ c.toNat ≤ 70))

/-- The pattern `/^#[0-9A-Fa-f]{6}$/`. -/
def isHexColor (s : String) : Bool :=
  match s.data with
  | '#' :: rest => decide (rest.length = 6) && rest.all isHexDigit
  | _ => false

/-- Schema validation of a project document (`models/Project.js`): name of
length 2 to 100, description of at most 500, enumerated status, and a
colour that is empty or matches the pattern. -/
def validProject (p : Project) : Bool :=
  decide (2 ≤ jsLength p.name) && decide (jsLength p.name ≤ 100)
    && decide (jsLength p.description ≤ 500)
    && decide (p.status ∈ projectStatusEnum)
    && (decide (p.color = "") || isHexColor p.color)

/-- Method `project.save()`. -/
def saveProject (p : Project) : Option Project :=
  if validProject p then some p else none

/-- Replace the first element that matches a filter. -/
def replaceFirst {α : Type} (p : α → Bool) (x : α) : List α → List α
  | [] => []
  | y :: rest => if p y then x :: rest else y :: replaceFirst p x rest

/-- Persisting a saved project: the stored document of that `_id` is replaced. -/
def writeProject (st : Store) (project : Project) : Store :=
  { st with projects := replaceFirst (fun q => q._id = project._id) project st.projects }

/-- The test `project.owner === req.user._id || req.user.role === 'admin'`
whose negation guards the four project mutations. -/
def ownerOrAdmin (project : Project) (user : User) : Bool :=
  decide (project.owner = user._id) || decide (user.role = "admin")

/-- Body of `PUT /api/projects/:id`. -/
structure UpdateProjectBody where
  name : Option String := none
  description : Option String := none
  color : Option String := none
  status : Option String := none
  deriving DecidableEq, Repr

/-- The assignments of `updateProject`: `name`, `color` and `status` when
truthy, `description` when not `undefined`. -/
def applyProjectUpdate (project : Project) (body : UpdateProjectBody) : Project :=
  { project with
    name := if truthy body.name then trim (body.name.getD "") else project.name
    description := match body.description with
      | some v => trim v
      | none => project.description
    color := if truthy body.color then body.color.getD "" else project.color
    status := if truthy body.status then body.status.getD "" else project.status }

/-- Handler `updateProject`. -/
def updateProject (env : Env) (st : Store) (user : User) (id : ObjectId)
    (body : UpdateProjectBody) : Result × Store :=
  match findProject st id with
  | none => (Result.sent 404 (error "Project not found"), st)
  | some project =>
    if !ownerOrAdmin project user then
      (Result.sent 403 (error "Only project owner or admin can update"), st)
    else
      match saveProject (applyProjectUpdate project body) with
      | none => (Result.thrown "ValidationError", st)
      | some saved =>
        let st1 := writeProject st saved
        let st2 := logEvent env st1 saved._id none user._id "updated_project"
          [("projectName", some saved.name)]
        (Result.sent 200 (success "Project updated" [("project", JVal.projectDoc saved)]), st2)

/-- Handler `deleteProject`: `Task.deleteMany({ project })`,
`ActivityLog.deleteMany({ project })`, `Project.findByIdAndDelete`. -/
def deleteProject (st : Store) (user : User) (id : ObjectId) : Result × Store :=
  match findProject st id with
  | none => (Result.sent 404 (error "Project not found"), st)
  | some project =>
    if !ownerOrAdmin project user then
      (Result.sent 403 (error "Only project owner or admin can delete"), st)
    else
      (Result.sent 200 (success "Project deleted successfully"),
        { st with
          tasks := st.tasks.filter (fun t => t.project ≠ project._id)
          logs := st.logs.filter (fun l => l.project ≠ project._id)
          projects := st.projects.eraseP (fun q => q._id = project._id) })

/-- Method `email.toLowerCase()`, on the letters A to Z. -/
def toLowerCase (s : String) : String :=
  ⟨s.data.map Char.toLower⟩

/-- Handler `addMember`; the body carries `email`. -/
def addMember (env : Env) (st : Store) (user : User) (id : ObjectId)
    (email : Option String) : Result × Store :=
  if !truthy email then (Result.sent 400 (error "Member email is required"), st)
  else
    match findProject st id with
    | none => (Result.sent 404 (error "Project not found"), st)
    | some project =>
      if !ownerOrAdmin project user then
        (Result.sent 403 (error "Only project owner or admin can add members"), st)
      else
        match st.users.find? (fun u => u.email = toLowerCase (email.getD "")) with
        | none => (Result.sent 404 (error "User with this email not found"), st)
        | some userToAdd =>
          if project.members.contains userToAdd._id then
            (Result.sent 409 (error "User is already a member"), st)
          else
            match saveProject { project with members := project.members ++ [userToAdd._id] } with
            | none => (Result.thrown "ValidationError", st)
            | some saved =>
              let st1 := writeProject st saved
              let st2 := logEvent env st1 saved._id none user._id "added_member"
                [("memberName", some userToAdd.name), ("memberEmail", some userToAdd.email)]
              (Result.sent 200
                (success "Member added successfully" [("project", JVal.projectDoc saved)]), st2)

/-- Handler `removeMember`. -/
def removeMember (env : Env) (st : Store) (user : User) (id memberId : ObjectId) :
    Result × Store :=
  match findProject st id with
  | none => (Result.sent 404 (error "Project not found"), st)
  | some project =>
    if !ownerOrAdmin project user then
      (Result.sent 403 (error "Only project owner or admin can remove members"), st)
    else if project.owner = memberId then
      (Result.sent 400 (error "Cannot remove project owner"), st)
    else
      match saveProject
          { project with members := project.members.filter (fun m => m ≠ memberId) } with
      | none => (Result.thrown "ValidationError", st)
      | some saved =>
        let st1 := writeProject st saved
        let st2 := logEvent env st1 saved._id none user._id "removed_member"
          [("removedUserId", some (toString memberId))]
        (Result.sent 200 (success "Member removed" [("project", JVal.projectDoc saved)]), st2)

/-! ## Project creation and activity feed (`project.controller.js`) -/

/-- Body of `POST /api/projects`. -/
structure CreateProjectBody where
  name : Option String := none
  description : Option String := none
  color : Option String := none
  deriving DecidableEq, Repr

/-- The document passed to `Project.create` by `createProject`, after the
schema setters (`trim`) and defaults. -/
def newProject (env : Env) (user : User) (body : CreateProjectBody) : Project :=
  { _id := env.newId
    name := trim (body.name.getD "")
    description := trim (body.description.getD "")
    owner := user._id
    members := [user._id]
    status := "active"
    color := body.color.getD "#6c63ff"
    coverImage := "" }

/-- Handler `createProject`. -/
def createProject (env : Env) (st : Store) (user : User) (body : CreateProjectBody) :
    Result × Store :=
  if !truthy body.name then (Result.sent 400 (error "Project name is required"), st)
  else
    match saveProject (newProject env user body) with
    | none => (Result.thrown "ValidationError", st)
    | some project =>
      let st1 := { st with projects := st.projects ++ [project] }
      let st2 := logEvent env st1 project._id none user._id "created_project"
        [("projectName", some project.name)]
      (Result.sent 201 (success "Project created" [("project", JVal.projectDoc project)]), st2)

/-- Query string of `GET /api/projects/:id/activity`, with the defaults of
the destructuring (`page = 1`, `limit = 20`). -/
structure ActivityQuery where
  page : Nat := 1
  limit : Nat := 20

/-- Handler `getActivity`. The handler does not read `req.user`; the
principal of the request is carried along for the statements about it. -/
def getActivity (env : Env) (st : Store) (_user : User) (id : ObjectId)
    (q : ActivityQuery) : Result × Store :=
  match findProject st id with
  | none => (Result.sent 404 (error "Project not found"), st)
  | some _ =>
    if q.page = 0 ∧ 0 < q.limit then (Result.thrown "MongoServerError", st)
    else
      let found := st.logs.filter (fun l => l.project = id)
      let sorted := env.sortLogs found
      let skipped := sorted.drop ((q.page - 1) * q.limit)
      let page := if q.limit = 0 then skipped else skipped.take q.limit
      let total := found.length
      let pages := if q.limit = 0 then none else some ((total + q.limit - 1) / q.limit)
      (Result.sent 200
        (success "Activity fetched"
          [("logs", JVal.logs page),
           ("pagination", JVal.pagination total q.page q.limit pages)]),
        st)

/-! ## Role middleware and routes -/

/-- Middleware `requireRole(...roles)` of `role.middleware.js`; `req.user`
is `none` when no principal is set. The value `none` is `next()`. -/
def requireRole (roles : List String) (user : Option User) : Option Result :=
  match user with
  | none => some (Result.sent 401 (error "Authentication required"))
  | some u =>
    if roles.contains u.role then none
    else some (Result.sent 403
      (error ("Access denied. Required role: " ++ " or ".intercalate roles)))

/-- Middleware `requireAdmin = requireRole('admin')`. -/
def requireAdmin (user : Option User) : Option Result :=
  requireRole ["admin"] user

/-- Route `POST /api/projects` of `project.routes.js` for a principal
authenticated by `verifyToken`: `router.route('/').post(createProject)`,
with no role middleware in between. -/
def postProject (env : Env) (st : Store) (user : User) (body : CreateProjectBody) :
    Result × Store :=
  createProject env st user body

/-- Route `DELETE /api/projects/:projectId/tasks/:taskId/attachments/:attachmentId`
of `task.routes.js` for a principal authenticated by `verifyToken`; the
handler `deleteTaskFile` does not read the principal. -/
def deleteAttachment (env : Env) (st : Store) (_user : User)
    (projectId taskId attachmentId : ObjectId) : Result × Store :=
  deleteTaskFile env st projectId taskId attachmentId

/-! ## Task deletion -/

/-- The test `canDelete` of `deleteTask`: admin, project owner or creator. -/
def canDelete (user : User) (project : Project) (task : Task) : Bool :=
  decide (user.role = "admin") || decide (project.owner = user._id)
    || decide (task.createdBy = user._id)

/-- The loop over `task.attachments` of `deleteTask`: every attachment with a
public id is destroyed in the external file store and the resolved value
is discarded; `false` when one of these calls is rejected. -/
def destroyAttachments (env : Env) (task : Task) : Bool :=
  task.attachments.all (fun a => decide (a.publicId = "") || env.destroyOk a.publicId)

/-- Handler `deleteTask`. -/
def deleteTask (env : Env) (st : Store) (user : User) (projectId taskId : ObjectId) :
    Result × Store :=
  match checkProjectAccess st projectId user._id with
  | Access.missing => (Result.sent 404 (error "Project not found"), st)
  | Access.denied => (Result.sent 403 (error "Access denied"), st)
  | Access.granted project =>
    match findTask st taskId projectId with
    | none => (Result.sent 404 (error "Task not found"), st)
    | some task =>
      if !canDelete user project task then
        (Result.sent 403 (error "Not authorized to delete this task"), st)
      else if !destroyAttachments env task then (Result.thrown "CloudinaryError", st)
      else
        let st1 :=
          { st with
            comments := st.comments.filter (fun c => c.task ≠ taskId)
            tasks := st.tasks.eraseP (fun t => t._id = taskId) }
        let st2 := logEvent env st1 projectId none user._id "deleted_task"
          [("taskTitle", some task.title)]
        (Result.sent 200 (success "Task deleted"), st2)

/-! ## Comments (`comment.controller.js`) -/

/-- `Comment.findById`. -/
def findComment (st : Store) (commentId : ObjectId) : Option Comment :=
  st.comments.find? (fun c => c._id = commentId)

/-- Handler `deleteComment`. -/
def deleteComment (st : Store) (user : User) (commentId : ObjectId) : Result × Store :=
  match findComment st commentId with
  | none => (Result.sent 404 (error "Comment not found"), st)
  | some comment =>
    let isAuthor := decide (comment.author = user._id)
    let isAdmin := decide (user.role = "admin")
    if !isAuthor && !isAdmin then
      (Result.sent 403 (error "Not authorized to delete this comment"), st)
    else
      (Result.sent 200 (success "Comment deleted"),
        { st with comments := st.comments.eraseP (fun c => c._id = commentId) })

/-! ## Sequential creation -/

/-- One `createTask` request with the environment of its call. -/
structure CreateCall where
  env : Env
  user : User
  body : CreateTaskBody

/-- Consecutive `createTask` calls on one project with no other operation in
between: the results in call order, and the final store. -/
def createTasks (projectId : ObjectId) : Store → List CreateCall → List Result × Store
  | st, [] => ([], st)
  | st, c :: cs =>
    let r := createTask c.env st c.user projectId c.body
    let rest := createTasks projectId r.2 cs
    (r.1 :: rest.1, rest.2)

/-- A `201` response. -/
def created : Result → Bool
  | Result.sent 201 _ => true
  | _ => false

/-- The `order` of the task in the body of a `201` response. -/
def createdOrder : Result → Option Int
  | Result.sent 201 body =>
    match getKey body "task" with
    | some (JVal.task t) => some t.order
    | _ => none
  | _ => none

/-! ## A reference query engine and sample data -/

def insertBy {α : Type} (le : α → α → Bool) (x : α) : List α → List α
  | [] => [x]
  | y :: ys => if le x y then x :: y :: ys else y :: insertBy le x ys

/-- Stable insertion sort. -/
def sortBy {α : Type} (le : α → α → Bool) (l : List α) : List α :=
  l.foldr (insertBy le) []

/-- Comparison of two tasks under a sort document; `null` dates sort first. -/
def keyLe : SortSpec → Task → Task → Bool
  | SortSpec.orderAsc, a, b => decide (a.order ≤ b.order)
  | SortSpec.createdAtDesc, a, b => decide (b.createdAt ≤ a.createdAt)
  | SortSpec.createdAtAsc, a, b => decide (a.createdAt ≤ b.createdAt)
  | SortSpec.dueDateAsc, a, b =>
    match a.dueDate, b.dueDate with
    | none, _ => true
    | some _, none => false
    | some x, some y => decide (x ≤ y)
  | SortSpec.priorityDesc, a, b => !decide (a.priority < b.priority)

/-- An environment whose engine sorts stably and matches a search term that
equals the title. -/
def env0 : Env :=
  { now := 1000
    newId := 50
    destroy := fun _ => Destroyed.ok
    logUp := true
    sortTasks := fun spec ts => sortBy (keyLe spec) ts
    sortComments := fun cs => sortBy (fun a b => decide (a.createdAt ≤ b.createdAt)) cs
    regexTest := fun pattern title => decide (pattern = title)
    sortLogs := fun ls => sortBy (fun a b => decide (b.createdAt ≤ a.createdAt)) ls }

def env1 : Env := { env0 with now := 2000, newId := 51 }

def alice : User := { _id := 10, role := "member" }

def bob : User := { _id := 11, role := "member" }

def mallory : User := { _id := 66, role := "member" }

def project1 : Project :=
  { _id := 1, name := "Platform", description := "", owner := 10, members := [10, 11],
    status := "active", color := "#6c63ff", coverImage := "" }

def project2 : Project :=
  { _id := 2, name := "Website", description := "", owner := 11, members := [11],
    status := "active", color := "#ff6584", coverImage := "" }

def sampleTask (id project : ObjectId) (status : String) (order : Int) : Task :=
  { _id := id, title := "Sample", description := "", project := project, assignee := none,
    createdBy := 10, status := some status, priority := "medium", dueDate := none, labels := [],
    attachments := [], order := order, completedAt := none, createdAt := 500 }

/-- A board without tasks. -/
def board0 : Store :=
  { projects := [project1, project2], tasks := [], comments := [], logs := [] }

/-- A board with a todo column (orders 0 and 4) and an in-progress task in
project 1, and one todo task in project 2. -/
def board1 : Store :=
  { projects := [project1, project2]
    tasks := [sampleTask 20 1 "todo" 0, sampleTask 21 1 "todo" 4,
              sampleTask 22 1 "in_progress" 9, sampleTask 23 2 "todo" 30]
    comments := []
    logs := [] }

/-- A board whose todo column of project 1 holds one task, of order 2^53. -/
def boardBig : Store :=
  { projects := [project1, project2]
    tasks := [sampleTask 20 1 "todo" 9007199254740992]
    comments := []
    logs := [] }

/-- A board whose todo column of project 1 holds one task, of order
-(2^53 + 4). -/
def boardLow : Store :=
  { projects := [project1, project2]
    tasks := [sampleTask 20 1 "todo" (-9007199254740996)]
    comments := []
    logs := [] }

def shipIt : Task :=
  { _id := 50, title := "Ship it", description := "", project := 1, assignee := none,
    createdBy := 10, status := some "todo", priority := "medium", dueDate := none, labels := [],
    attachments := [], order := 5, completedAt := none, createdAt := 1000 }

def calls0 : List CreateCall :=
  [{ env := env0, user := alice, body := { title := some "First" } },
   { env := env1, user := bob, body := { title := some "Second", status := some "todo" } }]





/-- Task 20 of `board1` after it is moved to `done` at time 1000. -/
def task20Done : Task := { sampleTask 20 1 "done" 0 with completedAt := some 1000 }



/-- Task 22 of `board1` after it is moved to `in_review`. -/
def task22Review : Task := sampleTask 22 1 "in_review" 9

/-- Task 21 of `board1` with priority `critical`. -/
def task21Critical : Task := { sampleTask 21 1 "todo" 4 with priority := "critical" }

/-- A request that sets only `priority`. -/
def onlyPriority : UpdateTaskBody := { priority := some "critical" }

/-- The tuple names a task of the project: the filter `{ _id, project }` of
its `updateOne` matches a stored document. -/
def references (tasks : List Task) (projectId : ObjectId) (item : ReorderItem) : Bool :=
  tasks.any (fun t => t._id = item._id ∧ t.project = projectId)

/-- Tuples moving tasks 20 and 21 to the head of the `done` column. -/
def moveBothDone : List ReorderItem :=
  [{ _id := 20, status := "done", order := 0 }, { _id := 21, status := "done", order := 1 }]

/-- Tuples for project 1 of which the first names task 23 of project 2. -/
def mixedTuples : List ReorderItem :=
  [{ _id := 23, status := "done", order := 0 }, { _id := 20, status := "in_review", order := 3 }]

/-- The data-model invariant on one task: `completedAt` is non-null exactly
when the status is `done`. -/
def completedIffDone (t : Task) : Bool :=
  t.completedAt.isSome == decide (t.status = some "done")

/-- The invariant on every task of the store. -/
def completedInvariant (st : Store) : Bool :=
  st.tasks.all completedIffDone

/-- The board after `alice` creates a first task in project 1. -/
def board0Created : Store :=
  (createTask env0 board0 alice 1 { title := some "Ship it" }).2

/-- The board after `alice` creates a first task in project 1 as `done`. -/
def board0CreatedDone : Store :=
  (createTask env0 board0 alice 1 { title := some "Ship it", status := some "done" }).2

/-- A system admin who is neither owner nor member of any project. -/
def root : User := { _id := 99, role := "admin" }

/-- Task 24 of project 1, created by `bob`, with one stored attachment. -/
def taskWithFile : Task :=
  { sampleTask 24 1 "todo" 7 with
    createdBy := 11
    attachments := [{ _id := 80, url := "https://files/spec.pdf", publicId := "spec-pdf",
                      name := "spec.pdf", size := 1024, type := "application/pdf",
                      uploadedBy := 11, uploadedAt := 600 }] }

/-- A board with tasks, comments, activity entries and users: project 1
(owner `alice`, member `bob`) and project 2 (owner `bob`). -/
def board2 : Store :=
  { projects := [project1, project2]
    tasks := [sampleTask 20 1 "todo" 0, sampleTask 21 1 "todo" 4, taskWithFile,
              sampleTask 23 2 "todo" 30]
    comments := [{ _id := 70, task := 20, author := 11, content := "Looks good",
                   isEdited := false, createdAt := 700 },
                 { _id := 71, task := 23, author := 11, content := "Ship it",
                   isEdited := false, createdAt := 710 },
                 { _id := 72, task := 24, author := 10, content := "See the file",
                   isEdited := false, createdAt := 720 }]
    logs := [{ project := 1, task := some 20, user := 10, action := "created_task",
               meta := [("taskTitle", some "Sample")], createdAt := 500 },
             { project := 2, task := some 23, user := 11, action := "created_task",
               meta := [("taskTitle", some "Sample")], createdAt := 500 }]
    users := [{ _id := 10, name := "Alice", email := "alice@taskflow.com", role := "member" },
              { _id := 11, name := "Bob", email := "bob@taskflow.com", role := "member" },
              { _id := 66, name := "Mallory", email := "mallory@taskflow.com", role := "member" },
              { _id := 99, name := "Root", email := "root@taskflow.com", role := "admin" }] }

/-- An environment whose document store refuses every write to the
activity log. -/
def envLogDown : Env := { env0 with logUp := false }

/-- An environment whose external file store rejects every `destroy`. -/
def envDown : Env := { env0 with destroy := fun _ => Destroyed.rejected }

/-- An environment whose external file store answers every `destroy` with
`{ result: 'not found' }`. -/
def envMissing : Env := { env0 with destroy := fun _ => Destroyed.notFound }

/-- No comment in the store references a task that does not exist. -/
def noOrphanComments (st : Store) : Bool :=
  st.comments.all (fun c => st.tasks.any (fun t => t._id = c.task))

/-- Comparison by `order` that places, among equal orders, the task created
later first. -/
def orderThenNewest (a b : Task) : Bool :=
  decide (a.order < b.order) || (decide (a.order = b.order) && decide (b.createdAt ≤ a.createdAt))

/-- An environment whose engine answers `.sort({ order: 1 })` in ascending
order and yields equal orders newest first. -/
def envTies : Env :=
  { env0 with
    sortTasks := fun spec ts =>
      match spec with
      | SortSpec.orderAsc => sortBy orderThenNewest ts
      | other => sortBy (keyLe other) ts }

/-- A task of project 1 with a given order and creation time. -/
def tiedTask (id : ObjectId) (order : Int) (createdAt : Date) : Task :=
  { sampleTask id 1 "todo" order with createdAt := createdAt }

/-- A board whose todo column holds two tasks of order 3, created at 100
and at 200, and one task of order 1. -/
def boardTies : Store :=
  { projects := [project1]
    tasks := [tiedTask 30 3 100, tiedTask 31 3 200, tiedTask 32 1 300]
    comments := []
    logs := [] }

/-! # Verification -/

/-! ## Basic facts -/

theorem preSave_fields (now : Date) (b : Bool) (t : Task) :
    preSave now b t = { t with completedAt := (preSave now b t).completedAt } := by
  unfold preSave
  split_ifs <;> rfl

theorem saveTask_some {now : Date} {b : Bool} {t t' : Task}
    (h : saveTask now b t = some t') : validTask t = true ∧ t' = preSave now b t := by
  unfold saveTask at h
  split_ifs at h with hv
  exact ⟨hv, (Option.some.inj h).symm⟩

theorem saveTask_keeps {now : Date} {b : Bool} {t t' : Task} (h : saveTask now b t = some t') :
    t'._id = t._id ∧ t'.project = t.project ∧ t'.status = t.status ∧ t'.order = t.order := by
  obtain ⟨_, rfl⟩ := saveTask_some h
  rw [preSave_fields]
  exact ⟨rfl, rfl, rfl, rfl⟩

theorem logActivity_tasks (now : Date) (st : Store) (p : ObjectId) (t : Option ObjectId)
    (u : ObjectId) (a : String) (m : List (String × Option String)) :
    (logActivity now st p t u a m).tasks = st.tasks := by
  unfold logActivity
  split_ifs <;> rfl

theorem logActivity_projects (now : Date) (st : Store) (p : ObjectId) (t : Option ObjectId)
    (u : ObjectId) (a : String) (m : List (String × Option String)) :
    (logActivity now st p t u a m).projects = st.projects := by
  unfold logActivity
  split_ifs <;> rfl

theorem logActivity_comments (now : Date) (st : Store) (p : ObjectId) (t : Option ObjectId)
    (u : ObjectId) (a : String) (m : List (String × Option String)) :
    (logActivity now st p t u a m).comments = st.comments := by
  unfold logActivity
  split_ifs <;> rfl

/-- The entry appended by `logActivity` for an action of the enumeration. -/
theorem logActivity_logs (now : Date) (st : Store) (p : ObjectId) (t : Option ObjectId)
    (u : ObjectId) (a : String) (m : List (String × Option String)) (ha : a ∈ actionEnum) :
    (logActivity now st p t u a m).logs = st.logs ++
      [{ project := p, task := t, user := u, action := a, meta := m, createdAt := now }] := by
  unfold logActivity
  rw [if_pos ha]

/-- What `logEvent` leaves: the store of `logActivity` when the write to the
activity log is accepted, the store as it was otherwise. -/
theorem logEvent_eq (env : Env) (st : Store) (p : ObjectId) (t : Option ObjectId)
    (u : ObjectId) (a : String) (m : List (String × Option String)) :
    logEvent env st p t u a m = if env.logUp then logActivity env.now st p t u a m else st := by
  unfold logEvent logActivityOn createActivityLog logActivity
  cases env.logUp with
  | false => rfl
  | true =>
    by_cases ha : a ∈ actionEnum
    · simp [ha]
    · simp [ha]

theorem logEvent_tasks (env : Env) (st : Store) (p : ObjectId) (t : Option ObjectId)
    (u : ObjectId) (a : String) (m : List (String × Option String)) :
    (logEvent env st p t u a m).tasks = st.tasks := by
  rw [logEvent_eq]
  split_ifs
  · exact logActivity_tasks _ _ _ _ _ _ _
  · rfl

theorem logEvent_projects (env : Env) (st : Store) (p : ObjectId) (t : Option ObjectId)
    (u : ObjectId) (a : String) (m : List (String × Option String)) :
    (logEvent env st p t u a m).projects = st.projects := by
  rw [logEvent_eq]
  split_ifs
  · exact logActivity_projects _ _ _ _ _ _ _
  · rfl

theorem logEvent_comments (env : Env) (st : Store) (p : ObjectId) (t : Option ObjectId)
    (u : ObjectId) (a : String) (m : List (String × Option String)) :
    (logEvent env st p t u a m).comments = st.comments := by
  rw [logEvent_eq]
  split_ifs
  · exact logActivity_comments _ _ _ _ _ _ _
  · rfl

theorem findTask_some {st : Store} {taskId projectId : ObjectId} {task : Task}
    (h : findTask st taskId projectId = some task) :
    task ∈ st.tasks ∧ task._id = taskId ∧ task.project = projectId := by
  unfold findTask at h
  have h1 := List.find?_some h
  have h2 := List.mem_of_find?_eq_some h
  simp only [decide_eq_true_eq] at h1
  exact ⟨h2, h1.1, h1.2⟩

theorem checkProjectAccess_congr {st st2 : Store} (h : st2.projects = st.projects)
    (p u : ObjectId) : checkProjectAccess st2 p u = checkProjectAccess st p u := by
  unfold checkProjectAccess findProject
  rw [h]

theorem isMember_false {p : Project} {userId : ObjectId} (hown : p.owner ≠ userId)
    (hmem : userId ∉ p.members) : isMember p userId = false := by
  unfold isMember
  simp only [Bool.or_eq_false_iff, decide_eq_false_iff_not, List.any_eq_false, decide_eq_true_eq]
  refine ⟨hown, ?_⟩
  intro m hm heq
  exact hmem (heq ▸ hm)

theorem checkProjectAccess_denied {st : Store} {projectId userId : ObjectId} {p : Project}
    (hex : findProject st projectId = some p) (hown : p.owner ≠ userId)
    (hmem : userId ∉ p.members) : checkProjectAccess st projectId userId = Access.denied := by
  unfold checkProjectAccess
  rw [hex]
  simp [isMember_false hown hmem]

theorem checkProjectAccess_missing {st : Store} {projectId userId : ObjectId}
    (hmiss : findProject st projectId = none) :
    checkProjectAccess st projectId userId = Access.missing := by
  unfold checkProjectAccess
  rw [hmiss]

theorem success_task (msg : String) (t : Task) :
    success msg [("task", JVal.task t)]
      = [("success", JVal.bool true), ("message", JVal.str msg), ("task", JVal.task t)] := by
  simp [success, spread, setKey]

/-! ## Order of a created task (C1, C2) -/

theorem maxByOrder_none {l : List Task} : maxByOrder l = none ↔ l = [] := by
  cases l with
  | nil => simp [maxByOrder]
  | cons t rest =>
    simp only [maxByOrder]
    cases maxByOrder rest with
    | none => simp
    | some m => by_cases hlt : t.order < m.order <;> simp [hlt]

theorem maxByOrder_some {l : List Task} {m : Task} (h : maxByOrder l = some m) :
    m ∈ l ∧ ∀ t ∈ l, t.order ≤ m.order := by
  induction l generalizing m with
  | nil => simp [maxByOrder] at h
  | cons t rest ih =>
    simp only [maxByOrder] at h
    cases hr : maxByOrder rest with
    | none =>
      rw [hr] at h
      have hnil := maxByOrder_none.mp hr
      simp only [Option.some.injEq] at h
      subst h hnil
      simp
    | some m0 =>
      rw [hr] at h
      obtain ⟨hm0, hmax⟩ := ih hr
      by_cases hlt : t.order < m0.order
      · simp only [hlt, if_true, Option.some.injEq] at h
        subst h
        refine ⟨List.mem_cons_of_mem _ hm0, ?_⟩
        intro x hx
        rcases List.mem_cons.mp hx with rfl | hx
        · exact le_of_lt hlt
        · exact hmax x hx
      · simp only [hlt, if_false, Option.some.injEq] at h
        subst h
        refine ⟨List.mem_cons_self _ _, ?_⟩
        intro x hx
        rcases List.mem_cons.mp hx with rfl | hx
        · exact le_refl _
        · exact le_trans (hmax x hx) (not_lt.mp hlt)

theorem nextOrder_of_nil {st : Store} {p : ObjectId} {s : String}
    (h : column st.tasks p s = []) : nextOrder st p s = 0 := by
  unfold nextOrder maxOrderTask
  rw [h]
  rfl

/-- Inside `-2^53 ≤ x < 2^53` the Number addition `x + 1` is exact. -/
theorem addOne_exact {x : Int} (hlo : -(2 ^ 53 : Int) ≤ x) (hhi : x < 2 ^ 53) :
    addOne x = x + 1 := by
  unfold addOne toNumber
  rw [if_pos (by omega)]

theorem nextOrder_of_ne_nil {st : Store} {p : ObjectId} {s : String}
    (h : column st.tasks p s ≠ []) :
    ∃ m ∈ column st.tasks p s,
      (∀ t ∈ column st.tasks p s, t.order ≤ m.order) ∧ nextOrder st p s = addOne m.order := by
  unfold nextOrder maxOrderTask
  cases hm : maxByOrder (column st.tasks p s) with
  | none => exact absurd (maxByOrder_none.mp hm) h
  | some m =>
    obtain ⟨hmem, hmax⟩ := maxByOrder_some hm
    exact ⟨m, hmem, hmax, rfl⟩

theorem nextOrder_congr {st st2 : Store} {p : ObjectId} {s : String}
    (h : column st2.tasks p s = column st.tasks p s) : nextOrder st2 p s = nextOrder st p s := by
  unfold nextOrder maxOrderTask
  rw [h]

theorem column_append (l1 l2 : List Task) (p : ObjectId) (s : String) :
    column (l1 ++ l2) p s = column l1 p s ++ column l2 p s := by
  simp [column]

theorem lt_nextOrder {st : Store} {p : ObjectId} {s : String} {t : Task}
    (hsafe : ∀ x ∈ column st.tasks p s, -(2 ^ 53 : Int) ≤ x.order ∧ x.order < 2 ^ 53)
    (ht : t ∈ column st.tasks p s) : t.order < nextOrder st p s := by
  have hne : column st.tasks p s ≠ [] := List.ne_nil_of_mem ht
  obtain ⟨m, hm, hmax, hn⟩ := nextOrder_of_ne_nil hne
  rw [hn, addOne_exact (hsafe m hm).1 (hsafe m hm).2]
  have := hmax t ht
  omega

theorem le_nextOrder {st : Store} {p : ObjectId} {s : String}
    (hsafe : ∀ x ∈ column st.tasks p s, -(2 ^ 53 : Int) ≤ x.order ∧ x.order < 2 ^ 53) :
    -(2 ^ 53 : Int) ≤ nextOrder st p s := by
  by_cases h : column st.tasks p s = []
  · rw [nextOrder_of_nil h]
    omega
  · obtain ⟨m, hm, _, hn⟩ := nextOrder_of_ne_nil h
    rw [hn, addOne_exact (hsafe m hm).1 (hsafe m hm).2]
    have := (hsafe m hm).1
    omega

/-- A `201` answer of `createTask` comes from the creation branch. -/
theorem createTask_created {env : Env} {st st' : Store} {user : User} {projectId : ObjectId}
    {body : CreateTaskBody} {b : JObj}
    (h : createTask env st user projectId body = (Result.sent 201 b, st')) :
    ∃ task, saveTask env.now true
        (newTask env user projectId body
          (nextOrder st projectId (orDefault body.status "todo"))) = some task
      ∧ b = success "Task created" [("task", JVal.task task)]
      ∧ st'.tasks = st.tasks ++ [task] ∧ st'.projects = st.projects := by
  unfold createTask at h
  split at h
  · simp at h
  · simp at h
  · split_ifs at h with ht
    · simp at h
    · simp only at h
      split at h
      · simp at h
      · rename_i task hs
        simp only [Prod.mk.injEq, Result.sent.injEq, true_and] at h
        refine ⟨task, hs, h.1.symm, ?_, ?_⟩
        · rw [← h.2, logEvent_tasks]
        · rw [← h.2, logEvent_projects]

/-- C1 (amended): a task created by `createTask` lands in the column of its
project and of the status `status || 'todo'`. Its order is 0 when that
column is empty; otherwise it is the Number sum `m + 1` for the greatest
order `m` of the column, which is exactly `1 + m` when `-2^53 ≤ m < 2^53`.
A store with the same projects and the same column gives the same
response, whatever its other tasks. -/
theorem createTask_order_in_exact_range (env : Env) (st st' : Store) (user : User)
    (projectId : ObjectId) (body : CreateTaskBody) (b : JObj)
    (h : createTask env st user projectId body = (Result.sent 201 b, st')) :
    ∃ task, b = success "Task created" [("task", JVal.task task)]
      ∧ st'.tasks = st.tasks ++ [task]
      ∧ task.project = projectId
      ∧ task.status = some (orDefault body.status "todo")
      ∧ (body.status = none → task.status = some "todo")
      ∧ (∀ s, body.status = some s → s ≠ "" → task.status = some s)
      ∧ (column st.tasks projectId (orDefault body.status "todo") = [] → task.order = 0)
      ∧ (column st.tasks projectId (orDefault body.status "todo") ≠ [] →
          ∃ m ∈ column st.tasks projectId (orDefault body.status "todo"),
            (∀ t ∈ column st.tasks projectId (orDefault body.status "todo"), t.order ≤ m.order)
              ∧ task.order = addOne m.order
              ∧ (-(2 ^ 53 : Int) ≤ m.order → m.order < 2 ^ 53 → task.order = 1 + m.order))
      ∧ (∀ st2 : Store, st2.projects = st.projects →
          column st2.tasks projectId (orDefault body.status "todo")
            = column st.tasks projectId (orDefault body.status "todo") →
          (createTask env st2 user projectId body).1 = Result.sent 201 b) := by
  obtain ⟨task, hs, hb, ht, _⟩ := createTask_created h
  obtain ⟨_, hproj, hstat, hord⟩ := saveTask_keeps hs
  have hstat' : task.status = some (orDefault body.status "todo") := hstat
  have hord' : task.order = nextOrder st projectId (orDefault body.status "todo") := hord
  refine ⟨task, hb, ht, hproj, hstat', ?_, ?_, ?_, ?_, ?_⟩
  · intro hn
    rw [hstat', hn]
    rfl
  · intro s hsome hne
    rw [hstat', hsome]
    simp [orDefault, hne]
  · intro hnil
    rw [hord']
    exact nextOrder_of_nil hnil
  · intro hne
    obtain ⟨m, hm, hmax, hn⟩ := nextOrder_of_ne_nil hne
    refine ⟨m, hm, hmax, by rw [hord', hn], ?_⟩
    intro hlo hhi
    rw [hord', hn, addOne_exact hlo hhi]
    omega
  · intro st2 hp hc
    have hacc := checkProjectAccess_congr hp projectId user._id
    have hno := nextOrder_congr hc
    have h1 : (createTask env st user projectId body).1 = Result.sent 201 b := by rw [h]
    rw [← h1]
    unfold createTask
    rw [hacc, hno]
    cases checkProjectAccess st projectId user._id with
    | missing => rfl
    | denied => rfl
    | granted pr =>
      simp only
      split_ifs
      · rfl
      · cases saveTask env.now true
          (newTask env user projectId body (nextOrder st projectId (orDefault body.status "todo"))) with
        | none => rfl
        | some t => rfl

/-- Instance of C1 (amended): on `board1` the todo column of project 1 holds
orders 0 and 4, and the created task gets order 5. -/
theorem createTask_order_in_exact_range_witness :
    createTask env0 board1 alice 1 { title := some " Ship it " }
        = (Result.sent 201 (success "Task created" [("task", JVal.task shipIt)]),
            logEvent env0 { board1 with tasks := board1.tasks ++ [shipIt] } 1 (some 50) 10
              "created_task" [("taskTitle", some "Ship it")])
      ∧ ∃ task, success "Task created" [("task", JVal.task shipIt)]
            = success "Task created" [("task", JVal.task task)]
          ∧ (logEvent env0 { board1 with tasks := board1.tasks ++ [shipIt] } 1 (some 50) 10
              "created_task" [("taskTitle", some "Ship it")]).tasks = board1.tasks ++ [task]
          ∧ task.project = 1
          ∧ task.status = some (orDefault none "todo")
          ∧ ((none : Option String) = none → task.status = some "todo")
          ∧ (∀ s, (none : Option String) = some s → s ≠ "" → task.status = some s)
          ∧ (column board1.tasks 1 (orDefault none "todo") = [] → task.order = 0)
          ∧ (column board1.tasks 1 (orDefault none "todo") ≠ [] →
              ∃ m ∈ column board1.tasks 1 (orDefault none "todo"),
                (∀ t ∈ column board1.tasks 1 (orDefault none "todo"), t.order ≤ m.order)
                  ∧ task.order = addOne m.order
                  ∧ (-(2 ^ 53 : Int) ≤ m.order → m.order < 2 ^ 53 → task.order = 1 + m.order))
          ∧ (∀ st2 : Store, st2.projects = board1.projects →
              column st2.tasks 1 (orDefault none "todo")
                = column board1.tasks 1 (orDefault none "todo") →
              (createTask env0 st2 alice 1 { title := some " Ship it " }).1
                = Result.sent 201 (success "Task created" [("task", JVal.task shipIt)])) :=
  have h : createTask env0 board1 alice 1 { title := some " Ship it " }
      = (Result.sent 201 (success "Task created" [("task", JVal.task shipIt)]),
          logEvent env0 { board1 with tasks := board1.tasks ++ [shipIt] } 1 (some 50) 10
            "created_task" [("taskTitle", some "Ship it")]) := by decide
  ⟨h, createTask_order_in_exact_range _ _ _ _ _ _ _ h⟩

/-- C1 (as stated, refuted): when the greatest order of the column is 2^53, or
-(2^53 + 4), the Number sum `m + 1` is `m` again, and the created task gets
the greatest order of the column, not 1 + it. -/
theorem createTask_order_repeats_maximum :
    (column boardBig.tasks 1 "todo" = [sampleTask 20 1 "todo" 9007199254740992]
      ∧ (createTask env0 boardBig alice 1 { title := some "Ship it" }).1
          = Result.sent 201 (success "Task created"
              [("task", JVal.task { shipIt with order := 9007199254740992 })])
      ∧ (9007199254740992 : Int) ≠ 1 + 9007199254740992)
    ∧ (column boardLow.tasks 1 "todo" = [sampleTask 20 1 "todo" (-9007199254740996)]
      ∧ (createTask env0 boardLow alice 1 { title := some "Ship it" }).1
          = Result.sent 201 (success "Task created"
              [("task", JVal.task { shipIt with order := -9007199254740996 })])
      ∧ (-9007199254740996 : Int) ≠ 1 + -9007199254740996) := by
  decide

theorem createdOrder_created (t : Task) :
    createdOrder (Result.sent 201 (success "Task created" [("task", JVal.task t)])) = some t.order := by
  simp [createdOrder, success_task, getKey]

/-- The order in a `201` answer of `createTask` is the next order of the column. -/
theorem createdOrder_of_create {env : Env} {st st' : Store} {user : User} {projectId : ObjectId}
    {body : CreateTaskBody} {b : JObj}
    (h : createTask env st user projectId body = (Result.sent 201 b, st')) :
    createdOrder (Result.sent 201 b)
      = some (nextOrder st projectId (orDefault body.status "todo")) := by
  obtain ⟨task, hs, hb, _, _⟩ := createTask_created h
  obtain ⟨_, _, _, hord⟩ := saveTask_keeps hs
  have hord' : task.order = nextOrder st projectId (orDefault body.status "todo") := hord
  rw [hb, createdOrder_created, hord']

/-- After a creation into a column whose orders lie in `-2^53 ≤ x < 2^53`,
with an assigned order below 2^53, the next order of that column is one
more, and the orders of the column still lie in that range. -/
theorem nextOrder_after_create {env : Env} {st st' : Store} {user : User} {projectId : ObjectId}
    {body : CreateTaskBody} {b : JObj}
    (h : createTask env st user projectId body = (Result.sent 201 b, st'))
    (hsafe : ∀ x ∈ column st.tasks projectId (orDefault body.status "todo"),
      -(2 ^ 53 : Int) ≤ x.order ∧ x.order < 2 ^ 53)
    (hnew : nextOrder st projectId (orDefault body.status "todo") < 2 ^ 53) :
    nextOrder st' projectId (orDefault body.status "todo")
        = nextOrder st projectId (orDefault body.status "todo") + 1
      ∧ ∀ x ∈ column st'.tasks projectId (orDefault body.status "todo"),
          -(2 ^ 53 : Int) ≤ x.order ∧ x.order < 2 ^ 53 := by
  obtain ⟨task, hs, hb, ht, _⟩ := createTask_created h
  obtain ⟨_, hproj, hstat, hord⟩ := saveTask_keeps hs
  have hstat' : task.status = some (orDefault body.status "todo") := hstat
  have hproj' : task.project = projectId := hproj
  have hord' : task.order = nextOrder st projectId (orDefault body.status "todo") := hord
  have hlow := le_nextOrder hsafe
  have hcol : column st'.tasks projectId (orDefault body.status "todo")
      = column st.tasks projectId (orDefault body.status "todo") ++ [task] := by
    rw [ht, column_append]
    simp [column, hproj', hstat']
  have hsafe' : ∀ x ∈ column st'.tasks projectId (orDefault body.status "todo"),
      -(2 ^ 53 : Int) ≤ x.order ∧ x.order < 2 ^ 53 := by
    intro x hx
    rw [hcol] at hx
    rcases List.mem_append.mp hx with hx | hx
    · exact hsafe x hx
    · simp only [List.mem_singleton] at hx
      rw [hx, hord']
      exact ⟨hlow, hnew⟩
  refine ⟨?_, hsafe'⟩
  have hne : column st'.tasks projectId (orDefault body.status "todo") ≠ [] := by
    rw [hcol]; simp
  obtain ⟨m, hm, hmax, hn⟩ := nextOrder_of_ne_nil hne
  rw [hn, addOne_exact (hsafe' m hm).1 (hsafe' m hm).2, ← hord']
  have h1 : task.order ≤ m.order := hmax task (by rw [hcol]; simp)
  rw [hcol] at hm
  rcases List.mem_append.mp hm with hm | hm
  · have := lt_nextOrder hsafe hm
    omega
  · simp only [List.mem_singleton] at hm
    rw [hm]

theorem chain_consecutive (n : Nat) (base : Int) :
    List.Chain' (fun a b : Int => a < b ∧ b = a + 1)
      ((List.range n).map (fun i : Nat => base + (i : Int))) := by
  induction n generalizing base with
  | zero => simp
  | succ n ih =>
    rw [List.range_succ_eq_map, List.map_cons, List.map_map, List.chain'_cons']
    refine ⟨?_, ?_⟩
    · intro y hy
      cases n with
      | zero => simp at hy
      | succ k =>
        rw [List.range_succ_eq_map] at hy
        simp at hy
        subst hy
        omega
    · have := ih (base + 1)
      have heq : ((fun i : Nat => base + (i : Int)) ∘ Nat.succ)
          = (fun i : Nat => base + 1 + (i : Int)) := by
        funext i
        simp only [Function.comp_apply, Nat.succ_eq_add_one, Nat.cast_add, Nat.cast_one]
        omega
      rw [heq]
      exact this

theorem createTasks_orders (projectId : ObjectId) (status : String) (calls : List CreateCall) :
    ∀ st : Store, (∀ c ∈ calls, orDefault c.body.status "todo" = status) →
    (∀ r ∈ (createTasks projectId st calls).1, ∃ b, r = Result.sent 201 b) →
    (∀ x ∈ column st.tasks projectId status, -(2 ^ 53 : Int) ≤ x.order ∧ x.order < 2 ^ 53) →
    (∀ o, some o ∈ (createTasks projectId st calls).1.map createdOrder → o < 2 ^ 53) →
    (createTasks projectId st calls).1.map createdOrder
      = ((List.range calls.length).map (fun i : Nat => nextOrder st projectId status + (i : Int))).map some := by
  induction calls with
  | nil => intro st _ _ _ _; simp [createTasks]
  | cons c cs ih =>
    intro st hcol hok hsafe hbelow
    simp only [createTasks] at hok hbelow ⊢
    obtain ⟨b, hb⟩ := hok _ (List.mem_cons_self _ _)
    have hcall : createTask c.env st c.user projectId c.body
        = (Result.sent 201 b, (createTask c.env st c.user projectId c.body).2) :=
      Prod.ext hb rfl
    have ho := createdOrder_of_create hcall
    rw [hcol c (List.mem_cons_self _ _)] at ho
    have hnew : nextOrder st projectId status < 2 ^ 53 := by
      apply hbelow
      rw [List.map_cons, hb, ho]
      exact List.mem_cons_self _ _
    have hsafe0 : ∀ x ∈ column st.tasks projectId (orDefault c.body.status "todo"),
        -(2 ^ 53 : Int) ≤ x.order ∧ x.order < 2 ^ 53 := by
      rw [hcol c (List.mem_cons_self _ _)]
      exact hsafe
    have hnew0 : nextOrder st projectId (orDefault c.body.status "todo") < 2 ^ 53 := by
      rw [hcol c (List.mem_cons_self _ _)]
      exact hnew
    obtain ⟨hn, hsafe'⟩ := nextOrder_after_create hcall hsafe0 hnew0
    rw [hcol c (List.mem_cons_self _ _)] at hn hsafe'
    have ih' := ih (createTask c.env st c.user projectId c.body).2
      (fun c' hc' => hcol c' (List.mem_cons_of_mem _ hc'))
      (fun r hr => hok r (List.mem_cons_of_mem _ hr))
      hsafe'
      (fun o hmem => hbelow o (by rw [List.map_cons]; exact List.mem_cons_of_mem _ hmem))
    rw [List.map_cons, ih', hb, ho, hn, List.length_cons, List.range_succ_eq_map]
    simp only [List.map_cons, List.map_map, Nat.cast_zero, add_zero, List.cons.injEq, true_and]
    apply List.map_congr_left
    intro i _
    simp only [Function.comp_apply, Nat.succ_eq_add_one, Nat.cast_add, Nat.cast_one]
    congr 1
    omega

theorem created_sent {r : Result} (h : created r = true) : ∃ b, r = Result.sent 201 b := by
  unfold created at h
  split at h
  · exact ⟨_, rfl⟩
  · simp at h

/-- C2 (amended): when the orders stored in a (project, status) column lie
in `-2^53 ≤ x < 2^53`, and consecutive `createTask` calls into that column
all succeed with assigned orders below 2^53, the orders they assign are
strictly increasing, each exactly one more than the previous. -/
theorem createTasks_orders_rise_in_exact_range (projectId : ObjectId) (status : String)
    (st : Store) (calls : List CreateCall)
    (hcol : ∀ c ∈ calls, orDefault c.body.status "todo" = status)
    (hok : (createTasks projectId st calls).1.all created = true)
    (hstored : ∀ t ∈ column st.tasks projectId status,
      -(2 ^ 53 : Int) ≤ t.order ∧ t.order < 2 ^ 53)
    (hassigned : ∀ o, some o ∈ (createTasks projectId st calls).1.map createdOrder →
      o < 2 ^ 53) :
    ∃ orders : List Int,
      (createTasks projectId st calls).1.map createdOrder = orders.map some
        ∧ orders.length = calls.length
        ∧ List.Chain' (fun a b : Int => a < b ∧ b = a + 1) orders := by
  have hok' : ∀ r ∈ (createTasks projectId st calls).1, ∃ b, r = Result.sent 201 b :=
    fun r hr => created_sent (List.all_eq_true.mp hok r hr)
  exact ⟨_, createTasks_orders projectId status calls st hcol hok' hstored hassigned, by simp,
    chain_consecutive _ _⟩

/-- Instance of C2 (amended): two creations into the todo column of project
1 of `board1` (orders 5 and 6). -/
theorem createTasks_orders_rise_in_exact_range_witness :
    (∀ c ∈ calls0, orDefault c.body.status "todo" = "todo")
      ∧ (createTasks 1 board1 calls0).1.all created = true
      ∧ (∀ t ∈ column board1.tasks 1 "todo", -(2 ^ 53 : Int) ≤ t.order ∧ t.order < 2 ^ 53)
      ∧ (∀ o, some o ∈ (createTasks 1 board1 calls0).1.map createdOrder → o < 2 ^ 53)
      ∧ ∃ orders : List Int,
          (createTasks 1 board1 calls0).1.map createdOrder = orders.map some
            ∧ orders.length = calls0.length
            ∧ List.Chain' (fun a b : Int => a < b ∧ b = a + 1) orders :=
  have h1 : ∀ c ∈ calls0, orDefault c.body.status "todo" = "todo" := by decide
  have h2 : (createTasks 1 board1 calls0).1.all created = true := by decide
  have h3 : ∀ t ∈ column board1.tasks 1 "todo",
      -(2 ^ 53 : Int) ≤ t.order ∧ t.order < 2 ^ 53 := by decide
  have h4 : ∀ o, some o ∈ (createTasks 1 board1 calls0).1.map createdOrder → o < 2 ^ 53 := by
    have hm : (createTasks 1 board1 calls0).1.map createdOrder = [some 5, some 6] := by decide
    intro o ho
    rw [hm] at ho
    simp only [List.mem_cons, Option.some.injEq, List.mem_singleton, List.not_mem_nil,
      or_false] at ho
    rcases ho with rfl | rfl <;> norm_num
  ⟨h1, h2, h3, h4, createTasks_orders_rise_in_exact_range 1 "todo" board1 calls0 h1 h2 h3 h4⟩

/-- C2 (as stated, refuted): two consecutive creations into a column whose
greatest order is 2^53, or -(2^53 + 4), both succeed and are both assigned
that greatest order again. -/
theorem createTasks_orders_repeat_maximum :
    ((createTasks 1 boardBig calls0).1.all created = true
      ∧ (createTasks 1 boardBig calls0).1.map createdOrder
          = [some 9007199254740992, some 9007199254740992])
    ∧ ((createTasks 1 boardLow calls0).1.all created = true
      ∧ (createTasks 1 boardLow calls0).1.map createdOrder
          = [some (-9007199254740996), some (-9007199254740996)]) := by
  decide

/-! ## Single-task update (C3, C5, C6) -/

/-- A `200` answer of `updateTask` comes from the save branch. -/
theorem updateTask_updated {env : Env} {st st' : Store} {user : User}
    {projectId taskId : ObjectId} {body : UpdateTaskBody} {b : JObj}
    (h : updateTask env st user projectId taskId body = (Result.sent 200 b, st')) :
    ∃ task saved, findTask st taskId projectId = some task
      ∧ saveTask env.now (decide ((applyUpdate task body).status ≠ task.status))
          (applyUpdate task body) = some saved
      ∧ b = success "Task updated" [("task", JVal.task saved)]
      ∧ st' = updateLogged env (writeTask st saved) user projectId body task.status saved := by
  unfold updateTask at h
  split at h
  · simp at h
  · simp at h
  · split at h
    · simp at h
    · rename_i task hf
      simp only at h
      split at h
      · simp at h
      · rename_i saved hs
        simp only [Prod.mk.injEq, Result.sent.injEq, true_and] at h
        exact ⟨task, saved, hf, hs, h.1.symm, h.2.symm⟩

theorem updateLogged_tasks (env : Env) (st : Store) (user : User) (projectId : ObjectId)
    (body : UpdateTaskBody) (old : Option String) (saved : Task) :
    (updateLogged env st user projectId body old saved).tasks = st.tasks := by
  unfold updateLogged
  split_ifs <;> exact logEvent_tasks _ _ _ _ _ _ _

theorem updateLogged_projects (env : Env) (st : Store) (user : User) (projectId : ObjectId)
    (body : UpdateTaskBody) (old : Option String) (saved : Task) :
    (updateLogged env st user projectId body old saved).projects = st.projects := by
  unfold updateLogged
  split_ifs <;> exact logEvent_projects _ _ _ _ _ _ _

theorem updateLogged_comments (env : Env) (st : Store) (user : User) (projectId : ObjectId)
    (body : UpdateTaskBody) (old : Option String) (saved : Task) :
    (updateLogged env st user projectId body old saved).comments = st.comments := by
  unfold updateLogged
  split_ifs <;> exact logEvent_comments _ _ _ _ _ _ _

/-- After the write of a saved document, the scoped lookup returns it. -/
theorem find_after_write (l : List Task) (saved task : Task)
    (h : l.find? (fun t => t._id = saved._id ∧ t.project = saved.project) = some task) :
    (updateFirst (fun t => t._id = saved._id) (fun _ => saved) l).find?
      (fun t => t._id = saved._id ∧ t.project = saved.project) = some saved := by
  induction l with
  | nil => simp at h
  | cons x rest ih =>
    by_cases hx : x._id = saved._id
    · simp [updateFirst, hx]
    · have hrest : rest.find? (fun t => t._id = saved._id ∧ t.project = saved.project)
          = some task := by
        simpa [List.find?_cons, hx] using h
      have hi := ih hrest
      simpa [updateFirst, hx, List.find?_cons] using hi

theorem applyUpdate_status (t : Task) (b : UpdateTaskBody) :
    (applyUpdate t b).status = b.status.getD t.status := by
  unfold applyUpdate
  cases b.status <;> rfl

/-- What a successful `updateTask` leaves behind: the saved document is in
the response and is what the scoped lookup returns afterwards. -/
theorem updateTask_saved {env : Env} {st st' : Store} {user : User}
    {projectId taskId : ObjectId} {body : UpdateTaskBody} {b : JObj} {task : Task}
    (hfind : findTask st taskId projectId = some task)
    (h : updateTask env st user projectId taskId body = (Result.sent 200 b, st')) :
    ∃ saved, saved = preSave env.now (decide ((applyUpdate task body).status ≠ task.status))
          (applyUpdate task body)
      ∧ validTask (applyUpdate task body) = true
      ∧ b = success "Task updated" [("task", JVal.task saved)]
      ∧ st' = updateLogged env (writeTask st saved) user projectId body task.status saved
      ∧ findTask st' taskId projectId = some saved := by
  obtain ⟨task', saved, hf, hs, hb, hst⟩ := updateTask_updated h
  rw [hfind] at hf
  obtain rfl := Option.some.inj hf
  obtain ⟨hv, hsaved⟩ := saveTask_some hs
  refine ⟨saved, hsaved, hv, hb, hst, ?_⟩
  obtain ⟨_, hid, hproj⟩ := findTask_some hfind
  have hsid : saved._id = taskId := by rw [hsaved, preSave_fields]; exact hid
  have hsproj : saved.project = projectId := by rw [hsaved, preSave_fields]; exact hproj
  rw [hst]
  unfold findTask at hfind ⊢
  rw [updateLogged_tasks]
  unfold writeTask
  simp only
  rw [← hsid, ← hsproj] at hfind ⊢
  exact find_after_write _ _ _ hfind

/-- C3: after a successful `updateTask`, `completedAt` follows the status
transition: set (non-null) on a change into `done`, null on a change to any
other status, untouched when the request has no status or repeats the
stored one. -/
theorem updateTask_completedAt (env : Env) (st st' : Store) (user : User)
    (projectId taskId : ObjectId) (body : UpdateTaskBody) (b : JObj) (task : Task)
    (hfind : findTask st taskId projectId = some task)
    (h : updateTask env st user projectId taskId body = (Result.sent 200 b, st')) :
    ∃ saved, b = success "Task updated" [("task", JVal.task saved)]
      ∧ findTask st' taskId projectId = some saved
      ∧ (∀ s, body.status = some s → s ≠ task.status → s = some "done" →
          saved.status = some "done" ∧ saved.completedAt ≠ none
            ∧ saved.completedAt = some (task.completedAt.getD env.now))
      ∧ (∀ s, body.status = some s → s ≠ task.status → s ≠ some "done" →
          saved.status = s ∧ saved.completedAt = none)
      ∧ (body.status = none ∨ body.status = some task.status →
          saved.status = task.status ∧ saved.completedAt = task.completedAt) := by
  obtain ⟨saved, hsaved, _, hb, _, hfound⟩ := updateTask_saved hfind h
  refine ⟨saved, hb, hfound, ?_, ?_, ?_⟩
  · intro s hs hne hdone
    have hst : (applyUpdate task body).status = s := by rw [applyUpdate_status, hs]; rfl
    have hc : (applyUpdate task body).completedAt = task.completedAt := rfl
    subst hdone
    rw [hsaved]
    unfold preSave
    rw [hst]
    simp only [hne, ne_eq, not_false_eq_true, decide_True, if_true, true_and]
    rw [hc]
    cases hca : task.completedAt with
    | none => simp [hst]
    | some d => simp [hst, hc, hca]
  · intro s hs hne hnd
    have hst : (applyUpdate task body).status = s := by rw [applyUpdate_status, hs]; rfl
    rw [hsaved]
    unfold preSave
    rw [hst]
    simp [hne, hnd, hst]
  · intro hsame
    have hst : (applyUpdate task body).status = task.status := by
      rw [applyUpdate_status]
      rcases hsame with hs | hs <;> rw [hs] <;> rfl
    rw [hsaved]
    unfold preSave
    rw [hst]
    simp only [ne_eq, not_true_eq_false, decide_False, Bool.false_eq_true, if_false]
    exact ⟨hst, rfl⟩

/-- Instance of C3: task 20 of `board1` is moved from `todo` to `done` at time 1000. -/
theorem updateTask_completedAt_witness :
    findTask board1 20 1 = some (sampleTask 20 1 "todo" 0)
      ∧ updateTask env0 board1 alice 1 20 { status := some (some "done") }
          = (Result.sent 200 (success "Task updated" [("task", JVal.task task20Done)]),
              (updateTask env0 board1 alice 1 20 { status := some (some "done") }).2)
      ∧ ∃ saved, success "Task updated" [("task", JVal.task task20Done)]
            = success "Task updated" [("task", JVal.task saved)]
          ∧ findTask (updateTask env0 board1 alice 1 20 { status := some (some "done") }).2 20 1
              = some saved
          ∧ (∀ s, (some (some "done") : Option (Option String)) = some s → s ≠ (sampleTask 20 1 "todo" 0).status →
              s = some "done" →
              saved.status = some "done" ∧ saved.completedAt ≠ none
                ∧ saved.completedAt
                    = some ((sampleTask 20 1 "todo" 0).completedAt.getD env0.now))
          ∧ (∀ s, (some (some "done") : Option (Option String)) = some s → s ≠ (sampleTask 20 1 "todo" 0).status →
              s ≠ some "done" → saved.status = s ∧ saved.completedAt = none)
          ∧ ((some (some "done") : Option (Option String)) = none
                ∨ (some (some "done") : Option (Option String)) = some (sampleTask 20 1 "todo" 0).status →
              saved.status = (sampleTask 20 1 "todo" 0).status
                ∧ saved.completedAt = (sampleTask 20 1 "todo" 0).completedAt) :=
  have hfind : findTask board1 20 1 = some (sampleTask 20 1 "todo" 0) := by decide
  have h : updateTask env0 board1 alice 1 20 { status := some (some "done") }
      = (Result.sent 200 (success "Task updated" [("task", JVal.task task20Done)]),
          (updateTask env0 board1 alice 1 20 { status := some (some "done") }).2) := by decide
  ⟨hfind, h, updateTask_completedAt _ _ _ _ _ _ _ _ _ hfind h⟩

theorem validTask_status {t : Task} {s : String} (h : validTask t = true)
    (hs : t.status = some s) : s ∈ statusEnum := by
  unfold validTask at h
  rw [hs] at h
  simp only [Bool.and_eq_true, decide_eq_true_eq] at h
  exact h.1.1.1.2

theorem statusEnum_ne_empty {s : String} (h : s ∈ statusEnum) : s ≠ "" := by
  intro he
  subst he
  revert h
  decide

/-- The log after the logging step of `updateTask`: unchanged when the write
is refused, and otherwise one entry longer. -/
theorem updateLogged_logs (env : Env) (st : Store) (user : User) (projectId : ObjectId)
    (body : UpdateTaskBody) (old : Option String) (saved : Task) :
    (updateLogged env st user projectId body old saved).logs
      = if env.logUp then
          st.logs ++
            [{ project := projectId, task := some saved._id, user := user._id,
               action := if statusChanged body.status old then "changed_status"
                 else "updated_task",
               meta := if statusChanged body.status old then
                   [("taskTitle", some saved.title), ("from", old), ("to", body.status.join)]
                 else [("taskTitle", some saved.title)],
               createdAt := env.now }]
        else st.logs := by
  unfold updateLogged
  by_cases hc : statusChanged body.status old = true
  · rw [if_pos hc, logEvent_eq]
    cases env.logUp with
    | false => rfl
    | true => simp [hc, logActivity_logs _ _ _ _ _ _ _ (by decide : "changed_status" ∈ actionEnum)]
  · rw [if_neg hc, logEvent_eq]
    cases env.logUp with
    | false => rfl
    | true => simp [hc, logActivity_logs _ _ _ _ _ _ _ (by decide : "updated_task" ∈ actionEnum)]

/-- C5 (amended): a successful `updateTask` records at most one activity
event: none when the write to the activity log fails, and exactly one when
it succeeds. That event is `changed_status`, with the stored status before
the update as `from` and the requested status as `to`, when the request
carries a status string that differs from the stored status; it is
`updated_task` when the request carries no status or the stored one. -/
theorem updateTask_records_at_most_one_event (env : Env) (st st' : Store) (user : User)
    (projectId taskId : ObjectId) (body : UpdateTaskBody) (b : JObj) (task : Task)
    (hfind : findTask st taskId projectId = some task)
    (h : updateTask env st user projectId taskId body = (Result.sent 200 b, st')) :
    ∃ saved, b = success "Task updated" [("task", JVal.task saved)]
      ∧ (st'.logs = st.logs ∨ ∃ entry, st'.logs = st.logs ++ [entry])
      ∧ (env.logUp = false → st'.logs = st.logs)
      ∧ (env.logUp = true →
          ∃ entry, st'.logs = st.logs ++ [entry]
            ∧ entry.project = projectId ∧ entry.task = some taskId ∧ entry.user = user._id
            ∧ (∀ s : String, body.status = some (some s) → task.status ≠ some s →
                entry.action = "changed_status"
                  ∧ entry.meta
                      = [("taskTitle", some saved.title), ("from", task.status), ("to", some s)])
            ∧ (body.status = none ∨ body.status = some task.status →
                entry.action = "updated_task"
                  ∧ entry.meta = [("taskTitle", some saved.title)])) := by
  obtain ⟨saved, hsaved, hv, hb, hst, _⟩ := updateTask_saved hfind h
  obtain ⟨_, hid, _⟩ := findTask_some hfind
  have hsid : saved._id = taskId := by rw [hsaved, preSave_fields]; exact hid
  have hwl : (writeTask st saved).logs = st.logs := rfl
  have hlogs := updateLogged_logs env (writeTask st saved) user projectId body task.status saved
  rw [← hst, hwl, hsid] at hlogs
  refine ⟨saved, hb, ?_, ?_, ?_⟩
  · cases hup : env.logUp with
    | false =>
      rw [hup] at hlogs
      exact Or.inl hlogs
    | true =>
      rw [hup] at hlogs
      exact Or.inr ⟨_, hlogs⟩
  · intro hup
    rw [hup] at hlogs
    exact hlogs
  · intro hup
    rw [hup, if_pos rfl] at hlogs
    refine ⟨_, hlogs, rfl, rfl, rfl, ?_, ?_⟩
    · intro s hs hne
      have hmem : s ∈ statusEnum := by
        apply validTask_status hv
        rw [applyUpdate_status, hs]
        rfl
      have hc : statusChanged body.status task.status = true := by
        have hne' : ¬ (some s = task.status) := fun he => hne he.symm
        simp [statusChanged, truthy, hs, hne', statusEnum_ne_empty hmem]
      rw [hs] at hc
      simp only [hs, hc, if_true, true_and]
      rfl
    · intro hsame
      have hc : statusChanged body.status task.status = false := by
        rcases hsame with h0 | h0 <;> simp [statusChanged, truthy, h0, Option.join]
      simp [hc]

/-- Instance of the amended C5: task 22 of `board1` is moved from
`in_progress` to `in_review` while the activity log accepts the write. -/
theorem updateTask_records_at_most_one_event_witness :
    findTask board1 22 1 = some (sampleTask 22 1 "in_progress" 9)
      ∧ updateTask env0 board1 bob 1 22 { status := some (some "in_review") }
          = (Result.sent 200 (success "Task updated" [("task", JVal.task task22Review)]),
              (updateTask env0 board1 bob 1 22 { status := some (some "in_review") }).2)
      ∧ (updateTask env0 board1 bob 1 22 { status := some (some "in_review") }).2.logs
          = [{ project := 1, task := some 22, user := 11, action := "changed_status",
               meta := [("taskTitle", some "Sample"), ("from", some "in_progress"),
                        ("to", some "in_review")],
               createdAt := 1000 }]
      ∧ ∃ saved, success "Task updated" [("task", JVal.task task22Review)]
            = success "Task updated" [("task", JVal.task saved)]
          ∧ ((updateTask env0 board1 bob 1 22 { status := some (some "in_review") }).2.logs
                = board1.logs
              ∨ ∃ entry,
                (updateTask env0 board1 bob 1 22 { status := some (some "in_review") }).2.logs
                  = board1.logs ++ [entry])
          ∧ (env0.logUp = false →
              (updateTask env0 board1 bob 1 22 { status := some (some "in_review") }).2.logs
                = board1.logs)
          ∧ (env0.logUp = true →
              ∃ entry,
                (updateTask env0 board1 bob 1 22 { status := some (some "in_review") }).2.logs
                    = board1.logs ++ [entry]
                ∧ entry.project = 1 ∧ entry.task = some 22 ∧ entry.user = bob._id
                ∧ (∀ s : String, (some (some "in_review") : Option (Option String)) = some (some s) →
                    (sampleTask 22 1 "in_progress" 9).status ≠ some s →
                    entry.action = "changed_status"
                      ∧ entry.meta = [("taskTitle", some saved.title),
                          ("from", (sampleTask 22 1 "in_progress" 9).status), ("to", some s)])
                ∧ ((some (some "in_review") : Option (Option String)) = none
                      ∨ (some (some "in_review") : Option (Option String))
                          = some (sampleTask 22 1 "in_progress" 9).status →
                    entry.action = "updated_task"
                      ∧ entry.meta = [("taskTitle", some saved.title)])) :=
  have hfind : findTask board1 22 1 = some (sampleTask 22 1 "in_progress" 9) := by decide
  have h : updateTask env0 board1 bob 1 22 { status := some (some "in_review") }
      = (Result.sent 200 (success "Task updated" [("task", JVal.task task22Review)]),
          (updateTask env0 board1 bob 1 22 { status := some (some "in_review") }).2) := by decide
  ⟨hfind, h, by decide, updateTask_records_at_most_one_event _ _ _ _ _ _ _ _ _ hfind h⟩

/-- C5 (as stated, refuted), in two ways. A request with `status: null` changes
the stored status of task 20 from `todo` to `null`, and the one event
recorded is `updated_task`, not `changed_status`. And when the write to the
activity log fails, a successful update of task 20 records no event. -/
theorem updateTask_event_mislabelled_or_missing :
    ((findTask board1 20 1).map (fun t => t.status) = some (some "todo")
      ∧ (updateTask env0 board1 alice 1 20 { status := some none }).1
          = Result.sent 200 (success "Task updated"
              [("task", JVal.task { sampleTask 20 1 "todo" 0 with status := none })])
      ∧ (findTask (updateTask env0 board1 alice 1 20 { status := some none }).2 20 1).map
          (fun t => t.status) = some none
      ∧ (updateTask env0 board1 alice 1 20 { status := some none }).2.logs
          = board1.logs ++
              [{ project := 1, task := some 20, user := 10, action := "updated_task",
                 meta := [("taskTitle", some "Sample")], createdAt := 1000 }])
    ∧ (envLogDown.logUp = false
      ∧ (updateTask envLogDown board1 alice 1 20 { status := some (some "done") }).1
          = Result.sent 200 (success "Task updated" [("task", JVal.task task20Done)])
      ∧ (updateTask envLogDown board1 alice 1 20 { status := some (some "done") }).2.logs
          = board1.logs) := by
  decide

/-- C6: a successful `updateTask` changes only the fields the request
names: an absent field keeps its stored value, `createdBy`, `project` and
`attachments` are never changed, `completedAt` is kept when the request has
no status, and no other collection is touched. -/
theorem updateTask_changes_only_named_fields (env : Env) (st st' : Store) (user : User)
    (projectId taskId : ObjectId) (body : UpdateTaskBody) (b : JObj) (task : Task)
    (hfind : findTask st taskId projectId = some task)
    (h : updateTask env st user projectId taskId body = (Result.sent 200 b, st')) :
    ∃ saved, b = success "Task updated" [("task", JVal.task saved)]
      ∧ findTask st' taskId projectId = some saved
      ∧ st'.tasks = updateFirst (fun t => t._id = taskId) (fun _ => saved) st.tasks
      ∧ st'.projects = st.projects ∧ st'.comments = st.comments
      ∧ (body.title = none → saved.title = task.title)
      ∧ (body.description = none → saved.description = task.description)
      ∧ (body.assignee = none → saved.assignee = task.assignee)
      ∧ (body.priority = none → saved.priority = task.priority)
      ∧ (body.dueDate = none → saved.dueDate = task.dueDate)
      ∧ (body.labels = none → saved.labels = task.labels)
      ∧ (body.status = none → saved.status = task.status)
      ∧ (body.order = none → saved.order = task.order)
      ∧ (body.status = none → saved.completedAt = task.completedAt)
      ∧ saved.createdBy = task.createdBy ∧ saved.project = task.project
      ∧ saved.attachments = task.attachments
      ∧ saved._id = task._id ∧ saved.createdAt = task.createdAt := by
  obtain ⟨saved, hsaved, _, hb, hst, hfound⟩ := updateTask_saved hfind h
  obtain ⟨_, hid, _⟩ := findTask_some hfind
  have hsid : saved._id = taskId := by rw [hsaved, preSave_fields]; exact hid
  refine ⟨saved, hb, hfound, ?_, ?_, ?_, ?_, ?_, ?_, ?_, ?_, ?_, ?_, ?_, ?_, ?_, ?_, ?_, ?_, ?_⟩
  · rw [hst, updateLogged_tasks]
    unfold writeTask
    simp only [hsid]
  · rw [hst, updateLogged_projects]; rfl
  · rw [hst, updateLogged_comments]; rfl
  · intro hn; rw [hsaved, preSave_fields]; simp [applyUpdate, hn]
  · intro hn; rw [hsaved, preSave_fields]; simp [applyUpdate, hn]
  · intro hn; rw [hsaved, preSave_fields]; simp [applyUpdate, hn]
  · intro hn; rw [hsaved, preSave_fields]; simp [applyUpdate, hn]
  · intro hn; rw [hsaved, preSave_fields]; simp [applyUpdate, hn]
  · intro hn; rw [hsaved, preSave_fields]; simp [applyUpdate, hn]
  · intro hn; rw [hsaved, preSave_fields]; simp [applyUpdate, hn]
  · intro hn; rw [hsaved, preSave_fields]; simp [applyUpdate, hn]
  · intro hn
    have hs : (applyUpdate task body).status = task.status := by
      rw [applyUpdate_status, hn]; rfl
    rw [hsaved]
    unfold preSave
    rw [hs]
    simp only [ne_eq, not_true_eq_false, decide_False, Bool.false_eq_true, if_false]
    rfl
  · rw [hsaved, preSave_fields]; rfl
  · rw [hsaved, preSave_fields]; rfl
  · rw [hsaved, preSave_fields]; rfl
  · rw [hsaved, preSave_fields]; rfl
  · rw [hsaved, preSave_fields]; rfl

/-- Instance of C6: the request sets only the priority of task 21 (status `todo`, order 4). -/
theorem updateTask_changes_only_named_fields_witness :
    findTask board1 21 1 = some (sampleTask 21 1 "todo" 4)
      ∧ updateTask env0 board1 alice 1 21 onlyPriority
          = (Result.sent 200 (success "Task updated" [("task", JVal.task task21Critical)]),
              (updateTask env0 board1 alice 1 21 onlyPriority).2)
      ∧ ∃ saved, success "Task updated" [("task", JVal.task task21Critical)]
            = success "Task updated" [("task", JVal.task saved)]
          ∧ findTask (updateTask env0 board1 alice 1 21 onlyPriority).2 21 1 = some saved
          ∧ (updateTask env0 board1 alice 1 21 onlyPriority).2.tasks
              = updateFirst (fun t => t._id = 21) (fun _ => saved) board1.tasks
          ∧ (updateTask env0 board1 alice 1 21 onlyPriority).2.projects = board1.projects
          ∧ (updateTask env0 board1 alice 1 21 onlyPriority).2.comments = board1.comments
          ∧ (onlyPriority.title = none → saved.title = (sampleTask 21 1 "todo" 4).title)
          ∧ (onlyPriority.description = none →
              saved.description = (sampleTask 21 1 "todo" 4).description)
          ∧ (onlyPriority.assignee = none → saved.assignee = (sampleTask 21 1 "todo" 4).assignee)
          ∧ (onlyPriority.priority = none → saved.priority = (sampleTask 21 1 "todo" 4).priority)
          ∧ (onlyPriority.dueDate = none → saved.dueDate = (sampleTask 21 1 "todo" 4).dueDate)
          ∧ (onlyPriority.labels = none → saved.labels = (sampleTask 21 1 "todo" 4).labels)
          ∧ (onlyPriority.status = none → saved.status = (sampleTask 21 1 "todo" 4).status)
          ∧ (onlyPriority.order = none → saved.order = (sampleTask 21 1 "todo" 4).order)
          ∧ (onlyPriority.status = none →
              saved.completedAt = (sampleTask 21 1 "todo" 4).completedAt)
          ∧ saved.createdBy = (sampleTask 21 1 "todo" 4).createdBy
          ∧ saved.project = (sampleTask 21 1 "todo" 4).project
          ∧ saved.attachments = (sampleTask 21 1 "todo" 4).attachments
          ∧ saved._id = (sampleTask 21 1 "todo" 4)._id
          ∧ saved.createdAt = (sampleTask 21 1 "todo" 4).createdAt :=
  have hfind : findTask board1 21 1 = some (sampleTask 21 1 "todo" 4) := by decide
  have h : updateTask env0 board1 alice 1 21 onlyPriority
      = (Result.sent 200 (success "Task updated" [("task", JVal.task task21Critical)]),
          (updateTask env0 board1 alice 1 21 onlyPriority).2) := by decide
  ⟨hfind, h, updateTask_changes_only_named_fields _ _ _ _ _ _ _ _ _ hfind h⟩

/-! ## Point updates -/

theorem updateFirst_comm (p1 p2 : Task → Bool) (f1 f2 : Task → Task)
    (hdisj : ∀ t, p1 t = true → p2 t = true → False)
    (h12 : ∀ t, p1 (f2 t) = p1 t) (h21 : ∀ t, p2 (f1 t) = p2 t) (l : List Task) :
    updateFirst p1 f1 (updateFirst p2 f2 l) = updateFirst p2 f2 (updateFirst p1 f1 l) := by
  induction l with
  | nil => rfl
  | cons x rest ih =>
    by_cases hp1 : p1 x = true
    · have hp2 : p2 x = false := by
        cases h : p2 x
        · rfl
        · exact absurd h (fun h => hdisj x hp1 h)
      have hp2' : p2 (f1 x) = false := by rw [h21, hp2]
      simp [updateFirst, hp1, hp2, hp2']
    · have hp1' : p1 x = false := by simpa using hp1
      by_cases hp2 : p2 x = true
      · have hp1'' : p1 (f2 x) = false := by rw [h12, hp1']
        simp [updateFirst, hp1', hp2, hp1'']
      · have hp2' : p2 x = false := by simpa using hp2
        simp [updateFirst, hp1', hp2', ih]

theorem find_updateFirst_other (q p : Task → Bool) (f : Task → Task)
    (h1 : ∀ t, p t = true → q t = false) (h2 : ∀ t, p t = true → q (f t) = false)
    (l : List Task) : (updateFirst p f l).find? q = l.find? q := by
  induction l with
  | nil => rfl
  | cons x rest ih =>
    by_cases hp : p x = true
    · simp [updateFirst, hp, List.find?_cons, h1 x hp, h2 x hp]
    · have hp' : p x = false := by simpa using hp
      simp [updateFirst, hp', List.find?_cons, ih]

theorem find_updateFirst_same (p : Task → Bool) (f : Task → Task)
    (h : ∀ t, p t = true → p (f t) = true) (l : List Task) :
    (updateFirst p f l).find? p = (l.find? p).map f := by
  induction l with
  | nil => rfl
  | cons x rest ih =>
    by_cases hp : p x = true
    · simp [updateFirst, hp, List.find?_cons, h x hp]
    · have hp' : p x = false := by simpa using hp
      simp [updateFirst, hp', List.find?_cons, ih]

theorem filter_updateFirst (r p : Task → Bool) (f : Task → Task)
    (h1 : ∀ t, p t = true → r t = false) (h2 : ∀ t, p t = true → r (f t) = false)
    (l : List Task) : (updateFirst p f l).filter r = l.filter r := by
  induction l with
  | nil => rfl
  | cons x rest ih =>
    by_cases hp : p x = true
    · simp [updateFirst, hp, List.filter_cons, h1 x hp, h2 x hp]
    · have hp' : p x = false := by simpa using hp
      simp [updateFirst, hp', List.filter_cons, ih]

theorem any_updateFirst (q p : Task → Bool) (f : Task → Task)
    (h : ∀ t, q (f t) = q t) (l : List Task) : (updateFirst p f l).any q = l.any q := by
  induction l with
  | nil => rfl
  | cons x rest ih =>
    by_cases hp : p x = true
    · simp [updateFirst, hp, h x]
    · have hp' : p x = false := by simpa using hp
      simp [updateFirst, hp', ih]

theorem all_updateFirst (q p : Task → Bool) (f : Task → Task) (l : List Task)
    (hl : l.all q = true) (hf : ∀ t, p t = true → q (f t) = true) :
    (updateFirst p f l).all q = true := by
  induction l with
  | nil => rfl
  | cons x rest ih =>
    simp only [List.all_cons, Bool.and_eq_true] at hl
    by_cases hp : p x = true
    · simp [updateFirst, hp, hf x hp, hl.2]
    · have hp' : p x = false := by simpa using hp
      simp only [updateFirst, hp', Bool.false_eq_true, if_false, List.all_cons, Bool.and_eq_true]
      exact ⟨hl.1, ih hl.2⟩

theorem updateFirst_of_any_false (p : Task → Bool) (f : Task → Task) (l : List Task)
    (h : l.any p = false) : updateFirst p f l = l := by
  induction l with
  | nil => rfl
  | cons x rest ih =>
    simp only [List.any_cons, Bool.or_eq_false_iff] at h
    simp [updateFirst, h.1, ih h.2]

theorem length_updateFirst (p : Task → Bool) (f : Task → Task) (l : List Task) :
    (updateFirst p f l).length = l.length := by
  induction l with
  | nil => rfl
  | cons x rest ih =>
    by_cases hp : p x = true
    · simp [updateFirst, hp]
    · have hp' : p x = false := by simpa using hp
      simp [updateFirst, hp', ih]

/-! ## Bulk reorder (C7, C8) -/

theorem updateOne_comm (projectId : ObjectId) (l : List Task) (x y : ReorderItem)
    (hxy : x._id ≠ y._id) :
    updateOne projectId (updateOne projectId l x) y
      = updateOne projectId (updateOne projectId l y) x := by
  unfold updateOne
  apply updateFirst_comm
  · intro t h1 h2
    simp only [decide_eq_true_eq] at h1 h2
    exact hxy (h2.1.symm.trans h1.1)
  · intro t; rfl
  · intro t; rfl

theorem find_updateOne_other (projectId id : ObjectId) (l : List Task) (item : ReorderItem)
    (hne : item._id ≠ id) :
    (updateOne projectId l item).find? (fun t => t._id = id ∧ t.project = projectId)
      = l.find? (fun t => t._id = id ∧ t.project = projectId) := by
  unfold updateOne
  apply find_updateFirst_other
  · intro t h
    simp only [decide_eq_true_eq] at h
    simp only [decide_eq_false_iff_not, not_and]
    intro h1
    exact absurd (h.1.symm.trans h1) hne
  · intro t h
    simp only [decide_eq_true_eq] at h
    simp only [decide_eq_false_iff_not, not_and]
    intro h1
    exact absurd (h.1.symm.trans h1) hne

theorem find_updateOne_same (projectId : ObjectId) (l : List Task) (item : ReorderItem) :
    (updateOne projectId l item).find? (fun t => t._id = item._id ∧ t.project = projectId)
      = (l.find? (fun t => t._id = item._id ∧ t.project = projectId)).map (setItem item) := by
  unfold updateOne
  exact find_updateFirst_same (fun t => t._id = item._id ∧ t.project = projectId)
    (setItem item) (fun t h => h) l

theorem find_bulkWrite_other (projectId id : ObjectId) (items : List ReorderItem) :
    ∀ l : List Task, (∀ it ∈ items, it._id ≠ id) →
    (bulkWrite projectId l items).find? (fun t => t._id = id ∧ t.project = projectId)
      = l.find? (fun t => t._id = id ∧ t.project = projectId) := by
  induction items with
  | nil => intro l _; rfl
  | cons x xs ih =>
    intro l h
    unfold bulkWrite
    rw [List.foldl_cons]
    have := ih (updateOne projectId l x) (fun it hit => h it (List.mem_cons_of_mem _ hit))
    unfold bulkWrite at this
    rw [this]
    exact find_updateOne_other projectId id l x (h x (List.mem_cons_self _ _))

theorem find_bulkWrite_mem (projectId : ObjectId) (items : List ReorderItem) :
    ∀ (l : List Task) (item : ReorderItem) (t : Task),
    (items.map (fun it => it._id)).Nodup → item ∈ items →
    l.find? (fun t => t._id = item._id ∧ t.project = projectId) = some t →
    (bulkWrite projectId l items).find? (fun t => t._id = item._id ∧ t.project = projectId)
      = some (setItem item t) := by
  induction items with
  | nil => intro l item t _ hmem; simp at hmem
  | cons x xs ih =>
    intro l item t hnd hmem hfind
    rw [List.map_cons, List.nodup_cons] at hnd
    have hstep : bulkWrite projectId l (x :: xs) = bulkWrite projectId (updateOne projectId l x) xs :=
      rfl
    rw [hstep]
    rcases List.mem_cons.mp hmem with rfl | hin
    · rw [find_bulkWrite_other projectId item._id xs _ ?_, find_updateOne_same, hfind]
      · rfl
      · intro it hit heq
        exact hnd.1 (List.mem_map.mpr ⟨it, hit, heq⟩)
    · apply ih _ item t hnd.2 hin
      rw [find_updateOne_other, hfind]
      intro heq
      exact hnd.1 (List.mem_map.mpr ⟨item, hin, heq.symm⟩)

theorem bulkWrite_perm (projectId : ObjectId) (l : List Task) {items items' : List ReorderItem}
    (hnd : (items.map (fun it => it._id)).Nodup) (hp : items'.Perm items) :
    bulkWrite projectId l items' = bulkWrite projectId l items := by
  unfold bulkWrite
  apply (List.Perm.foldl_eq' hp.symm ?_ l).symm
  intro x hx y hy z
  by_cases hxy : x = y
  · rw [hxy]
  · apply updateOne_comm
    intro hid
    exact hxy (List.inj_on_of_nodup_map hnd hx hy hid)

theorem filter_bulkWrite (projectId : ObjectId) (items : List ReorderItem) :
    ∀ l : List Task,
    (bulkWrite projectId l items).filter (fun t => t.project ≠ projectId)
      = l.filter (fun t => t.project ≠ projectId) := by
  induction items with
  | nil => intro l; rfl
  | cons x xs ih =>
    intro l
    have hstep : bulkWrite projectId l (x :: xs) = bulkWrite projectId (updateOne projectId l x) xs :=
      rfl
    rw [hstep, ih]
    unfold updateOne
    apply filter_updateFirst
    · intro t h
      simp only [decide_eq_true_eq] at h
      simp [h.2]
    · intro t h
      simp only [decide_eq_true_eq] at h
      have hp : (setItem x t).project = projectId := h.2
      simp [hp]

theorem references_updateOne (projectId : ObjectId) (l : List Task) (x item : ReorderItem) :
    references (updateOne projectId l x) projectId item = references l projectId item := by
  unfold references updateOne
  apply any_updateFirst
  intro t; rfl

theorem bulkWrite_filter_references (projectId : ObjectId) (items : List ReorderItem) :
    ∀ l l0 : List Task, (∀ it, references l projectId it = references l0 projectId it) →
    bulkWrite projectId l items
      = bulkWrite projectId l (items.filter (references l0 projectId)) := by
  induction items with
  | nil => intro l l0 _; rfl
  | cons x xs ih =>
    intro l l0 href
    have hstep : bulkWrite projectId l (x :: xs) = bulkWrite projectId (updateOne projectId l x) xs :=
      rfl
    have hnext : ∀ it, references (updateOne projectId l x) projectId it
        = references l0 projectId it := by
      intro it
      rw [references_updateOne, href]
    rw [hstep, ih _ l0 hnext]
    by_cases hx : references l0 projectId x = true
    · rw [List.filter_cons_of_pos hx]
      rfl
    · have hx' : references l0 projectId x = false := by simpa using hx
      rw [List.filter_cons_of_neg hx]
      have hnoop : updateOne projectId l x = l := by
        unfold updateOne
        apply updateFirst_of_any_false
        have := href x
        rw [hx'] at this
        exact this
      rw [hnoop]

theorem length_bulkWrite (projectId : ObjectId) (items : List ReorderItem) :
    ∀ l : List Task, (bulkWrite projectId l items).length = l.length := by
  induction items with
  | nil => intro l; rfl
  | cons x xs ih =>
    intro l
    have hstep : bulkWrite projectId l (x :: xs) = bulkWrite projectId (updateOne projectId l x) xs :=
      rfl
    rw [hstep, ih]
    exact length_updateFirst _ _ _

theorem references_find {l : List Task} {projectId : ObjectId} {item : ReorderItem}
    (h : references l projectId item = true) :
    ∃ t, l.find? (fun t => t._id = item._id ∧ t.project = projectId) = some t := by
  unfold references at h
  have : (l.find? (fun t => t._id = item._id ∧ t.project = projectId)).isSome = true := by
    rw [List.find?_isSome]
    simpa using h
  exact Option.isSome_iff_exists.mp this

/-- A `200` answer of `reorderTasks` comes from the bulk write. -/
theorem reorderTasks_done {st st' : Store} {user : User} {projectId : ObjectId}
    {items : List ReorderItem} {b : JObj}
    (h : reorderTasks st user projectId (some items) = (Result.sent 200 b, st')) :
    (∃ p, checkProjectAccess st projectId user._id = Access.granted p)
      ∧ b = success "Tasks reordered"
      ∧ st' = { st with tasks := bulkWrite projectId st.tasks items } := by
  unfold reorderTasks at h
  split at h
  · simp at h
  · simp at h
  · rename_i p hp
    simp only [Prod.mk.injEq, Result.sent.injEq, true_and] at h
    exact ⟨⟨p, hp⟩, h.1.symm, h.2.symm⟩

theorem reorderTasks_of_access {st : Store} {user : User} {projectId : ObjectId} {p : Project}
    (hp : checkProjectAccess st projectId user._id = Access.granted p)
    (items : List ReorderItem) :
    reorderTasks st user projectId (some items)
      = (Result.sent 200 (success "Tasks reordered"),
          { st with tasks := bulkWrite projectId st.tasks items }) := by
  unfold reorderTasks
  rw [hp]

/-- C7: when the tuples of a reorder have pairwise distinct ids that all
name tasks of the project, every listed task ends with the status and order
of its tuple, and any permutation of the list gives the same response and
the same store. -/
theorem reorderTasks_applies_each_tuple (st st' : Store) (user : User) (projectId : ObjectId)
    (items : List ReorderItem) (b : JObj)
    (hnd : (items.map (fun it => it._id)).Nodup)
    (hbelong : ∀ it ∈ items, references st.tasks projectId it = true)
    (h : reorderTasks st user projectId (some items) = (Result.sent 200 b, st')) :
    (∀ it ∈ items, ∃ t t', findTask st it._id projectId = some t
        ∧ findTask st' it._id projectId = some t'
        ∧ t'.status = some it.status ∧ t'.order = it.order
        ∧ t' = { t with status := some it.status, order := it.order })
      ∧ (∀ items' : List ReorderItem, items'.Perm items →
          reorderTasks st user projectId (some items') = (Result.sent 200 b, st')) := by
  obtain ⟨⟨p, hp⟩, hb, hst⟩ := reorderTasks_done h
  refine ⟨?_, ?_⟩
  · intro it hit
    obtain ⟨t, ht⟩ := references_find (hbelong it hit)
    refine ⟨t, setItem it t, ht, ?_, rfl, rfl, rfl⟩
    rw [hst]
    exact find_bulkWrite_mem projectId items st.tasks it t hnd hit ht
  · intro items' hperm
    rw [reorderTasks_of_access hp, hb, hst, bulkWrite_perm projectId st.tasks hnd hperm]

/-- Instance of C7: tasks 20 and 21 of `board1` are moved to orders 0 and 1 of `done`. -/
theorem reorderTasks_applies_each_tuple_witness :
    (moveBothDone.map (fun it => it._id)).Nodup
      ∧ (∀ it ∈ moveBothDone, references board1.tasks 1 it = true)
      ∧ reorderTasks board1 alice 1 (some moveBothDone)
          = (Result.sent 200 (success "Tasks reordered"),
              (reorderTasks board1 alice 1 (some moveBothDone)).2)
      ∧ (∀ it ∈ moveBothDone, ∃ t t', findTask board1 it._id 1 = some t
          ∧ findTask (reorderTasks board1 alice 1 (some moveBothDone)).2 it._id 1 = some t'
          ∧ t'.status = some it.status ∧ t'.order = it.order
          ∧ t' = { t with status := some it.status, order := it.order })
      ∧ (∀ items' : List ReorderItem, items'.Perm moveBothDone →
          reorderTasks board1 alice 1 (some items')
            = (Result.sent 200 (success "Tasks reordered"),
                (reorderTasks board1 alice 1 (some moveBothDone)).2)) :=
  have hnd : (moveBothDone.map (fun it => it._id)).Nodup := by decide
  have hb : ∀ it ∈ moveBothDone, references board1.tasks 1 it = true := by decide
  have h : reorderTasks board1 alice 1 (some moveBothDone)
      = (Result.sent 200 (success "Tasks reordered"),
          (reorderTasks board1 alice 1 (some moveBothDone)).2) := by decide
  ⟨hnd, hb, h, reorderTasks_applies_each_tuple _ _ _ _ _ _ hnd hb h⟩

/-- C8: a reorder on project P never modifies a task outside P; a tuple
that names no task of P is a no-op (the call equals the call without such
tuples), and the tuples naming tasks of P are applied. -/
theorem reorderTasks_scoped_to_project (st st' : Store) (user : User) (projectId : ObjectId)
    (items : List ReorderItem) (b : JObj)
    (h : reorderTasks st user projectId (some items) = (Result.sent 200 b, st')) :
    st'.tasks.filter (fun t => t.project ≠ projectId)
        = st.tasks.filter (fun t => t.project ≠ projectId)
      ∧ st'.tasks.length = st.tasks.length
      ∧ (∀ t ∈ st.tasks, t.project ≠ projectId → t ∈ st'.tasks)
      ∧ reorderTasks st user projectId (some (items.filter (references st.tasks projectId)))
          = (Result.sent 200 b, st')
      ∧ ((items.map (fun it => it._id)).Nodup → ∀ it ∈ items, ∀ t,
          findTask st it._id projectId = some t →
          findTask st' it._id projectId
            = some { t with status := some it.status, order := it.order })
      ∧ st'.projects = st.projects ∧ st'.comments = st.comments ∧ st'.logs = st.logs := by
  obtain ⟨⟨p, hp⟩, hb, hst⟩ := reorderTasks_done h
  have hfilter : st'.tasks.filter (fun t => t.project ≠ projectId)
      = st.tasks.filter (fun t => t.project ≠ projectId) := by
    rw [hst]
    exact filter_bulkWrite projectId items st.tasks
  refine ⟨hfilter, ?_, ?_, ?_, ?_, ?_, ?_, ?_⟩
  · rw [hst]
    exact length_bulkWrite projectId items st.tasks
  · intro t ht hne
    have hmem : t ∈ st.tasks.filter (fun t => t.project ≠ projectId) :=
      List.mem_filter.mpr ⟨ht, by simpa using hne⟩
    rw [← hfilter] at hmem
    exact (List.mem_filter.mp hmem).1
  · rw [reorderTasks_of_access hp, hb, hst,
      ← bulkWrite_filter_references projectId items st.tasks st.tasks (fun _ => rfl)]
  · intro hnd it hit t ht
    rw [hst]
    exact find_bulkWrite_mem projectId items st.tasks it t hnd hit ht
  · rw [hst]
  · rw [hst]
  · rw [hst]

/-- Instance of C8: a reorder on project 1 whose first tuple names task 23 of project 2. -/
theorem reorderTasks_scoped_to_project_witness :
    reorderTasks board1 alice 1 (some mixedTuples)
        = (Result.sent 200 (success "Tasks reordered"),
            (reorderTasks board1 alice 1 (some mixedTuples)).2)
      ∧ (reorderTasks board1 alice 1 (some mixedTuples)).2.tasks.filter (fun t => t.project ≠ 1)
          = board1.tasks.filter (fun t => t.project ≠ 1)
      ∧ (reorderTasks board1 alice 1 (some mixedTuples)).2.tasks.length = board1.tasks.length
      ∧ (∀ t ∈ board1.tasks, t.project ≠ 1 →
          t ∈ (reorderTasks board1 alice 1 (some mixedTuples)).2.tasks)
      ∧ reorderTasks board1 alice 1 (some (mixedTuples.filter (references board1.tasks 1)))
          = (Result.sent 200 (success "Tasks reordered"),
              (reorderTasks board1 alice 1 (some mixedTuples)).2)
      ∧ ((mixedTuples.map (fun it => it._id)).Nodup → ∀ it ∈ mixedTuples, ∀ t,
          findTask board1 it._id 1 = some t →
          findTask (reorderTasks board1 alice 1 (some mixedTuples)).2 it._id 1
            = some { t with status := some it.status, order := it.order })
      ∧ (reorderTasks board1 alice 1 (some mixedTuples)).2.projects = board1.projects
      ∧ (reorderTasks board1 alice 1 (some mixedTuples)).2.comments = board1.comments
      ∧ (reorderTasks board1 alice 1 (some mixedTuples)).2.logs = board1.logs :=
  have h : reorderTasks board1 alice 1 (some mixedTuples)
      = (Result.sent 200 (success "Tasks reordered"),
          (reorderTasks board1 alice 1 (some mixedTuples)).2) := by decide
  ⟨h, reorderTasks_scoped_to_project _ _ _ _ _ _ h⟩

/-! ## The completion invariant (C4) -/

theorem completedIffDone_preSave_modified (now : Date) (t : Task) :
    completedIffDone (preSave now true t) = true := by
  unfold preSave completedIffDone
  by_cases hd : t.status = some "done"
  · cases hc : t.completedAt with
    | none => simp [hd, hc]
    | some d => simp [hd, hc]
  · simp [hd]

theorem completedInvariant_logEvent (env : Env) (st : Store) (p : ObjectId)
    (t : Option ObjectId) (u : ObjectId) (a : String) (m : List (String × Option String)) :
    completedInvariant (logEvent env st p t u a m) = completedInvariant st := by
  unfold completedInvariant
  rw [logEvent_tasks]

theorem completedInvariant_writeTask (st : Store) (saved : Task)
    (hinv : completedInvariant st = true) (hs : completedIffDone saved = true) :
    completedInvariant (writeTask st saved) = true := by
  unfold completedInvariant writeTask
  exact all_updateFirst _ _ _ _ hinv (fun _ _ => hs)

theorem completedIffDone_of_find {st : Store} {taskId projectId : ObjectId} {task : Task}
    (hinv : completedInvariant st = true)
    (hfind : findTask st taskId projectId = some task) : completedIffDone task = true := by
  unfold completedInvariant at hinv
  exact List.all_eq_true.mp hinv task (findTask_some hfind).1

/-- Every operation that persists through `save` keeps the completion
invariant: `createTask`, `updateTask`, `uploadTaskFile`, `deleteTaskFile`. -/
theorem completedInvariant_save_paths (env : Env) (st : Store) (user : User)
    (projectId taskId attachmentId : ObjectId) (cbody : CreateTaskBody)
    (ubody : UpdateTaskBody) (file : Option FileInfo)
    (hinv : completedInvariant st = true) :
    completedInvariant (createTask env st user projectId cbody).2 = true
      ∧ completedInvariant (updateTask env st user projectId taskId ubody).2 = true
      ∧ completedInvariant (uploadTaskFile env st user projectId taskId file).2 = true
      ∧ completedInvariant (deleteTaskFile env st projectId taskId attachmentId).2 = true := by
  refine ⟨?_, ?_, ?_, ?_⟩
  · unfold createTask
    split
    · exact hinv
    · exact hinv
    · split_ifs
      · exact hinv
      · simp only
        split
        · exact hinv
        · rename_i task hs
          obtain ⟨_, rfl⟩ := saveTask_some hs
          simp only
          rw [completedInvariant_logEvent]
          unfold completedInvariant at hinv ⊢
          simp only [List.all_append, hinv, Bool.true_and, List.all_cons, List.all_nil,
            Bool.and_true]
          exact completedIffDone_preSave_modified _ _
  · unfold updateTask
    split
    · exact hinv
    · exact hinv
    · split
      · exact hinv
      · rename_i task hf
        simp only
        split
        · exact hinv
        · rename_i saved hs
          obtain ⟨_, hsaved⟩ := saveTask_some hs
          have hdoc : completedIffDone saved = true := by
            rw [hsaved]
            by_cases hm : (applyUpdate task ubody).status ≠ task.status
            · rw [decide_eq_true hm]
              exact completedIffDone_preSave_modified _ _
            · have hsame : (applyUpdate task ubody).status = task.status := by
                simpa using hm
              have hold := completedIffDone_of_find hinv hf
              rw [decide_eq_false hm]
              unfold preSave
              simp only [Bool.false_eq_true, if_false]
              unfold completedIffDone at hold ⊢
              rw [hsame]
              exact hold
          simp only
          unfold updateLogged
          split_ifs <;> rw [completedInvariant_logEvent] <;>
            exact completedInvariant_writeTask st saved hinv hdoc
  · unfold uploadTaskFile
    split
    · exact hinv
    · split
      · exact hinv
      · exact hinv
      · split
        · exact hinv
        · rename_i task hf
          simp only
          split
          · exact hinv
          · rename_i saved hs
            obtain ⟨_, hsaved⟩ := saveTask_some hs
            have hdoc : completedIffDone saved = true := by
              rw [hsaved]
              exact (completedIffDone_of_find hinv hf : completedIffDone task = true)
            simp only
            rw [completedInvariant_logEvent]
            exact completedInvariant_writeTask st saved hinv hdoc
  · unfold deleteTaskFile
    split
    · exact hinv
    · rename_i task hf
      split
      · exact hinv
      · split_ifs
        · exact hinv
        · simp only
          split
          · exact hinv
          · rename_i saved hs
            obtain ⟨_, hsaved⟩ := saveTask_some hs
            have hdoc : completedIffDone saved = true := by
              rw [hsaved]
              exact (completedIffDone_of_find hinv hf : completedIffDone task = true)
            exact completedInvariant_writeTask st saved hinv hdoc

/-- C4: the code departs from the invariant. On a board without tasks a
`createTask` (201) keeps the invariant, and the following `reorderTasks`
(200) that moves the task into `done` leaves it done with a null
`completedAt`; likewise a task created as `done` and reordered to `todo`
keeps its non-null `completedAt`. -/
theorem reorderTasks_breaks_completedAt_invariant :
    completedInvariant board0 = true
      ∧ created (createTask env0 board0 alice 1 { title := some "Ship it" }).1 = true
      ∧ completedInvariant board0Created = true
      ∧ (reorderTasks board0Created alice 1
            (some [{ _id := 50, status := "done", order := 0 }])).1
          = Result.sent 200 (success "Tasks reordered")
      ∧ (findTask (reorderTasks board0Created alice 1
            (some [{ _id := 50, status := "done", order := 0 }])).2 50 1).map
          (fun t => (t.status, t.completedAt)) = some (some "done", none)
      ∧ completedInvariant (reorderTasks board0Created alice 1
            (some [{ _id := 50, status := "done", order := 0 }])).2 = false
      ∧ completedInvariant board0CreatedDone = true
      ∧ (findTask (reorderTasks board0CreatedDone alice 1
            (some [{ _id := 50, status := "todo", order := 0 }])).2 50 1).map
          (fun t => (t.status, t.completedAt)) = some (some "todo", some 1000)
      ∧ completedInvariant (reorderTasks board0CreatedDone alice 1
            (some [{ _id := 50, status := "todo", order := 0 }])).2 = false := by
  decide

/-! ## Empty reorder list (C9) -/

/-- C9 (as stated, refuted): a member's reorder with an empty list is
answered 200 with `success: true`, not 400. -/
theorem reorderTasks_empty_list_not_rejected :
    isMember project1 alice._id = true
      ∧ reorderTasks board1 alice 1 (some [])
          = (Result.sent 200
              [("success", JVal.bool true), ("message", JVal.str "Tasks reordered")], board1)
      ∧ ¬ ∃ body, (reorderTasks board1 alice 1 (some [])).1 = Result.sent 400 body := by
  refine ⟨by decide, by decide, ?_⟩
  rintro ⟨body, hb⟩
  have h : (reorderTasks board1 alice 1 (some [])).1
      = Result.sent 200 (success "Tasks reordered") := by decide
  rw [h] at hb
  simp at hb

/-- C9 (amended): for a principal with access to the project, an empty
reorder list is accepted with 200 `Tasks reordered` and leaves the store
as it was; the validation failure 400 `tasks must be an array`, also
without a write, is the answer when `tasks` is not an array. -/
theorem reorderTasks_empty_list_accepted (st : Store) (user : User) (projectId : ObjectId)
    (project : Project)
    (hacc : checkProjectAccess st projectId user._id = Access.granted project) :
    reorderTasks st user projectId (some [])
        = (Result.sent 200 (success "Tasks reordered"), st)
      ∧ getKey (success "Tasks reordered") "success" = some (JVal.bool true)
      ∧ reorderTasks st user projectId none
          = (Result.sent 400 (error "tasks must be an array"), st)
      ∧ getKey (error "tasks must be an array") "success" = some (JVal.bool false) := by
  refine ⟨?_, by decide, ?_, by decide⟩
  · rw [reorderTasks_of_access hacc]
    rfl
  · unfold reorderTasks
    rw [hacc]

/-- Instance of the amended C9 for the member `alice` of project 1. -/
theorem reorderTasks_empty_list_accepted_witness :
    checkProjectAccess board1 1 alice._id = Access.granted project1
      ∧ reorderTasks board1 alice 1 (some [])
          = (Result.sent 200 (success "Tasks reordered"), board1)
      ∧ getKey (success "Tasks reordered") "success" = some (JVal.bool true)
      ∧ reorderTasks board1 alice 1 none
          = (Result.sent 400 (error "tasks must be an array"), board1)
      ∧ getKey (error "tasks must be an array") "success" = some (JVal.bool false) :=
  have hacc : checkProjectAccess board1 1 alice._id = Access.granted project1 := by decide
  ⟨hacc, reorderTasks_empty_list_accepted board1 alice 1 project1 hacc⟩

/-! ## Reads by a non-member (C10) -/

/-- C10 (as stated, refuted): `mallory`, neither owner nor member nor
admin, gets 403 `Access denied` for the existing project 1 and 404
`Project not found` for the absent id 99, from each of the three reads. -/
theorem nonmember_read_reveals_existence :
    project1.owner ≠ mallory._id ∧ mallory._id ∉ project1.members ∧ mallory.role ≠ "admin"
      ∧ findProject board1 1 = some project1 ∧ findProject board1 99 = none
      ∧ (getProject board1 mallory 1).1 = Result.sent 403 (error "Access denied")
      ∧ (getProject board1 mallory 99).1 = Result.sent 404 (error "Project not found")
      ∧ (getProject board1 mallory 1).1 ≠ (getProject board1 mallory 99).1
      ∧ (getTasks env0 board1 mallory 1 {}).1 ≠ (getTasks env0 board1 mallory 99 {}).1
      ∧ (getTask env0 board1 mallory 1 20).1 ≠ (getTask env0 board1 mallory 99 20).1 := by
  decide

/-- C10 (amended): for a principal who is neither the owner nor in
`members` (whatever the role), `getProject`, `getTasks` and `getTask`
answer 403 `Access denied` when the project exists and 404
`Project not found` when it does not; both leave the store unchanged, carry
nothing of the project, and differ from each other. -/
theorem nonmember_read_results (env : Env) (st : Store) (user : User)
    (projectId absentId taskId : ObjectId) (project : Project) (q : TaskQuery)
    (hex : findProject st projectId = some project)
    (hown : project.owner ≠ user._id) (hmem : user._id ∉ project.members)
    (hmiss : findProject st absentId = none) :
    getProject st user projectId = (Result.sent 403 (error "Access denied"), st)
      ∧ getTasks env st user projectId q = (Result.sent 403 (error "Access denied"), st)
      ∧ getTask env st user projectId taskId = (Result.sent 403 (error "Access denied"), st)
      ∧ getProject st user absentId = (Result.sent 404 (error "Project not found"), st)
      ∧ getTasks env st user absentId q = (Result.sent 404 (error "Project not found"), st)
      ∧ getTask env st user absentId taskId
          = (Result.sent 404 (error "Project not found"), st)
      ∧ Result.sent 403 (error "Access denied") ≠ Result.sent 404 (error "Project not found")
      ∧ error "Access denied"
          = [("success", JVal.bool false), ("message", JVal.str "Access denied")]
      ∧ error "Project not found"
          = [("success", JVal.bool false), ("message", JVal.str "Project not found")] := by
  have hd := checkProjectAccess_denied hex hown hmem
  have hm : checkProjectAccess st absentId user._id = Access.missing :=
    checkProjectAccess_missing hmiss
  refine ⟨?_, ?_, ?_, ?_, ?_, ?_, by decide, by decide, by decide⟩
  · unfold getProject
    rw [hex]
    simp [isMember_false hown hmem]
  · unfold getTasks
    rw [hd]
  · unfold getTask
    rw [hd]
  · unfold getProject
    rw [hmiss]
  · unfold getTasks
    rw [hm]
  · unfold getTask
    rw [hm]

/-- Instance of the amended C10 for `mallory`, project 1 and the absent id 99. -/
theorem nonmember_read_results_witness :
    findProject board1 1 = some project1
      ∧ project1.owner ≠ mallory._id ∧ mallory._id ∉ project1.members
      ∧ findProject board1 99 = none
      ∧ getProject board1 mallory 1 = (Result.sent 403 (error "Access denied"), board1)
      ∧ getTasks env0 board1 mallory 1 {} = (Result.sent 403 (error "Access denied"), board1)
      ∧ getTask env0 board1 mallory 1 20 = (Result.sent 403 (error "Access denied"), board1)
      ∧ getProject board1 mallory 99 = (Result.sent 404 (error "Project not found"), board1)
      ∧ getTasks env0 board1 mallory 99 {}
          = (Result.sent 404 (error "Project not found"), board1)
      ∧ getTask env0 board1 mallory 99 20
          = (Result.sent 404 (error "Project not found"), board1)
      ∧ Result.sent 403 (error "Access denied") ≠ Result.sent 404 (error "Project not found")
      ∧ error "Access denied"
          = [("success", JVal.bool false), ("message", JVal.str "Access denied")]
      ∧ error "Project not found"
          = [("success", JVal.bool false), ("message", JVal.str "Project not found")] :=
  have hex : findProject board1 1 = some project1 := by decide
  have hown : project1.owner ≠ mallory._id := by decide
  have hmem : mallory._id ∉ project1.members := by decide
  have hmiss : findProject board1 99 = none := by decide
  ⟨hex, hown, hmem, hmiss,
    nonmember_read_results env0 board1 mallory 1 99 20 project1 {} hex hown hmem hmiss⟩

/-! ## The activity recorder (C17) -/

/-- C17: `logActivity` never lets a failure out. For every input and every
state of the store (up or refusing the write, action inside or outside the
enumeration) the call returns normally; the log is either unchanged or has
exactly one more entry, and no other collection is written. -/
theorem logActivity_never_throws (storeUp : Bool) (now : Date) (st : Store)
    (projectId : ObjectId) (taskId : Option ObjectId) (userId : ObjectId) (action : String)
    (meta : List (String × Option String)) :
    ∃ st', logActivityOn storeUp now st projectId taskId userId action meta = Except.ok st'
      ∧ (st'.logs = st.logs
          ∨ st'.logs = st.logs ++ [{ project := projectId, task := taskId, user := userId,
                                     action := action, meta := meta, createdAt := now }])
      ∧ st'.projects = st.projects ∧ st'.tasks = st.tasks
      ∧ st'.comments = st.comments ∧ st'.users = st.users
      ∧ (storeUp = false ∨ action ∉ actionEnum → st' = st)
      ∧ (storeUp = true → st' = logActivity now st projectId taskId userId action meta) := by
  unfold logActivityOn createActivityLog logActivity
  cases storeUp with
  | false => exact ⟨st, rfl, Or.inl rfl, rfl, rfl, rfl, rfl, fun _ => rfl, fun h => by simp at h⟩
  | true =>
    by_cases ha : action ∈ actionEnum
    · refine ⟨{ st with logs := st.logs ++
          [{ project := projectId, task := taskId, user := userId,
             action := action, meta := meta, createdAt := now }] },
        by simp [ha], Or.inr rfl, rfl, rfl, rfl, rfl, ?_, ?_⟩
      · intro h
        rcases h with h | h
        · simp at h
        · exact absurd ha h
      · intro _
        simp [ha]
    · refine ⟨st, by simp [ha], Or.inl rfl, rfl, rfl, rfl, rfl, fun _ => rfl, ?_⟩
      intro _
      simp [ha]

/-! ## Admin role and the access check (C15) -/

/-- C15 (as stated, refuted): the admin `root`, neither owner nor member of
project 1, is classified as denied by `checkProjectAccess` and gets 403
`Access denied` from `getProject`. -/
theorem admin_nonmember_classified_denied :
    root.role = "admin" ∧ project1.owner ≠ root._id ∧ root._id ∉ project1.members
      ∧ findProject board2 1 = some project1
      ∧ checkProjectAccess board2 1 root._id = Access.denied
      ∧ getProject board2 root 1 = (Result.sent 403 (error "Access denied"), board2) := by
  decide

/-- C15 (amended): a principal with role `admin` who is neither the owner
nor listed in `members` is classified as denied, not as admin, by the
access check that guards the task operations (`checkProjectAccess`) and by
the project read (`getProject`, 403 `Access denied`). The handlers that
start with `checkProjectAccess` answer accordingly: `getTasks`, `getTask`,
`createTask`, `updateTask`, `reorderTasks` and `deleteTask` give 403
`Access denied` and leave the store as it was. -/
theorem admin_nonmember_is_denied (env : Env) (st : Store) (user : User)
    (projectId taskId : ObjectId) (project : Project) (q : TaskQuery)
    (cbody : CreateTaskBody) (ubody : UpdateTaskBody) (items : Option (List ReorderItem))
    (_hrole : user.role = "admin")
    (hex : findProject st projectId = some project)
    (hown : project.owner ≠ user._id) (hmem : user._id ∉ project.members) :
    checkProjectAccess st projectId user._id = Access.denied
      ∧ getProject st user projectId = (Result.sent 403 (error "Access denied"), st)
      ∧ getTasks env st user projectId q = (Result.sent 403 (error "Access denied"), st)
      ∧ getTask env st user projectId taskId = (Result.sent 403 (error "Access denied"), st)
      ∧ createTask env st user projectId cbody
          = (Result.sent 403 (error "Access denied"), st)
      ∧ updateTask env st user projectId taskId ubody
          = (Result.sent 403 (error "Access denied"), st)
      ∧ reorderTasks st user projectId items = (Result.sent 403 (error "Access denied"), st)
      ∧ deleteTask env st user projectId taskId
          = (Result.sent 403 (error "Access denied"), st) := by
  have hd := checkProjectAccess_denied hex hown hmem
  refine ⟨hd, ?_, ?_, ?_, ?_, ?_, ?_, ?_⟩
  · unfold getProject
    rw [hex]
    simp [isMember_false hown hmem]
  · unfold getTasks
    rw [hd]
  · unfold getTask
    rw [hd]
  · unfold createTask
    rw [hd]
  · unfold updateTask
    rw [hd]
  · unfold reorderTasks
    rw [hd]
  · unfold deleteTask
    rw [hd]

/-- Instance of the amended C15 for the admin `root` and project 1 of `board2`. -/
theorem admin_nonmember_is_denied_witness :
    root.role = "admin" ∧ findProject board2 1 = some project1
      ∧ project1.owner ≠ root._id ∧ root._id ∉ project1.members
      ∧ checkProjectAccess board2 1 root._id = Access.denied
      ∧ getProject board2 root 1 = (Result.sent 403 (error "Access denied"), board2)
      ∧ getTasks env0 board2 root 1 {} = (Result.sent 403 (error "Access denied"), board2)
      ∧ getTask env0 board2 root 1 20 = (Result.sent 403 (error "Access denied"), board2)
      ∧ createTask env0 board2 root 1 { title := some "Audit" }
          = (Result.sent 403 (error "Access denied"), board2)
      ∧ updateTask env0 board2 root 1 20 { status := some (some "done") }
          = (Result.sent 403 (error "Access denied"), board2)
      ∧ reorderTasks board2 root 1 (some [])
          = (Result.sent 403 (error "Access denied"), board2)
      ∧ deleteTask env0 board2 root 1 20
          = (Result.sent 403 (error "Access denied"), board2) :=
  have hrole : root.role = "admin" := by decide
  have hex : findProject board2 1 = some project1 := by decide
  have hown : project1.owner ≠ root._id := by decide
  have hmem : root._id ∉ project1.members := by decide
  ⟨hrole, hex, hown, hmem,
    admin_nonmember_is_denied env0 board2 root 1 20 project1 {} { title := some "Audit" }
      { status := some (some "done") } (some []) hrole hex hown hmem⟩

/-! ## Moving a task without an order (C20) -/

/-- C20 (as stated, refuted): on `board1` the todo column of project 1
holds orders 0 and 4, so an append would give 5; `updateTask` moving task
22 (`in_progress`, order 9) to `todo` without an order leaves it at order 9. -/
theorem updateTask_move_keeps_order :
    nextOrder board1 1 "todo" = 5
      ∧ (updateTask env0 board1 bob 1 22 { status := some (some "todo") }).1
          = Result.sent 200 (success "Task updated" [("task", JVal.task (sampleTask 22 1 "todo" 9))])
      ∧ (findTask (updateTask env0 board1 bob 1 22 { status := some (some "todo") }).2 22 1).map
          (fun t => (t.status, t.order)) = some (some "todo", 9) := by
  decide

/-- C20 (amended): when a successful `updateTask` moves a task into a
different status column and the request gives no order, the task keeps its
stored order; nothing is computed from the target column. -/
theorem updateTask_move_without_order (env : Env) (st st' : Store) (user : User)
    (projectId taskId : ObjectId) (body : UpdateTaskBody) (b : JObj) (task : Task)
    (s : Option String)
    (hfind : findTask st taskId projectId = some task)
    (hstatus : body.status = some s) (hne : s ≠ task.status) (horder : body.order = none)
    (h : updateTask env st user projectId taskId body = (Result.sent 200 b, st')) :
    ∃ saved, b = success "Task updated" [("task", JVal.task saved)]
      ∧ findTask st' taskId projectId = some saved
      ∧ saved.status = s ∧ saved.status ≠ task.status
      ∧ saved.order = task.order := by
  obtain ⟨saved, hsaved, _, hb, _, hfound⟩ := updateTask_saved hfind h
  have hst : saved.status = s := by
    rw [hsaved, preSave_fields]
    show (applyUpdate task body).status = s
    rw [applyUpdate_status, hstatus]
    rfl
  refine ⟨saved, hb, hfound, hst, by rw [hst]; exact hne, ?_⟩
  rw [hsaved, preSave_fields]
  simp [applyUpdate, horder]

/-- Instance of the amended C20: task 22 of `board1` moved to `todo`. -/
theorem updateTask_move_without_order_witness :
    findTask board1 22 1 = some (sampleTask 22 1 "in_progress" 9)
      ∧ updateTask env0 board1 bob 1 22 { status := some (some "todo") }
          = (Result.sent 200
              (success "Task updated" [("task", JVal.task (sampleTask 22 1 "todo" 9))]),
              (updateTask env0 board1 bob 1 22 { status := some (some "todo") }).2)
      ∧ ∃ saved, success "Task updated" [("task", JVal.task (sampleTask 22 1 "todo" 9))]
            = success "Task updated" [("task", JVal.task saved)]
          ∧ findTask (updateTask env0 board1 bob 1 22 { status := some (some "todo") }).2 22 1
              = some saved
          ∧ saved.status = some "todo" ∧ saved.status ≠ (sampleTask 22 1 "in_progress" 9).status
          ∧ saved.order = (sampleTask 22 1 "in_progress" 9).order :=
  have hfind : findTask board1 22 1 = some (sampleTask 22 1 "in_progress" 9) := by decide
  have h : updateTask env0 board1 bob 1 22 { status := some (some "todo") }
      = (Result.sent 200
          (success "Task updated" [("task", JVal.task (sampleTask 22 1 "todo" 9))]),
          (updateTask env0 board1 bob 1 22 { status := some (some "todo") }).2) := by decide
  ⟨hfind, h, updateTask_move_without_order env0 board1 _ bob 1 22 { status := some (some "todo") } _
    (sampleTask 22 1 "in_progress" 9) (some "todo") hfind rfl (by decide) rfl h⟩

/-! ## Deleting a comment (C19) -/

/-- The two outcomes of `deleteComment` for an existing comment. -/
theorem deleteComment_cases (st : Store) (user : User) (commentId : ObjectId)
    (comment : Comment) (hfind : findComment st commentId = some comment) :
    (comment.author = user._id ∨ user.role = "admin" →
        deleteComment st user commentId
          = (Result.sent 200 (success "Comment deleted"),
              { st with comments := st.comments.eraseP (fun c => c._id = commentId) }))
      ∧ (comment.author ≠ user._id ∧ user.role ≠ "admin" →
        deleteComment st user commentId
          = (Result.sent 403 (error "Not authorized to delete this comment"), st)) := by
  unfold deleteComment
  rw [hfind]
  refine ⟨?_, ?_⟩
  · intro h
    have : (!decide (comment.author = user._id) && !decide (user.role = "admin")) = false := by
      rcases h with h | h <;> simp [h]
    simp only [this, Bool.false_eq_true, if_false]
  · intro h
    have : (!decide (comment.author = user._id) && !decide (user.role = "admin")) = true := by
      simp [h.1, h.2]
    simp only [this, if_true]

/-- C19 (as stated, refuted): `alice` owns project 1, which contains task 20
and so comment 70 written by `bob`; she is not an admin, and her
`deleteComment` is answered 403 with the comment left in place. -/
theorem deleteComment_refuses_project_owner :
    findComment board2 70
        = some { _id := 70, task := 20, author := 11, content := "Looks good",
                 isEdited := false, createdAt := 700 }
      ∧ findTask board2 20 1 = some (sampleTask 20 1 "todo" 0)
      ∧ findProject board2 1 = some project1 ∧ project1.owner = alice._id
      ∧ alice.role ≠ "admin"
      ∧ deleteComment board2 alice 70
          = (Result.sent 403 (error "Not authorized to delete this comment"), board2) := by
  decide

/-- C19 (amended): for an existing comment `deleteComment` succeeds (200,
that comment removed, everything else untouched) if and only if the
principal is the comment's author or has role `admin`; any other principal,
the owner of the project included, gets 403 and the store is unchanged. -/
theorem deleteComment_author_or_admin (st : Store) (user : User) (commentId : ObjectId)
    (comment : Comment) (hfind : findComment st commentId = some comment) :
    ((∃ b, (deleteComment st user commentId).1 = Result.sent 200 b)
        ↔ (comment.author = user._id ∨ user.role = "admin"))
      ∧ (comment.author = user._id ∨ user.role = "admin" →
          deleteComment st user commentId
            = (Result.sent 200 (success "Comment deleted"),
                { st with comments := st.comments.eraseP (fun c => c._id = commentId) })
          ∧ (st.comments.eraseP (fun c => c._id = commentId)).length + 1
              = st.comments.length)
      ∧ (comment.author ≠ user._id ∧ user.role ≠ "admin" →
          deleteComment st user commentId
            = (Result.sent 403 (error "Not authorized to delete this comment"), st)) := by
  obtain ⟨hyes, hno⟩ := deleteComment_cases st user commentId comment hfind
  refine ⟨⟨?_, ?_⟩, ?_, hno⟩
  · rintro ⟨b, hb⟩
    by_contra hcon
    push_neg at hcon
    rw [hno hcon] at hb
    simp at hb
  · intro h
    exact ⟨_, by rw [hyes h]⟩
  · intro h
    refine ⟨hyes h, ?_⟩
    have hmem : comment ∈ st.comments := List.mem_of_find?_eq_some hfind
    have hp : (fun c : Comment => decide (c._id = commentId)) comment = true := by
      have := List.find?_some hfind
      simpa using this
    rw [List.length_eraseP_of_mem hmem hp]
    have : 0 < st.comments.length := List.length_pos_of_mem hmem
    omega

/-- Instance of the amended C19: `bob` deletes his comment 70 on `board2`. -/
theorem deleteComment_author_or_admin_witness :
    findComment board2 70
        = some { _id := 70, task := 20, author := 11, content := "Looks good",
                 isEdited := false, createdAt := 700 }
      ∧ ((∃ b, (deleteComment board2 bob 70).1 = Result.sent 200 b)
          ↔ ((11 : ObjectId) = bob._id ∨ bob.role = "admin"))
      ∧ ((11 : ObjectId) = bob._id ∨ bob.role = "admin" →
          deleteComment board2 bob 70
            = (Result.sent 200 (success "Comment deleted"),
                { board2 with comments := board2.comments.eraseP (fun c => c._id = 70) })
          ∧ (board2.comments.eraseP (fun c => c._id = 70)).length + 1
              = board2.comments.length)
      ∧ ((11 : ObjectId) ≠ bob._id ∧ bob.role ≠ "admin" →
          deleteComment board2 bob 70
            = (Result.sent 403 (error "Not authorized to delete this comment"), board2)) :=
  have hfind : findComment board2 70
      = some { _id := 70, task := 20, author := 11, content := "Looks good",
               isEdited := false, createdAt := 700 } := by decide
  ⟨hfind, deleteComment_author_or_admin board2 bob 70 _ hfind⟩

/-! ## Authorization of the project mutations (C11) -/

theorem ownerOrAdmin_false {project : Project} {user : User}
    (h : project.owner ≠ user._id ∧ user.role ≠ "admin") : ownerOrAdmin project user = false := by
  simp [ownerOrAdmin, h.1, h.2]

theorem ownerOrAdmin_true {project : Project} {user : User}
    (h : project.owner = user._id ∨ user.role = "admin") : ownerOrAdmin project user = true := by
  rcases h with h | h <;> simp [ownerOrAdmin, h]

/-- C11 (as stated, refuted): `bob` is a plain member of project 1, neither
its owner nor an admin; his `addMember` without an email is answered 400
`Member email is required`, not 403. -/
theorem addMember_without_email_is_400 :
    findProject board2 1 = some project1
      ∧ project1.owner ≠ bob._id ∧ bob.role ≠ "admin" ∧ bob._id ∈ project1.members
      ∧ addMember env0 board2 bob 1 none
          = (Result.sent 400 (error "Member email is required"), board2)
      ∧ addMember env0 board2 bob 1 (some "")
          = (Result.sent 400 (error "Member email is required"), board2)
      ∧ (addMember env0 board2 bob 1 none).1
          ≠ Result.sent 403 (error "Only project owner or admin can add members") := by
  decide

/-- C11 (amended): for an existing project, a principal who is neither the
owner nor an admin gets 403 from `updateProject`, `deleteProject` and
`removeMember`, and from `addMember` when the request carries an email, and
the store is left unchanged; an `addMember` request without an email is
answered 400 before the project is looked up, again without a change. The
owner and every admin pass the check: none of the four then answers 403. -/
theorem project_mutations_need_owner_or_admin (env : Env) (st : Store) (user : User)
    (id memberId : ObjectId) (project : Project) (body : UpdateProjectBody)
    (email : Option String)
    (hex : findProject st id = some project) :
    (project.owner ≠ user._id ∧ user.role ≠ "admin" →
        updateProject env st user id body
            = (Result.sent 403 (error "Only project owner or admin can update"), st)
          ∧ deleteProject st user id
              = (Result.sent 403 (error "Only project owner or admin can delete"), st)
          ∧ removeMember env st user id memberId
              = (Result.sent 403 (error "Only project owner or admin can remove members"), st)
          ∧ (truthy email = true →
              addMember env st user id email
                = (Result.sent 403 (error "Only project owner or admin can add members"), st))
          ∧ (truthy email = false →
              addMember env st user id email
                = (Result.sent 400 (error "Member email is required"), st)))
      ∧ (project.owner = user._id ∨ user.role = "admin" →
          ∀ b, (updateProject env st user id body).1 ≠ Result.sent 403 b
            ∧ (deleteProject st user id).1 ≠ Result.sent 403 b
            ∧ (removeMember env st user id memberId).1 ≠ Result.sent 403 b
            ∧ (addMember env st user id email).1 ≠ Result.sent 403 b) := by
  refine ⟨?_, ?_⟩
  · intro hno
    have hoa := ownerOrAdmin_false hno
    refine ⟨?_, ?_, ?_, ?_, ?_⟩
    · unfold updateProject
      rw [hex]
      simp [hoa]
    · unfold deleteProject
      rw [hex]
      simp [hoa]
    · unfold removeMember
      rw [hex]
      simp [hoa]
    · intro he
      unfold addMember
      rw [hex]
      simp [hoa, he]
    · intro he
      unfold addMember
      simp [he]
  · intro hyes b
    have hoa := ownerOrAdmin_true hyes
    refine ⟨?_, ?_, ?_, ?_⟩
    · unfold updateProject
      rw [hex]
      simp only [hoa, Bool.not_true, Bool.false_eq_true, if_false]
      split <;> simp
    · unfold deleteProject
      rw [hex]
      simp [hoa]
    · unfold removeMember
      rw [hex]
      simp only [hoa, Bool.not_true, Bool.false_eq_true, if_false]
      split_ifs
      · simp
      · split <;> simp
    · unfold addMember
      split_ifs
      · simp
      · rw [hex]
        simp only [hoa, Bool.not_true, Bool.false_eq_true, if_false]
        split
        · simp
        · split_ifs
          · simp
          · split <;> simp

/-- Instance of the amended C11 for the plain member `bob` and project 1. -/
theorem project_mutations_need_owner_or_admin_witness :
    findProject board2 1 = some project1
      ∧ (project1.owner ≠ bob._id ∧ bob.role ≠ "admin" →
          updateProject env0 board2 bob 1 { name := some "Mine" }
              = (Result.sent 403 (error "Only project owner or admin can update"), board2)
            ∧ deleteProject board2 bob 1
                = (Result.sent 403 (error "Only project owner or admin can delete"), board2)
            ∧ removeMember env0 board2 bob 1 10
                = (Result.sent 403 (error "Only project owner or admin can remove members"),
                    board2)
            ∧ (truthy (some "mallory@taskflow.com") = true →
                addMember env0 board2 bob 1 (some "mallory@taskflow.com")
                  = (Result.sent 403 (error "Only project owner or admin can add members"),
                      board2))
            ∧ (truthy (some "mallory@taskflow.com") = false →
                addMember env0 board2 bob 1 (some "mallory@taskflow.com")
                  = (Result.sent 400 (error "Member email is required"), board2)))
      ∧ (project1.owner = bob._id ∨ bob.role = "admin" →
          ∀ b, (updateProject env0 board2 bob 1 { name := some "Mine" }).1 ≠ Result.sent 403 b
            ∧ (deleteProject board2 bob 1).1 ≠ Result.sent 403 b
            ∧ (removeMember env0 board2 bob 1 10).1 ≠ Result.sent 403 b
            ∧ (addMember env0 board2 bob 1 (some "mallory@taskflow.com")).1
                ≠ Result.sent 403 b) :=
  have hex : findProject board2 1 = some project1 := by decide
  ⟨hex, project_mutations_need_owner_or_admin env0 board2 bob 1 10 project1
    { name := some "Mine" } (some "mallory@taskflow.com") hex⟩

/-! ## Deleting a project (C12, C13) -/

/-- A `200` answer of `deleteProject` comes from the cascade. -/
theorem deleteProject_done {st st' : Store} {user : User} {id : ObjectId} {b : JObj}
    (h : deleteProject st user id = (Result.sent 200 b, st')) :
    ∃ project, findProject st id = some project ∧ project._id = id
      ∧ ownerOrAdmin project user = true
      ∧ b = success "Project deleted successfully"
      ∧ st' = { st with
                tasks := st.tasks.filter (fun t => t.project ≠ id)
                logs := st.logs.filter (fun l => l.project ≠ id)
                projects := st.projects.eraseP (fun q => q._id = id) } := by
  unfold deleteProject at h
  split at h
  · simp at h
  · rename_i project hp
    have hid : project._id = id := by
      have := List.find?_some hp
      simpa using this
    split_ifs at h with hoa
    · simp at h
    · simp only [Prod.mk.injEq, Result.sent.injEq, true_and] at h
      refine ⟨project, hp, hid, by simpa using hoa, h.1.symm, ?_⟩
      rw [← h.2, hid]

theorem find_eraseP_same (id : ObjectId) (l : List Project)
    (hnd : (l.map (fun p => p._id)).Nodup) :
    (l.eraseP (fun q => q._id = id)).find? (fun p => p._id = id) = none := by
  induction l with
  | nil => rfl
  | cons x rest ih =>
    rw [List.map_cons, List.nodup_cons] at hnd
    by_cases hx : x._id = id
    · have herase : (x :: rest).eraseP (fun q => q._id = id) = rest := by
        simp [List.eraseP_cons, hx]
      rw [herase, List.find?_eq_none]
      intro p hp hpid
      simp only [decide_eq_true_eq] at hpid
      exact hnd.1 (List.mem_map.mpr ⟨p, hp, hpid.trans hx.symm⟩)
    · have herase : (x :: rest).eraseP (fun q => q._id = id)
          = x :: rest.eraseP (fun q => q._id = id) := by
        simp [List.eraseP_cons, hx]
      rw [herase, List.find?_cons]
      simp only [hx, decide_False]
      exact ih hnd.2

theorem find_eraseP_other (id other : ObjectId) (l : List Project) (hne : other ≠ id) :
    (l.eraseP (fun q => q._id = id)).find? (fun p => p._id = other)
      = l.find? (fun p => p._id = other) := by
  induction l with
  | nil => rfl
  | cons x rest ih =>
    by_cases hx : x._id = id
    · have herase : (x :: rest).eraseP (fun q => q._id = id) = rest := by
        simp [List.eraseP_cons, hx]
      have hxo : ¬ x._id = other := fun h => hne (h.symm.trans hx)
      rw [herase, List.find?_cons]
      simp [hxo]
    · have herase : (x :: rest).eraseP (fun q => q._id = id)
          = x :: rest.eraseP (fun q => q._id = id) := by
        simp [List.eraseP_cons, hx]
      rw [herase, List.find?_cons, List.find?_cons, ih]

/-- C12: after a successful `deleteProject` on P the store holds no task
and no activity entry that references P; when project ids are unique it
holds no project with the id of P, and `getProject` answers 404. The tasks
and entries of other projects are the same lists as before, every other
project is found as before, and comments and users are untouched. -/
theorem deleteProject_cascades (st st' : Store) (user reader : User) (id : ObjectId)
    (b : JObj) (h : deleteProject st user id = (Result.sent 200 b, st')) :
    b = success "Project deleted successfully"
      ∧ (∀ t ∈ st'.tasks, t.project ≠ id) ∧ (∀ l ∈ st'.logs, l.project ≠ id)
      ∧ st'.tasks = st.tasks.filter (fun t => t.project ≠ id)
      ∧ st'.logs = st.logs.filter (fun l => l.project ≠ id)
      ∧ (∀ t ∈ st.tasks, t.project ≠ id → t ∈ st'.tasks)
      ∧ (∀ l ∈ st.logs, l.project ≠ id → l ∈ st'.logs)
      ∧ ((st.projects.map (fun p => p._id)).Nodup →
          findProject st' id = none
            ∧ getProject st' reader id = (Result.sent 404 (error "Project not found"), st'))
      ∧ (∀ other, other ≠ id → findProject st' other = findProject st other)
      ∧ st'.comments = st.comments ∧ st'.users = st.users := by
  obtain ⟨project, _, _, _, hb, hst⟩ := deleteProject_done h
  subst hst
  refine ⟨hb, ?_, ?_, rfl, rfl, ?_, ?_, ?_, ?_, rfl, rfl⟩
  · intro t ht
    have := (List.mem_filter.mp ht).2
    simpa using this
  · intro l hl
    have := (List.mem_filter.mp hl).2
    simpa using this
  · intro t ht hne
    exact List.mem_filter.mpr ⟨ht, by simpa using hne⟩
  · intro l hl hne
    exact List.mem_filter.mpr ⟨hl, by simpa using hne⟩
  · intro hnd
    have hnone : findProject
        { st with
          tasks := st.tasks.filter (fun t => t.project ≠ id)
          logs := st.logs.filter (fun l => l.project ≠ id)
          projects := st.projects.eraseP (fun q => q._id = id) } id = none :=
      find_eraseP_same id st.projects hnd
    refine ⟨hnone, ?_⟩
    unfold getProject
    rw [hnone]
  · intro other hne
    exact find_eraseP_other id other st.projects hne

/-- Instance of C12: the owner `alice` deletes project 1 of `board2`. -/
theorem deleteProject_cascades_witness :
    deleteProject board2 alice 1
        = (Result.sent 200 (success "Project deleted successfully"),
            (deleteProject board2 alice 1).2)
      ∧ success "Project deleted successfully" = success "Project deleted successfully"
      ∧ (∀ t ∈ (deleteProject board2 alice 1).2.tasks, t.project ≠ 1)
      ∧ (∀ l ∈ (deleteProject board2 alice 1).2.logs, l.project ≠ 1)
      ∧ (deleteProject board2 alice 1).2.tasks = board2.tasks.filter (fun t => t.project ≠ 1)
      ∧ (deleteProject board2 alice 1).2.logs = board2.logs.filter (fun l => l.project ≠ 1)
      ∧ (∀ t ∈ board2.tasks, t.project ≠ 1 → t ∈ (deleteProject board2 alice 1).2.tasks)
      ∧ (∀ l ∈ board2.logs, l.project ≠ 1 → l ∈ (deleteProject board2 alice 1).2.logs)
      ∧ ((board2.projects.map (fun p => p._id)).Nodup →
          findProject (deleteProject board2 alice 1).2 1 = none
            ∧ getProject (deleteProject board2 alice 1).2 bob 1
                = (Result.sent 404 (error "Project not found"),
                    (deleteProject board2 alice 1).2))
      ∧ (∀ other, other ≠ 1 →
          findProject (deleteProject board2 alice 1).2 other = findProject board2 other)
      ∧ (deleteProject board2 alice 1).2.comments = board2.comments
      ∧ (deleteProject board2 alice 1).2.users = board2.users :=
  have h : deleteProject board2 alice 1
      = (Result.sent 200 (success "Project deleted successfully"),
          (deleteProject board2 alice 1).2) := by decide
  ⟨h, deleteProject_cascades board2 _ alice bob 1 _ h⟩

theorem noOrphanComments_logEvent (env : Env) (st : Store) (p : ObjectId)
    (t : Option ObjectId) (u : ObjectId) (a : String) (m : List (String × Option String)) :
    noOrphanComments (logEvent env st p t u a m) = noOrphanComments st := by
  unfold noOrphanComments
  rw [logEvent_tasks, logEvent_comments]

/-- `deleteTask` removes the comments of the task it deletes: it keeps the
store free of comments that reference a missing task. -/
theorem deleteTask_keeps_noOrphanComments (env : Env) (st : Store) (user : User)
    (projectId taskId : ObjectId) (hinv : noOrphanComments st = true) :
    noOrphanComments (deleteTask env st user projectId taskId).2 = true := by
  unfold deleteTask
  split
  · exact hinv
  · exact hinv
  · split
    · exact hinv
    · split_ifs
      · exact hinv
      · exact hinv
      · simp only
        rw [noOrphanComments_logEvent]
        unfold noOrphanComments at hinv ⊢
        simp only [List.all_eq_true, List.any_eq_true, decide_eq_true_eq] at hinv ⊢
        intro c hc
        obtain ⟨hc, hne⟩ := List.mem_filter.mp hc
        obtain ⟨t, ht, hid⟩ := hinv c hc
        refine ⟨t, ?_, hid⟩
        have hnp : ¬ (fun t : Task => decide (t._id = taskId)) t = true := by
          simp only [decide_eq_true_eq]
          intro h
          rw [hid] at h
          simp [h] at hne
        exact (List.mem_eraseP_of_neg (p := fun t : Task => decide (t._id = taskId))
          (a := t) hnp).mpr ht

/-- C13: the code departs from the claim. On `board2` every comment
references a stored task; after the owner deletes project 1 (200) the tasks
20 and 24 are gone while their comments 70 and 72 are still stored. -/
theorem deleteProject_orphans_comments :
    noOrphanComments board2 = true
      ∧ (deleteProject board2 alice 1).1
          = Result.sent 200 (success "Project deleted successfully")
      ∧ (deleteProject board2 alice 1).2.tasks.any (fun t => t._id = 20) = false
      ∧ (deleteProject board2 alice 1).2.tasks.any (fun t => t._id = 24) = false
      ∧ ((deleteProject board2 alice 1).2.comments.map (fun c => (c._id, c.task)))
          = [(70, 20), (71, 23), (72, 24)]
      ∧ noOrphanComments (deleteProject board2 alice 1).2 = false := by
  decide

/-! ## Deleting a task (C14, C16) -/

theorem canDelete_true {user : User} {project : Project} {task : Task}
    (h : user.role = "admin" ∨ project.owner = user._id ∨ task.createdBy = user._id) :
    canDelete user project task = true := by
  rcases h with h | h | h <;> simp [canDelete, h]

theorem canDelete_false {user : User} {project : Project} {task : Task}
    (h : ¬ (user.role = "admin" ∨ project.owner = user._id ∨ task.createdBy = user._id)) :
    canDelete user project task = false := by
  push_neg at h
  simp [canDelete, h.1, h.2.1, h.2.2]

/-- The three outcomes of `deleteTask` once the access check is passed and
the task is found. -/
theorem deleteTask_cases (env : Env) (st : Store) (user : User) (projectId taskId : ObjectId)
    (project : Project) (task : Task)
    (hacc : checkProjectAccess st projectId user._id = Access.granted project)
    (hfind : findTask st taskId projectId = some task) :
    (canDelete user project task = false →
        deleteTask env st user projectId taskId
          = (Result.sent 403 (error "Not authorized to delete this task"), st))
      ∧ (canDelete user project task = true → destroyAttachments env task = false →
        deleteTask env st user projectId taskId = (Result.thrown "CloudinaryError", st))
      ∧ (canDelete user project task = true → destroyAttachments env task = true →
        deleteTask env st user projectId taskId
          = (Result.sent 200 (success "Task deleted"),
              logEvent env
                { st with
                  comments := st.comments.filter (fun c => c.task ≠ taskId)
                  tasks := st.tasks.eraseP (fun t => t._id = taskId) }
                projectId none user._id "deleted_task" [("taskTitle", some task.title)])) := by
  unfold deleteTask
  rw [hacc]
  simp only [hfind]
  refine ⟨?_, ?_, ?_⟩
  · intro hc
    simp [hc]
  · intro hc hd
    simp [hc, hd]
  · intro hc hd
    simp [hc, hd]

/-- C14 (as stated, refuted): `alice` owns project 1 and passes the access
check, task 24 exists in it, yet with a file store that refuses the
removal of its attachment her `deleteTask` does not succeed. -/
theorem deleteTask_owner_not_always_success :
    checkProjectAccess board2 1 alice._id = Access.granted project1
      ∧ findTask board2 24 1 = some taskWithFile
      ∧ project1.owner = alice._id
      ∧ deleteTask envDown board2 alice 1 24 = (Result.thrown "CloudinaryError", board2) := by
  decide

/-- C14 (amended): for a principal who passes the project access check and
a task that exists in the project, `deleteTask` answers 403 exactly when the
principal is neither admin, nor project owner, nor creator of the task, and
then the store (task, comments, attachments) is unchanged. An authorized
call never answers 403, and it succeeds whenever no removal of an
attachment from the external file store fails: then the task and its
comments are deleted. -/
theorem deleteTask_authorization (env : Env) (st : Store) (user : User)
    (projectId taskId : ObjectId) (project : Project) (task : Task)
    (hacc : checkProjectAccess st projectId user._id = Access.granted project)
    (hfind : findTask st taskId projectId = some task) :
    (¬ (user.role = "admin" ∨ project.owner = user._id ∨ task.createdBy = user._id) →
        deleteTask env st user projectId taskId
          = (Result.sent 403 (error "Not authorized to delete this task"), st))
      ∧ ((∃ b, (deleteTask env st user projectId taskId).1 = Result.sent 403 b)
          ↔ ¬ (user.role = "admin" ∨ project.owner = user._id ∨ task.createdBy = user._id))
      ∧ (destroyAttachments env task = true →
          ((∃ b, (deleteTask env st user projectId taskId).1 = Result.sent 200 b)
            ↔ (user.role = "admin" ∨ project.owner = user._id ∨ task.createdBy = user._id)))
      ∧ (destroyAttachments env task = true →
          (user.role = "admin" ∨ project.owner = user._id ∨ task.createdBy = user._id) →
          (deleteTask env st user projectId taskId).1 = Result.sent 200 (success "Task deleted")
            ∧ (deleteTask env st user projectId taskId).2.tasks
                = st.tasks.eraseP (fun t => t._id = taskId)
            ∧ (deleteTask env st user projectId taskId).2.comments
                = st.comments.filter (fun c => c.task ≠ taskId)) := by
  obtain ⟨hno, hfail, hok⟩ := deleteTask_cases env st user projectId taskId project task hacc hfind
  refine ⟨fun h => hno (canDelete_false h), ⟨?_, ?_⟩, ?_, ?_⟩
  · rintro ⟨b, hb⟩ hauth
    have hc := canDelete_true hauth
    cases hd : destroyAttachments env task with
    | false => rw [hfail hc hd] at hb; simp at hb
    | true => rw [hok hc hd] at hb; simp at hb
  · intro h
    exact ⟨_, by rw [hno (canDelete_false h)]⟩
  · intro hd
    constructor
    · rintro ⟨b, hb⟩
      by_contra hcon
      rw [hno (canDelete_false hcon)] at hb
      simp at hb
    · intro hauth
      exact ⟨_, by rw [hok (canDelete_true hauth) hd]⟩
  · intro hd hauth
    rw [hok (canDelete_true hauth) hd]
    exact ⟨rfl, logEvent_tasks _ _ _ _ _ _ _, logEvent_comments _ _ _ _ _ _ _⟩

/-- Instance of the amended C14: `bob`, member of project 1, and task 20
created by `alice`. -/
theorem deleteTask_authorization_witness :
    checkProjectAccess board2 1 bob._id = Access.granted project1
      ∧ findTask board2 20 1 = some (sampleTask 20 1 "todo" 0)
      ∧ (¬ (bob.role = "admin" ∨ project1.owner = bob._id
              ∨ (sampleTask 20 1 "todo" 0).createdBy = bob._id) →
          deleteTask env0 board2 bob 1 20
            = (Result.sent 403 (error "Not authorized to delete this task"), board2))
      ∧ ((∃ b, (deleteTask env0 board2 bob 1 20).1 = Result.sent 403 b)
          ↔ ¬ (bob.role = "admin" ∨ project1.owner = bob._id
                ∨ (sampleTask 20 1 "todo" 0).createdBy = bob._id))
      ∧ (destroyAttachments env0 (sampleTask 20 1 "todo" 0) = true →
          ((∃ b, (deleteTask env0 board2 bob 1 20).1 = Result.sent 200 b)
            ↔ (bob.role = "admin" ∨ project1.owner = bob._id
                ∨ (sampleTask 20 1 "todo" 0).createdBy = bob._id)))
      ∧ (destroyAttachments env0 (sampleTask 20 1 "todo" 0) = true →
          (bob.role = "admin" ∨ project1.owner = bob._id
            ∨ (sampleTask 20 1 "todo" 0).createdBy = bob._id) →
          (deleteTask env0 board2 bob 1 20).1 = Result.sent 200 (success "Task deleted")
            ∧ (deleteTask env0 board2 bob 1 20).2.tasks
                = board2.tasks.eraseP (fun t => t._id = 20)
            ∧ (deleteTask env0 board2 bob 1 20).2.comments
                = board2.comments.filter (fun c => c.task ≠ 20)) :=
  have hacc : checkProjectAccess board2 1 bob._id = Access.granted project1 := by decide
  have hfind : findTask board2 20 1 = some (sampleTask 20 1 "todo" 0) := by decide
  ⟨hacc, hfind, deleteTask_authorization env0 board2 bob 1 20 project1 _ hacc hfind⟩

/-- C16 (as stated, refuted): `bob` created task 24 of project 1; with a
file store that rejects the removal of its attachment his `deleteTask`
reports no success, and the task and its comment 72 are still stored. -/
theorem deleteTask_attachment_failure_is_fatal :
    canDelete bob project1 taskWithFile = true
      ∧ envDown.destroy "spec-pdf" = Destroyed.rejected
      ∧ destroyAttachments envDown taskWithFile = false
      ∧ (deleteTask envDown board2 bob 1 24).1 = Result.thrown "CloudinaryError"
      ∧ findTask (deleteTask envDown board2 bob 1 24).2 24 1 = some taskWithFile
      ∧ ((deleteTask envDown board2 bob 1 24).2.comments.filter (fun c => c.task = 24)).map
          (fun c => c._id) = [72] := by
  decide

/-- C16 (amended): in an authorized `deleteTask`, a removal of an
attachment that fails with a result the external file store reports (the
call resolves, with `not found`) is not fatal: when every removal resolves,
with `ok` or with `not found`, the task record and its comments are deleted
and the call reports success. A removal that is rejected is fatal: no
success is reported, and the task record, its comments and the activity log
stay as they were. -/
theorem deleteTask_attachment_failure_modes (env : Env) (st : Store) (user : User)
    (projectId taskId : ObjectId) (project : Project) (task : Task)
    (hacc : checkProjectAccess st projectId user._id = Access.granted project)
    (hfind : findTask st taskId projectId = some task)
    (hauth : user.role = "admin" ∨ project.owner = user._id ∨ task.createdBy = user._id) :
    ((∀ a ∈ task.attachments, a.publicId ≠ "" →
          env.destroy a.publicId = Destroyed.ok ∨ env.destroy a.publicId = Destroyed.notFound) →
        (deleteTask env st user projectId taskId).1 = Result.sent 200 (success "Task deleted")
          ∧ (deleteTask env st user projectId taskId).2.tasks
              = st.tasks.eraseP (fun t => t._id = taskId)
          ∧ (deleteTask env st user projectId taskId).2.comments
              = st.comments.filter (fun c => c.task ≠ taskId))
      ∧ ((∃ a ∈ task.attachments, a.publicId ≠ ""
            ∧ env.destroy a.publicId = Destroyed.rejected) →
        deleteTask env st user projectId taskId = (Result.thrown "CloudinaryError", st)
          ∧ findTask (deleteTask env st user projectId taskId).2 taskId projectId = some task
          ∧ (deleteTask env st user projectId taskId).2.comments = st.comments
          ∧ (deleteTask env st user projectId taskId).2.logs = st.logs) := by
  obtain ⟨_, hfail, hok⟩ := deleteTask_cases env st user projectId taskId project task hacc hfind
  refine ⟨?_, ?_⟩
  · intro hres
    have hd : destroyAttachments env task = true := by
      unfold destroyAttachments
      rw [List.all_eq_true]
      intro a ha
      by_cases hid : a.publicId = ""
      · simp [hid]
      · rcases hres a ha hid with h | h <;> simp [Env.destroyOk, h]
    rw [hok (canDelete_true hauth) hd]
    exact ⟨rfl, logEvent_tasks _ _ _ _ _ _ _, logEvent_comments _ _ _ _ _ _ _⟩
  · rintro ⟨a, ha, hid, hrej⟩
    have hd : destroyAttachments env task = false := by
      unfold destroyAttachments
      rw [List.all_eq_false]
      exact ⟨a, ha, by simp [hid, Env.destroyOk, hrej]⟩
    rw [hfail (canDelete_true hauth) hd]
    exact ⟨rfl, hfind, rfl, rfl⟩

/-- Instance of the amended C16: `bob` deletes his task 24 while the file
store answers the removal of its attachment with `not found`; the task and
its comment 72 are deleted and the call reports success. -/
theorem deleteTask_attachment_failure_modes_witness :
    checkProjectAccess board2 1 bob._id = Access.granted project1
      ∧ findTask board2 24 1 = some taskWithFile
      ∧ (bob.role = "admin" ∨ project1.owner = bob._id ∨ taskWithFile.createdBy = bob._id)
      ∧ (∀ a ∈ taskWithFile.attachments, a.publicId ≠ "" →
          envMissing.destroy a.publicId = Destroyed.ok
            ∨ envMissing.destroy a.publicId = Destroyed.notFound)
      ∧ (taskWithFile.attachments.map (fun a => envMissing.destroy a.publicId)
          = [Destroyed.notFound])
      ∧ findTask (deleteTask envMissing board2 bob 1 24).2 24 1 = none
      ∧ ((deleteTask envMissing board2 bob 1 24).2.comments.map (fun c => c._id) = [70, 71])
      ∧ (((∀ a ∈ taskWithFile.attachments, a.publicId ≠ "" →
            envMissing.destroy a.publicId = Destroyed.ok
              ∨ envMissing.destroy a.publicId = Destroyed.notFound) →
          (deleteTask envMissing board2 bob 1 24).1 = Result.sent 200 (success "Task deleted")
            ∧ (deleteTask envMissing board2 bob 1 24).2.tasks
                = board2.tasks.eraseP (fun t => t._id = 24)
            ∧ (deleteTask envMissing board2 bob 1 24).2.comments
                = board2.comments.filter (fun c => c.task ≠ 24))
        ∧ ((∃ a ∈ taskWithFile.attachments, a.publicId ≠ ""
              ∧ envMissing.destroy a.publicId = Destroyed.rejected) →
          deleteTask envMissing board2 bob 1 24 = (Result.thrown "CloudinaryError", board2)
            ∧ findTask (deleteTask envMissing board2 bob 1 24).2 24 1 = some taskWithFile
            ∧ (deleteTask envMissing board2 bob 1 24).2.comments = board2.comments
            ∧ (deleteTask envMissing board2 bob 1 24).2.logs = board2.logs)) :=
  have hacc : checkProjectAccess board2 1 bob._id = Access.granted project1 := by decide
  have hfind : findTask board2 24 1 = some taskWithFile := by decide
  have hauth : bob.role = "admin" ∨ project1.owner = bob._id
      ∨ taskWithFile.createdBy = bob._id := by decide
  ⟨hacc, hfind, hauth, by decide, by decide, by decide, by decide,
    deleteTask_attachment_failure_modes envMissing board2 bob 1 24 project1 taskWithFile
      hacc hfind hauth⟩

/-! ## Removing a member (C18) -/

theorem saveProject_some {p saved : Project} (h : saveProject p = some saved) : saved = p := by
  unfold saveProject at h
  split_ifs at h
  exact (Option.some.inj h).symm

theorem findProject_some {st : Store} {id : ObjectId} {project : Project}
    (h : findProject st id = some project) : project ∈ st.projects ∧ project._id = id := by
  unfold findProject at h
  have h1 := List.find?_some h
  simp only [decide_eq_true_eq] at h1
  exact ⟨List.mem_of_find?_eq_some h, h1⟩

/-- After the write of a saved project, the lookup by id returns it. -/
theorem find_after_writeProject (l : List Project) (saved old : Project)
    (h : l.find? (fun p => p._id = saved._id) = some old) :
    (replaceFirst (fun q => q._id = saved._id) saved l).find? (fun p => p._id = saved._id)
      = some saved := by
  induction l with
  | nil => simp at h
  | cons x rest ih =>
    by_cases hx : x._id = saved._id
    · simp [replaceFirst, hx]
    · have hrest : rest.find? (fun p => p._id = saved._id) = some old := by
        simpa [List.find?_cons, hx] using h
      have hi := ih hrest
      simpa [replaceFirst, hx, List.find?_cons] using hi

theorem logEvent_users (env : Env) (st : Store) (p : ObjectId) (t : Option ObjectId)
    (u : ObjectId) (a : String) (m : List (String × Option String)) :
    (logEvent env st p t u a m).users = st.users := by
  rw [logEvent_eq]
  unfold logActivity
  split_ifs <;> rfl

/-- The outcomes of `removeMember` on an existing project. -/
theorem removeMember_cases (env : Env) (st : Store) (user : User) (id memberId : ObjectId)
    (project : Project) (hex : findProject st id = some project) :
    (removeMember env st user id memberId).2 = st
        ∧ (∀ b, (removeMember env st user id memberId).1 ≠ Result.sent 200 b)
        ∧ (project.owner = memberId →
            (removeMember env st user id memberId).1
                = Result.sent 403 (error "Only project owner or admin can remove members")
              ∨ (removeMember env st user id memberId).1
                = Result.sent 400 (error "Cannot remove project owner"))
      ∨ project.owner ≠ memberId ∧ ownerOrAdmin project user = true
        ∧ (removeMember env st user id memberId).1
            = Result.sent 200 (success "Member removed"
                [("project", JVal.projectDoc
                  { project with members := project.members.filter (fun m => m ≠ memberId) })])
        ∧ findProject (removeMember env st user id memberId).2 id
            = some { project with members := project.members.filter (fun m => m ≠ memberId) }
        ∧ (removeMember env st user id memberId).2.tasks = st.tasks := by
  unfold removeMember
  rw [hex]
  by_cases hoa : ownerOrAdmin project user = true
  · by_cases hown : project.owner = memberId
    · left
      simp [hoa, hown]
    · simp only [hoa, Bool.not_true, Bool.false_eq_true, if_false, hown]
      cases hs : saveProject
          { project with members := project.members.filter (fun m => m ≠ memberId) } with
      | none =>
        left
        simp [hown]
      | some saved =>
        right
        obtain rfl := saveProject_some hs
        refine ⟨hown, trivial, rfl, ?_, ?_⟩
        · simp only
          unfold findProject at hex ⊢
          rw [logEvent_projects]
          unfold writeProject
          simp only
          have hid := (findProject_some hex).2
          have := find_after_writeProject st.projects
            { project with members := project.members.filter (fun m => m ≠ memberId) } project
            (by simpa [hid] using hex)
          simpa [hid] using this
        · simp only
          rw [logEvent_tasks]
          rfl
  · left
    have hoa' : ownerOrAdmin project user = false := by simpa using hoa
    simp [hoa']

/-- C18: the owner is not removed by `removeMember`. For every call on an
existing project the project is still found afterwards with the same owner,
and an owner listed in `members` before is listed after; a call whose
`memberId` is the owner's id is rejected (403 or 400) and changes nothing;
a successful call leaves as `members` the old list without the entries
equal to `memberId`, the others in their original order. -/
theorem removeMember_keeps_owner (env : Env) (st : Store) (user : User)
    (id memberId : ObjectId) (project : Project)
    (hex : findProject st id = some project) :
    (∃ after, findProject (removeMember env st user id memberId).2 id = some after
        ∧ after.owner = project.owner
        ∧ (project.owner ∈ project.members → after.owner ∈ after.members))
      ∧ (memberId = project.owner →
          (removeMember env st user id memberId).2 = st
            ∧ ((removeMember env st user id memberId).1
                  = Result.sent 403 (error "Only project owner or admin can remove members")
                ∨ (removeMember env st user id memberId).1
                  = Result.sent 400 (error "Cannot remove project owner")))
      ∧ (∀ b, (removeMember env st user id memberId).1 = Result.sent 200 b →
          ∃ after, findProject (removeMember env st user id memberId).2 id = some after
            ∧ after.members = project.members.filter (fun m => m ≠ memberId)
            ∧ (∀ m, m ∈ after.members ↔ m ∈ project.members ∧ m ≠ memberId)
            ∧ after.members.Sublist project.members
            ∧ after = { project with members := after.members }) := by
  rcases removeMember_cases env st user id memberId project hex with
    ⟨hst, hnot, hrej⟩ | ⟨hne, _, hres, hfound, _⟩
  · refine ⟨⟨project, by rw [hst]; exact hex, rfl, fun h => h⟩, ?_, ?_⟩
    · intro hm
      exact ⟨hst, hrej hm.symm⟩
    · intro b hb
      exact absurd hb (hnot b)
  · refine ⟨⟨_, hfound, rfl, ?_⟩, ?_, ?_⟩
    · intro hin
      exact List.mem_filter.mpr ⟨hin, by simpa using hne⟩
    · intro hm
      exact absurd hm.symm hne
    · intro b _
      refine ⟨_, hfound, rfl, ?_, List.filter_sublist _, rfl⟩
      intro m
      simp [List.mem_filter]

/-- Instance of C18: the owner `alice` removes `bob` from project 1. -/
theorem removeMember_keeps_owner_witness :
    findProject board2 1 = some project1
      ∧ (∃ after, findProject (removeMember env0 board2 alice 1 11).2 1 = some after
          ∧ after.owner = project1.owner
          ∧ (project1.owner ∈ project1.members → after.owner ∈ after.members))
      ∧ ((11 : ObjectId) = project1.owner →
          (removeMember env0 board2 alice 1 11).2 = board2
            ∧ ((removeMember env0 board2 alice 1 11).1
                  = Result.sent 403 (error "Only project owner or admin can remove members")
                ∨ (removeMember env0 board2 alice 1 11).1
                  = Result.sent 400 (error "Cannot remove project owner")))
      ∧ (∀ b, (removeMember env0 board2 alice 1 11).1 = Result.sent 200 b →
          ∃ after, findProject (removeMember env0 board2 alice 1 11).2 1 = some after
            ∧ after.members = project1.members.filter (fun m => m ≠ 11)
            ∧ (∀ m, m ∈ after.members ↔ m ∈ project1.members ∧ m ≠ 11)
            ∧ after.members.Sublist project1.members
            ∧ after = { project1 with members := after.members }) :=
  have hex : findProject board2 1 = some project1 := by decide
  ⟨hex, removeMember_keeps_owner env0 board2 alice 1 11 project1 hex⟩

/-! ## The response envelope (C24) -/

theorem getKey_setKey (o : JObj) (k k' : String) (v : JVal) :
    getKey (setKey o k v) k' = if k' = k then some v else getKey o k' := by
  induction o with
  | nil =>
    by_cases h : k' = k
    · simp [setKey, getKey, h]
    · have h' : ¬ k = k' := fun e => h e.symm
      simp [setKey, getKey, h, h']
  | cons kv rest ih =>
    obtain ⟨k0, v0⟩ := kv
    unfold getKey at ih ⊢
    by_cases h0 : k0 = k
    · subst h0
      by_cases h : k' = k0
      · subst h
        simp [setKey]
      · have h' : ¬ k0 = k' := fun e => h e.symm
        simp [setKey, h, h']
    · by_cases h1 : k0 = k'
      · subst h1
        simp [setKey, h0]
      · simp only [setKey, h0, if_false, List.find?_cons, h1, decide_False]
        exact ih

/-- A key that the data object does not carry is read from the base. -/
theorem getKey_spread_of_absent (data : JObj) (k : String) :
    ∀ base : JObj, (∀ kv ∈ data, kv.1 ≠ k) → getKey (spread base data) k = getKey base k := by
  induction data with
  | nil => intro base _; rfl
  | cons kv rest ih =>
    intro base h
    have hstep : spread base (kv :: rest) = spread (setKey base kv.1 kv.2) rest := rfl
    rw [hstep, ih _ (fun x hx => h x (List.mem_cons_of_mem _ hx)), getKey_setKey]
    have hne : ¬ k = kv.1 := fun e => h kv (List.mem_cons_self _ _) e.symm
    simp [hne]

/-- A key that the data object carries last with value `v` is read as `v`. -/
theorem getKey_spread_of_last (front : JObj) (k : String) (v : JVal) (back base : JObj)
    (h : ∀ kv ∈ back, kv.1 ≠ k) :
    getKey (spread base (front ++ (k, v) :: back)) k = some v := by
  have hsplit : spread base (front ++ (k, v) :: back)
      = spread (setKey (spread base front) k v) back := by
    simp [spread, List.foldl_append]
  rw [hsplit, getKey_spread_of_absent back k _ h, getKey_setKey]
  simp

/-- C24 (as stated, refuted): a data object with the keys `success` and
`message` replaces the flag and the message of both builders. -/
theorem envelope_flag_overridden :
    getKey (error "Not found" [("success", JVal.bool true)]) "success" = some (JVal.bool true)
      ∧ getKey (success "Done" [("success", JVal.bool false)]) "success"
          = some (JVal.bool false)
      ∧ getKey (error "Not found" [("message", JVal.str "ok")]) "message"
          = some (JVal.str "ok") := by
  decide

/-- C24 (amended): the builders keep their flag and message for every data
object that does not itself carry the key: without a key `success` in the
data, `error` has `success === false` and `success` has `success === true`;
without a key `message`, both have the given message. A key `success` or
`message` of the data object replaces the builder's value. -/
theorem envelope_keeps_flag (message : String) (data : JObj) :
    ((∀ kv ∈ data, kv.1 ≠ "success") →
        getKey (error message data) "success" = some (JVal.bool false)
          ∧ getKey (success message data) "success" = some (JVal.bool true))
      ∧ ((∀ kv ∈ data, kv.1 ≠ "message") →
        getKey (error message data) "message" = some (JVal.str message)
          ∧ getKey (success message data) "message" = some (JVal.str message))
      ∧ (∀ (front back : JObj) (k : String) (v : JVal),
          data = front ++ (k, v) :: back → (∀ kv ∈ back, kv.1 ≠ k) →
          getKey (error message data) k = some v
            ∧ getKey (success message data) k = some v) := by
  refine ⟨?_, ?_, ?_⟩
  · intro h
    unfold error success
    rw [getKey_spread_of_absent data "success" _ h, getKey_spread_of_absent data "success" _ h]
    exact ⟨rfl, rfl⟩
  · intro h
    unfold error success
    rw [getKey_spread_of_absent data "message" _ h, getKey_spread_of_absent data "message" _ h]
    constructor <;> simp [getKey]
  · intro front back k v hd hback
    subst hd
    unfold error success
    exact ⟨getKey_spread_of_last front k v back _ hback,
      getKey_spread_of_last front k v back _ hback⟩

/-! ## Creating a project (C23) -/

/-- C23: the code departs from the claim. `bob` has role `member`; the
middleware `requireAdmin` would answer him 403, but the route
`POST /api/projects` does not mount it: his request is answered 201 and a
project owned by him is stored. -/
theorem createProject_open_to_members :
    bob.role ≠ "admin"
      ∧ requireAdmin (some bob)
          = some (Result.sent 403 (error "Access denied. Required role: admin"))
      ∧ findProject board2 50 = none
      ∧ (postProject env0 board2 bob { name := some "Side project" }).1
          = Result.sent 201 (success "Project created"
              [("project", JVal.projectDoc
                { _id := 50, name := "Side project", description := "", owner := 11,
                  members := [11], status := "active", color := "#6c63ff",
                  coverImage := "" })])
      ∧ (findProject (postProject env0 board2 bob { name := some "Side project" }).2 50).map
          (fun p => (p.name, p.owner)) = some ("Side project", 11)
      ∧ (postProject env0 board2 bob { name := some "Side project" }).2.projects.length
          = board2.projects.length + 1 := by
  decide

/-- The handler `createProject` never reads the role: two principals with
the same id get the same answer and the same store. -/
theorem createProject_ignores_role (env : Env) (st : Store) (user other : User)
    (body : CreateProjectBody) (hid : other._id = user._id) :
    createProject env st other body = createProject env st user body := by
  unfold createProject newProject
  rw [hid]

/-! ## The activity feed (C22) -/

/-- C22: the code departs from the claim. `mallory` is neither the owner
nor a member of project 1, and `getActivity` answers her 200 with the
activity entries of that project. -/
theorem getActivity_open_to_nonmembers :
    findProject board2 1 = some project1
      ∧ project1.owner ≠ mallory._id ∧ mallory._id ∉ project1.members
      ∧ (getProject board2 mallory 1).1 = Result.sent 403 (error "Access denied")
      ∧ (getActivity env0 board2 mallory 1 {}).1
          = Result.sent 200 (success "Activity fetched"
              [("logs", JVal.logs
                [{ project := 1, task := some 20, user := 10, action := "created_task",
                   meta := [("taskTitle", some "Sample")], createdAt := 500 }]),
               ("pagination", JVal.pagination 1 1 20 (some 1))]) := by
  decide

/-- The handler `getActivity` gives every principal the same answer. -/
theorem getActivity_ignores_principal (env : Env) (st : Store) (user other : User)
    (id : ObjectId) (q : ActivityQuery) :
    getActivity env st other id q = getActivity env st user id q := rfl

/-! ## Mutations of a task by a non-member (C25) -/

/-- For a principal who is neither owner nor member of the project,
`updateTask`, `reorderTasks`, `deleteTask` and `uploadTaskFile` leave the
store as it is. -/
theorem task_mutations_denied_for_nonmember (env : Env) (st : Store) (user : User)
    (projectId taskId : ObjectId) (project : Project) (body : UpdateTaskBody)
    (items : Option (List ReorderItem)) (file : FileInfo)
    (hex : findProject st projectId = some project)
    (hown : project.owner ≠ user._id) (hmem : user._id ∉ project.members) :
    updateTask env st user projectId taskId body
        = (Result.sent 403 (error "Access denied"), st)
      ∧ reorderTasks st user projectId items = (Result.sent 403 (error "Access denied"), st)
      ∧ deleteTask env st user projectId taskId
          = (Result.sent 403 (error "Access denied"), st)
      ∧ uploadTaskFile env st user projectId taskId (some file)
          = (Result.sent 403 (error "Access denied"), st) := by
  have hd := checkProjectAccess_denied hex hown hmem
  refine ⟨?_, ?_, ?_, ?_⟩
  · unfold updateTask
    rw [hd]
  · unfold reorderTasks
    rw [hd]
  · unfold deleteTask
    rw [hd]
  · unfold uploadTaskFile
    simp only [hd]

/-- C25: the code departs from the claim. `mallory` is neither the owner
nor a member of project 1; her request to delete attachment 80 of task 24
is answered 200 and the task's attachments list is emptied, while her
`uploadTaskFile` on the same task is answered 403. -/
theorem deleteTaskFile_open_to_nonmembers :
    findProject board2 1 = some project1
      ∧ project1.owner ≠ mallory._id ∧ mallory._id ∉ project1.members
      ∧ (findTask board2 24 1).map (fun t => t.attachments.map (fun a => a._id)) = some [80]
      ∧ (uploadTaskFile env0 board2 mallory 1 24
            (some { path := "https://files/x.png", filename := "x-png",
                    originalname := "x.png", size := 10, mimetype := "image/png" })).1
          = Result.sent 403 (error "Access denied")
      ∧ (deleteAttachment env0 board2 mallory 1 24 80).1
          = Result.sent 200 (success "Attachment deleted")
      ∧ (findTask (deleteAttachment env0 board2 mallory 1 24 80).2 24 1).map
          (fun t => t.attachments) = some [] := by
  decide

/-! ## The default sort of `getTasks` (C21) -/

theorem insertBy_perm {α : Type} (le : α → α → Bool) (x : α) (l : List α) :
    (insertBy le x l).Perm (x :: l) := by
  induction l with
  | nil => exact List.Perm.refl _
  | cons y ys ih =>
    unfold insertBy
    split_ifs
    · exact List.Perm.refl _
    · exact (List.Perm.cons y ih).trans (List.Perm.swap x y ys)

theorem sortBy_perm {α : Type} (le : α → α → Bool) (l : List α) : (sortBy le l).Perm l := by
  induction l with
  | nil => exact List.Perm.refl _
  | cons x xs ih =>
    have hstep : sortBy le (x :: xs) = insertBy le x (sortBy le xs) := rfl
    rw [hstep]
    exact (insertBy_perm le x _).trans (List.Perm.cons x ih)

theorem insertBy_pairwise {α : Type} (le : α → α → Bool) (R : α → α → Prop)
    (hle : ∀ a b, le a b = true → R a b) (hnot : ∀ a b, le a b = false → R b a)
    (htrans : ∀ a b c, R a b → R b c → R a c) (x : α) (l : List α)
    (hl : l.Pairwise R) : (insertBy le x l).Pairwise R := by
  induction l with
  | nil => simp [insertBy]
  | cons y ys ih =>
    rw [List.pairwise_cons] at hl
    unfold insertBy
    by_cases hxy : le x y = true
    · rw [if_pos hxy, List.pairwise_cons]
      refine ⟨?_, List.pairwise_cons.mpr hl⟩
      intro z hz
      rcases List.mem_cons.mp hz with rfl | hz
      · exact hle _ _ hxy
      · exact htrans _ _ _ (hle _ _ hxy) (hl.1 z hz)
    · rw [if_neg hxy, List.pairwise_cons]
      refine ⟨?_, ih hl.2⟩
      intro z hz
      have hz' := (insertBy_perm le x ys).subset hz
      rcases List.mem_cons.mp hz' with rfl | hz'
      · exact hnot _ _ (by simpa using hxy)
      · exact hl.1 z hz'

theorem sortBy_pairwise {α : Type} (le : α → α → Bool) (R : α → α → Prop)
    (hle : ∀ a b, le a b = true → R a b) (hnot : ∀ a b, le a b = false → R b a)
    (htrans : ∀ a b c, R a b → R b c → R a c) (l : List α) :
    (sortBy le l).Pairwise R := by
  induction l with
  | nil => simp [sortBy]
  | cons x xs ih =>
    have hstep : sortBy le (x :: xs) = insertBy le x (sortBy le xs) := rfl
    rw [hstep]
    exact insertBy_pairwise le R hle hnot htrans x _ ih

/-- The engine of `env0` answers `.sort({ order: 1 })` with a permutation in
ascending order. -/
theorem env0_sorts_by_order (l : List Task) :
    (env0.sortTasks SortSpec.orderAsc l).Perm l
      ∧ (env0.sortTasks SortSpec.orderAsc l).Pairwise (fun a b => a.order ≤ b.order) := by
  refine ⟨sortBy_perm _ l, sortBy_pairwise _ _ ?_ ?_ ?_ l⟩
  · intro a b h
    simpa [keyLe] using h
  · intro a b h
    have : ¬ a.order ≤ b.order := by simpa [keyLe] using h
    omega
  · intro a b c hab hbc
    exact le_trans hab hbc

/-- The engine of `envTies` answers `.sort({ order: 1 })` with a permutation
in ascending order as well. -/
theorem envTies_sorts_by_order (l : List Task) :
    (envTies.sortTasks SortSpec.orderAsc l).Perm l
      ∧ (envTies.sortTasks SortSpec.orderAsc l).Pairwise (fun a b => a.order ≤ b.order) := by
  refine ⟨sortBy_perm _ l, sortBy_pairwise _ _ ?_ ?_ ?_ l⟩
  · intro a b h
    simp only [orderThenNewest, Bool.or_eq_true, Bool.and_eq_true, decide_eq_true_eq] at h
    rcases h with h | h
    · exact le_of_lt h
    · exact le_of_eq h.1
  · intro a b h
    simp only [orderThenNewest, Bool.or_eq_false_iff, decide_eq_false_iff_not,
      Bool.and_eq_false_iff] at h
    have := h.1
    omega
  · intro a b c hab hbc
    exact le_trans hab hbc

/-- C21 (as stated, refuted): with an engine that sorts by `order` alone,
`getTasks` with the default sort returns the tasks in ascending order, and of
the two tasks of order 3 the one created later (task 31, at 200) comes
before the one created earlier (task 30, at 100). -/
theorem getTasks_ties_not_by_creation :
    (getTasks envTies boardTies alice 1 {}).1
        = Result.sent 200 (success "Tasks fetched"
            [("tasks", JVal.tasks [tiedTask 32 1 300, tiedTask 31 3 200, tiedTask 30 3 100]),
             ("pagination", JVal.pagination 3 1 50 (some 1))])
      ∧ (tiedTask 31 3 200).order = (tiedTask 30 3 100).order
      ∧ (tiedTask 30 3 100).createdAt < (tiedTask 31 3 200).createdAt
      ∧ [tiedTask 32 1 300, tiedTask 31 3 200, tiedTask 30 3 100].Pairwise
          (fun a b => a.order ≤ b.order) := by
  decide

/-- A `200` answer of `getTasks` comes from the query branch. -/
theorem getTasks_ok {env : Env} {st st' : Store} {user : User} {projectId : ObjectId}
    {q : TaskQuery} {b : JObj}
    (h : getTasks env st user projectId q = (Result.sent 200 b, st')) :
    ¬ (q.page = 0 ∧ 0 < q.limit) ∧ st' = st
      ∧ b = success "Tasks fetched"
          [("tasks", JVal.tasks
              (if q.limit = 0 then
                (env.sortTasks (sortMap q.sort)
                  (st.tasks.filter (matchesQuery env projectId q))).drop ((q.page - 1) * q.limit)
              else
                ((env.sortTasks (sortMap q.sort)
                  (st.tasks.filter (matchesQuery env projectId q))).drop
                    ((q.page - 1) * q.limit)).take q.limit)),
           ("pagination", JVal.pagination
              (st.tasks.filter (matchesQuery env projectId q)).length q.page q.limit
              (if q.limit = 0 then none
               else some (((st.tasks.filter (matchesQuery env projectId q)).length
                  + q.limit - 1) / q.limit)))] := by
  unfold getTasks at h
  split at h
  · simp at h
  · simp at h
  · by_cases hp : q.page = 0 ∧ 0 < q.limit
    · rw [if_pos hp] at h
      simp at h
    · rw [if_neg hp] at h
      simp only [Prod.mk.injEq, Result.sent.injEq, true_and] at h
      exact ⟨hp, h.2.symm, h.1.symm⟩

/-- C21 (amended): `getTasks` with the default sort (`order`) returns the
tasks in ascending `order` value, for every engine that answers
`.sort({ order: 1 })` with a permutation in ascending order: the page holds
only stored tasks of the project that match the filter, each at most as
often as stored, and all of them when they fit on the first page. The sort
document names no second key: the relative position of tasks of equal
order is the engine's. -/
theorem getTasks_default_sort_ascending (env : Env) (st st' : Store) (user : User)
    (projectId : ObjectId) (q : TaskQuery) (b : JObj)
    (hengine : ∀ l, (env.sortTasks SortSpec.orderAsc l).Perm l
      ∧ (env.sortTasks SortSpec.orderAsc l).Pairwise (fun a b => a.order ≤ b.order))
    (hsort : q.sort = "order")
    (h : getTasks env st user projectId q = (Result.sent 200 b, st')) :
    ∃ page total pages,
      b = success "Tasks fetched"
          [("tasks", JVal.tasks page), ("pagination", JVal.pagination total q.page q.limit pages)]
        ∧ page.Pairwise (fun a b => a.order ≤ b.order)
        ∧ (∀ t ∈ page, t ∈ st.tasks ∧ t.project = projectId
            ∧ matchesQuery env projectId q t = true)
        ∧ (∀ t, page.count t ≤ (st.tasks.filter (matchesQuery env projectId q)).count t)
        ∧ total = (st.tasks.filter (matchesQuery env projectId q)).length
        ∧ (q.page = 1 → (q.limit = 0 ∨ total ≤ q.limit) →
            page.Perm (st.tasks.filter (matchesQuery env projectId q)))
        ∧ st' = st := by
  obtain ⟨_, hst, hb⟩ := getTasks_ok h
  have hmap : sortMap q.sort = SortSpec.orderAsc := by rw [hsort]; decide
  rw [hmap] at hb
  obtain ⟨hperm, hsorted⟩ := hengine (st.tasks.filter (matchesQuery env projectId q))
  have hsub : (if q.limit = 0 then
        (env.sortTasks SortSpec.orderAsc
          (st.tasks.filter (matchesQuery env projectId q))).drop ((q.page - 1) * q.limit)
      else
        ((env.sortTasks SortSpec.orderAsc
          (st.tasks.filter (matchesQuery env projectId q))).drop
            ((q.page - 1) * q.limit)).take q.limit).Sublist
      (env.sortTasks SortSpec.orderAsc (st.tasks.filter (matchesQuery env projectId q))) := by
    split_ifs
    · exact List.drop_sublist _ _
    · exact (List.take_sublist _ _).trans (List.drop_sublist _ _)
  refine ⟨_, _, _, hb, hsorted.sublist hsub, ?_, ?_, rfl, ?_, hst⟩
  · intro t ht
    have hin := hperm.subset (hsub.subset ht)
    obtain ⟨hmem, hmatch⟩ := List.mem_filter.mp hin
    refine ⟨hmem, ?_, hmatch⟩
    unfold matchesQuery at hmatch
    simp only [Bool.and_eq_true, decide_eq_true_eq] at hmatch
    exact hmatch.1.1.1.1
  · intro t
    rw [← hperm.count_eq t]
    exact hsub.count_le t
  · intro hpage hfit
    rw [hpage]
    simp only [Nat.sub_self, Nat.zero_mul, List.drop_zero]
    rcases hfit with h0 | hle
    · simp only [h0, if_true]
      exact hperm
    · split_ifs
      · exact hperm
      · rw [List.take_of_length_le (by rw [hperm.length_eq]; exact hle)]
        exact hperm

/-- Instance of the amended C21: the default query of `alice` on project 1
of `board1` with the engine of `env0`. -/
theorem getTasks_default_sort_ascending_witness :
    (∀ l, (env0.sortTasks SortSpec.orderAsc l).Perm l
        ∧ (env0.sortTasks SortSpec.orderAsc l).Pairwise (fun a b => a.order ≤ b.order))
      ∧ ({} : TaskQuery).sort = "order"
      ∧ getTasks env0 board1 alice 1 {}
          = (Result.sent 200 (success "Tasks fetched"
              [("tasks", JVal.tasks [sampleTask 20 1 "todo" 0, sampleTask 21 1 "todo" 4,
                  sampleTask 22 1 "in_progress" 9]),
               ("pagination", JVal.pagination 3 1 50 (some 1))]), board1)
      ∧ ∃ page total pages,
          success "Tasks fetched"
              [("tasks", JVal.tasks [sampleTask 20 1 "todo" 0, sampleTask 21 1 "todo" 4,
                  sampleTask 22 1 "in_progress" 9]),
               ("pagination", JVal.pagination 3 1 50 (some 1))]
            = success "Tasks fetched"
                [("tasks", JVal.tasks page),
                 ("pagination", JVal.pagination total ({} : TaskQuery).page
                    ({} : TaskQuery).limit pages)]
          ∧ page.Pairwise (fun a b => a.order ≤ b.order)
          ∧ (∀ t ∈ page, t ∈ board1.tasks ∧ t.project = 1 ∧ matchesQuery env0 1 {} t = true)
          ∧ (∀ t, page.count t ≤ (board1.tasks.filter (matchesQuery env0 1 {})).count t)
          ∧ total = (board1.tasks.filter (matchesQuery env0 1 {})).length
          ∧ (({} : TaskQuery).page = 1 → (({} : TaskQuery).limit = 0
                ∨ total ≤ ({} : TaskQuery).limit) →
              page.Perm (board1.tasks.filter (matchesQuery env0 1 {})))
          ∧ board1 = board1 :=
  have h : getTasks env0 board1 alice 1 {}
      = (Result.sent 200 (success "Tasks fetched"
          [("tasks", JVal.tasks [sampleTask 20 1 "todo" 0, sampleTask 21 1 "todo" 4,
              sampleTask 22 1 "in_progress" 9]),
           ("pagination", JVal.pagination 3 1 50 (some 1))]), board1) := by decide
  ⟨env0_sorts_by_order, rfl, h,
    getTasks_default_sort_ascending env0 board1 board1 alice 1 {} _ env0_sorts_by_order rfl h⟩

end TaskFlow
